import Mathlib

/-!
Shallow embedding of the BSG CCG engine (`src/shared/src/index.ts`,
`src/shared/src/deckValidation.ts`) and of the AI deck builder, together with
proofs settling the specification claims.

Modelling conventions, used uniformly below:
* TypeScript `undefined` / optional fields become `Option`.
* A thrown exception (unknown card def, property access on `undefined`)
  becomes `none` in an `Option`-returning function.
* The registry (module-global `cardRegistry` in the source, set once via
  `setCardRegistry`) is passed explicitly as a `RegMap` parameter.
* The module-global `instanceCounter` is threaded explicitly as a `Nat`
  parameter wherever `makeCardInstance` can run.
* `Math.random`-driven shuffles are abstracted as an explicit
  `Shuffler` parameter; a Fisher-Yates shuffle always yields a permutation,
  so theorems quantify over shufflers that permute (or preserve length).
* The `players` array always has length 2 (`createGame` builds exactly two
  players); it is modelled as an explicit pair.  Indexing `players[i]` is
  total here (`i = 0` gives player 0, anything else player 1); theorems
  restrict indices to `< 2`, where this agrees with the source.
* JavaScript truthiness on optional string fields (`def.title &&
  def.subtitle`) is modelled as `Option.isSome`; card data never uses the
  empty string.
-/

namespace BSG

/-- Resource types and card types are string literals in the source
(`"persuasion" | "logistics" | "security"`, `"personnel" | "ship" | "event"
| "mission"`); we keep them as strings. -/
abbrev ResourceType := String

/-- Card template definition (`CardDef` in `index.ts`).  Fields not used by
any engine logic (image, set, number, rarity, keywords, texts other than
`abilityText`) are omitted.  `cost` is `{persuasion?, logistics?, security?}
| null`; `Object.entries` of the cost object is modelled as the list of
present entries in insertion order. -/
structure CardDef where
  id : String
  title : Option String := none
  subtitle : Option String := none
  type : String
  cost : Option (List (ResourceType × Nat)) := none
  power : Option Int := none
  cylonThreat : Option Int := none
  mysticValue : Option Int := none
  resource : Option ResourceType := none
  abilityText : String := ""
  abilityId : Option String := none
  deriving DecidableEq, Repr

/-- Base card definition (`BaseCardDef`). -/
structure BaseCardDef where
  id : String
  title : String
  power : Int
  startingInfluence : Int
  handSize : Nat
  resource : ResourceType
  abilityText : String := ""
  abilityId : Option String := none
  deriving DecidableEq, Repr

/-- A runtime card instance. -/
structure CardInstance where
  instanceId : String
  defId : String
  faceUp : Bool
  deriving DecidableEq, Repr

structure ResourceStack where
  topCard : CardInstance
  supplyCards : List CardInstance
  exhausted : Bool
  deriving DecidableEq, Repr

structure UnitStack where
  cards : List CardInstance
  exhausted : Bool
  deriving DecidableEq, Repr

structure PlayerZones where
  alert : List UnitStack
  reserve : List UnitStack
  resourceStacks : List ResourceStack
  deriving DecidableEq, Repr

inductive GamePhase where
  | setup | ready | execution | cylon | gameOver
  deriving DecidableEq, Repr

structure ChallengeState where
  challengerInstanceId : String
  challengerPlayerIndex : Nat
  defenderInstanceId : Option String
  defenderPlayerIndex : Nat
  step : Nat
  challengerMysticValue : Option Int
  defenderMysticValue : Option Int
  waitingForDefender : Bool
  consecutivePasses : Nat
  challengerPowerBuff : Option Int := none
  defenderPowerBuff : Option Int := none
  isCylonChallenge : Bool
  cylonThreatIndex : Option Nat := none
  cylonPlayerIndex : Option Nat := none
  deriving DecidableEq, Repr

structure CylonThreatCard where
  card : CardInstance
  power : Int
  ownerIndex : Nat
  deriving DecidableEq, Repr

structure PlayerState where
  baseDefId : String
  zones : PlayerZones
  hand : List CardInstance
  deck : List CardInstance
  discard : List CardInstance
  influence : Int
  hasMulliganed : Bool
  hasPlayedResource : Bool
  hasResolvedMission : Bool
  consecutivePasses : Nat
  deriving DecidableEq, Repr

/-- The two-element `players` array. -/
structure Players where
  p0 : PlayerState
  p1 : PlayerState
  deriving DecidableEq, Repr

/-- `players[i]`; total (see header note), `i = 0` selects player 0,
any other index selects player 1. -/
def Players.get (ps : Players) (i : Nat) : PlayerState :=
  if i = 0 then ps.p0 else ps.p1

def Players.set (ps : Players) (i : Nat) (p : PlayerState) : Players :=
  if i = 0 then { ps with p0 := p } else { ps with p1 := p }

structure GameState where
  players : Players
  phase : GamePhase
  turn : Nat
  readyStep : Nat
  firstPlayerIndex : Nat
  activePlayerIndex : Nat
  fleetDefenseLevel : Int
  challenge : Option ChallengeState
  cylonThreats : List CylonThreatCard
  log : List String
  winner : Option Nat
  deriving DecidableEq, Repr

def GameState.getP (s : GameState) (i : Nat) : PlayerState := s.players.get i

def GameState.setP (s : GameState) (i : Nat) (p : PlayerState) : GameState :=
  { s with players := s.players.set i p }

/-- The game action union (`GameAction` in `index.ts`). -/
inductive GameAction where
  | keepHand
  | redraw
  | drawCards
  | playToResource (cardIndex : Nat) (asSupply : Bool) (targetStackIndex : Option Nat)
  | passResource
  | doneReorder
  | playCard (cardIndex : Nat)
  | playAbility (sourceInstanceId : String) (targetInstanceId : Option String)
  | resolveMission (missionInstanceId : String) (unitInstanceIds : List String)
  | challenge (challengerInstanceId : String) (opponentIndex : Nat)
  | defend (defenderInstanceId : Option String)
  | challengePass
  | playEventInChallenge (cardIndex : Nat) (targetInstanceId : Option String)
  | pass
  | challengeCylon (challengerInstanceId : String) (threatIndex : Nat)
  | passCylon
  deriving DecidableEq, Repr

/-- An entry of the valid-action list (`ValidAction`). -/
structure ValidAction where
  type : String
  description : String
  cardDefId : Option String := none
  disabled : Option Bool := none
  selectableCardIndices : Option (List Nat) := none
  selectableInstanceIds : Option (List String) := none
  selectableStackIndices : Option (List Nat) := none
  selectableThreatIndices : Option (List Nat) := none
  deriving DecidableEq, Repr

/-- Opponent part of a player view. -/
structure OpponentView where
  zones : PlayerZones
  handCount : Nat
  deckCount : Nat
  discardCount : Nat
  influence : Int
  deriving DecidableEq, Repr

structure YouView where
  playerIndex : Nat
  zones : PlayerZones
  hand : List CardInstance
  deckCount : Nat
  discardCount : Nat
  influence : Int
  deriving DecidableEq, Repr

structure PlayerGameView where
  you : YouView
  opponent : OpponentView
  phase : GamePhase
  turn : Nat
  readyStep : Nat
  firstPlayerIndex : Nat
  activePlayerIndex : Nat
  fleetDefenseLevel : Int
  challenge : Option ChallengeState
  cylonThreats : List CylonThreatCard
  log : List String
  winner : Option Nat
  deriving DecidableEq, Repr

/-- `Record<string, CardDef>` as an association list keyed by card id. -/
abbrev RegMap := List (String × CardDef)

/-- `Record<string, BaseCardDef>`. -/
abbrev BasesMap := List (String × BaseCardDef)

/-- Record lookup (`record[key]`, `undefined` when absent). -/
def alookup {α : Type} (m : List (String × α)) (key : String) : Option α :=
  match m with
  | [] => none
  | (k, v) :: rest => if k = key then some v else alookup rest key

/-- One outcome of the in-place Fisher-Yates `shuffle`. -/
abbrev Shuffler := List CardInstance → List CardInstance

-- ============================================================
-- Small helpers from index.ts
-- ============================================================

/-- `makeCardInstance` using the explicit instance counter: the next id is
`card-(ctr+1)` (the source pre-increments the counter). -/
def makeCardInstance (ctr : Nat) (defId : String) : CardInstance :=
  { instanceId := "card-" ++ toString (ctr + 1), defId := defId, faceUp := true }

/-- `getCardDef` — throws (`none`) on an unknown id. -/
def getCardDef (reg : RegMap) (defId : String) : Option CardDef :=
  alookup reg defId

def isUnit (d : CardDef) : Bool :=
  d.type = "personnel" || d.type = "ship"

def isMission (d : CardDef) : Bool :=
  d.type = "mission"

/-- A singular card has both title and subtitle. -/
def isSingular (d : CardDef) : Bool :=
  d.title.isSome && d.subtitle.isSome

def cardName (d : CardDef) : String :=
  match d.title, d.subtitle with
  | some t, some sub => t ++ ", " ++ sub
  | _, _ => (d.title.getD (d.subtitle.getD "?"))

/-- `determineFirstPlayer` — lowest influence, tie keeps previous. -/
def determineFirstPlayer (s : GameState) : Nat :=
  let inf0 := s.players.p0.influence
  let inf1 := s.players.p1.influence
  if inf0 < inf1 then 0
  else if inf1 < inf0 then 1
  else s.firstPlayerIndex

/-- One draw step shared by the `drawCards` loop body. -/
def drawCardsFn (shuf : Shuffler) : Nat → PlayerState → List String → String →
    PlayerState × List String
  | 0, p, log, _ => (p, log)
  | Nat.succ n, p, log, label =>
    match p.deck with
    | [] =>
      match p.discard with
      | [] => (p, log ++ [label ++ " has no cards to draw."])
      | _ :: _ =>
        let p' : PlayerState := { p with deck := shuf p.discard, discard := [] }
        let log' := log ++ [label ++ " reshuffled discard pile into deck."]
        match p'.deck with
        | [] => (p', log')  -- unreachable when `shuf` permutes a nonempty list
        | c :: rest =>
          drawCardsFn shuf n { p' with deck := rest, hand := p'.hand ++ [c] } log' label
    | c :: rest =>
      drawCardsFn shuf n { p with deck := rest, hand := p.hand ++ [c] } log label

/-- `revealMysticValue`.  Returns the new instance counter, the revealed
value, the revealed (or placeholder) card, the updated player and the log
additions; `none` models the `getCardDef` throw. -/
def revealMysticValue (reg : RegMap) (shuf : Shuffler) (ctr : Nat)
    (p : PlayerState) (label : String) :
    Option (Nat × Int × CardInstance × PlayerState × List String) :=
  match p.deck with
  | [] =>
    match p.discard with
    | [] => some (ctr + 1, 0, makeCardInstance ctr "condition-one", p, [])
    | _ :: _ =>
      let p' : PlayerState := { p with deck := shuf p.discard, discard := [] }
      let log1 := [label ++ " reshuffled discard pile into deck."]
      match p'.deck with
      | [] => none  -- unreachable when `shuf` permutes; the source would throw
      | c :: rest =>
        match getCardDef reg c.defId with
        | none => none
        | some d =>
          let v := d.mysticValue.getD 0
          some (ctr, v, c,
            { p' with deck := rest, discard := p'.discard ++ [c] },
            log1 ++ [label ++ " reveals " ++ cardName d ++ " (mystic value " ++ toString v ++ ")."])
  | c :: rest =>
    match getCardDef reg c.defId with
    | none => none
    | some d =>
      let v := d.mysticValue.getD 0
      some (ctr, v, c,
        { p with deck := rest, discard := p.discard ++ [c] },
        [label ++ " reveals " ++ cardName d ++ " (mystic value " ++ toString v ++ ")."])

/-- `stackResourceCount`. -/
def stackResourceCount (st : ResourceStack) : Nat :=
  1 + st.supplyCards.length

/-- `getStackResourceTypeFromPlayer` (and the identical
`getStackResourceType`); the source's `player` parameter is unused.  Uses
optional chaining, so it never throws. -/
def getStackResourceTypeFromPlayer (reg : RegMap) (bases : BasesMap)
    (st : ResourceStack) : Option String :=
  match alookup bases st.topCard.defId with
  | some b => some b.resource
  | none =>
    match alookup reg st.topCard.defId with
    | some d => d.resource
    | none => none

/-- `findUnitInZone` — also returns the index. -/
def findUnitInZoneAux : List UnitStack → String → Nat → Option (UnitStack × Nat)
  | [], _, _ => none
  | st :: rest, iid, i =>
    if st.cards.head?.map (·.instanceId) = some iid then some (st, i)
    else findUnitInZoneAux rest iid (i + 1)

def findUnitInZone (zone : List UnitStack) (instanceId : String) :
    Option (UnitStack × Nat) :=
  findUnitInZoneAux zone instanceId 0

/-- `getUnitPower` — throws on an unknown top-card def. -/
def getUnitPower (reg : RegMap) (st : UnitStack) : Option Int :=
  match st.cards.head? with
  | none => some 0
  | some c =>
    match getCardDef reg c.defId with
    | none => none
    | some d => some (d.power.getD 0)

inductive ZoneTag where
  | alert | reserve
  deriving DecidableEq, Repr

/-- Search one zone list for a stack whose top card's title equals `t`.
The source reads `stack.cards[0].defId` unguarded (throws on an empty
stack) and `getCardDef` (throws on an unknown def); both become `none` in
the outer `Option`.  The inner result is the matched index (the source
returns the stack object itself and later mutates it in place; we return
its index and update positionally, which is the same mutation). -/
def findOverlayInList (reg : RegMap) : List UnitStack → String → Nat →
    Option (Option Nat)
  | [], _, _ => some none
  | st :: rest, t, i =>
    match st.cards.head? with
    | none => none
    | some c =>
      match getCardDef reg c.defId with
      | none => none
      | some topDef =>
        if topDef.title = some t then some (some i)
        else findOverlayInList reg rest t (i + 1)

/-- `findOverlayTarget` — alert first, then reserve. -/
def findOverlayTarget (reg : RegMap) (p : PlayerState) (d : CardDef) :
    Option (Option (ZoneTag × Nat)) :=
  match d.title with
  | none => some none
  | some t =>
    match findOverlayInList reg p.zones.alert t 0 with
    | none => none
    | some (some i) => some (some (ZoneTag.alert, i))
    | some none =>
      match findOverlayInList reg p.zones.reserve t 0 with
      | none => none
      | some (some i) => some (some (ZoneTag.reserve, i))
      | some none => some none

/-- Sum of face-up top cards' `cylonThreat` over a zone list (the loop body
of `computeCylonThreatLevel`). -/
def threatLevelOfZone (reg : RegMap) : List UnitStack → Option Int
  | [] => some 0
  | st :: rest =>
    match st.cards.head? with
    | none => threatLevelOfZone reg rest  -- `topCard && topCard.faceUp` fails
    | some c =>
      if c.faceUp then
        match getCardDef reg c.defId with
        | none => none
        | some d =>
          match threatLevelOfZone reg rest with
          | none => none
          | some acc => some (d.cylonThreat.getD 0 + acc)
      else threatLevelOfZone reg rest

def threatLevelOfPlayer (reg : RegMap) (p : PlayerState) : Option Int := do
  let a ← threatLevelOfZone reg p.zones.alert
  let r ← threatLevelOfZone reg p.zones.reserve
  pure (a + r)

/-- `computeCylonThreatLevel`. -/
def computeCylonThreatLevel (reg : RegMap) (s : GameState) : Option Int := do
  let a ← threatLevelOfPlayer reg s.players.p0
  let b ← threatLevelOfPlayer reg s.players.p1
  pure (a + b)

/-- Inner loops of `findCardDefByInstanceId`. -/
def findDefInCards (reg : RegMap) : List CardInstance → String →
    Option (Option CardDef)
  | [], _ => some none
  | c :: rest, iid =>
    if c.instanceId = iid then
      match getCardDef reg c.defId with
      | none => none
      | some d => some (some d)
    else findDefInCards reg rest iid

def findDefInStacks (reg : RegMap) : List UnitStack → String →
    Option (Option CardDef)
  | [], _ => some none
  | st :: rest, iid =>
    match findDefInCards reg st.cards iid with
    | none => none
    | some (some d) => some (some d)
    | some none => findDefInStacks reg rest iid

def findDefInPlayer (reg : RegMap) (p : PlayerState) (iid : String) :
    Option (Option CardDef) :=
  match findDefInStacks reg p.zones.alert iid with
  | none => none
  | some (some d) => some (some d)
  | some none => findDefInStacks reg p.zones.reserve iid

/-- `findCardDefByInstanceId` — searches both players' alert and reserve
zones. -/
def findCardDefByInstanceId (reg : RegMap) (s : GameState) (iid : String) :
    Option (Option CardDef) :=
  match findDefInPlayer reg s.players.p0 iid with
  | none => none
  | some (some d) => some (some d)
  | some none => findDefInPlayer reg s.players.p1 iid

/-- Available (non-exhausted) quantity of one resource type, the inner loop
of `canAfford`. -/
def availableOfType (reg : RegMap) (bases : BasesMap)
    (sts : List ResourceStack) (resType : String) : Nat :=
  sts.foldl
    (fun acc st =>
      if st.exhausted then acc
      else if getStackResourceTypeFromPlayer reg bases st = some resType then
        acc + stackResourceCount st
      else acc) 0

/-- `canAfford` — never throws (all lookups are optional-chained). -/
def canAfford (reg : RegMap) (bases : BasesMap) (p : PlayerState)
    (d : CardDef) : Bool :=
  match d.cost with
  | none => true
  | some entries =>
    entries.all fun e =>
      decide (e.2 ≤ availableOfType reg bases p.zones.resourceStacks e.1)

/-- Inner stack loop of `payResourceCost` for one cost entry:  exhaust
matching non-exhausted stacks until the remaining requirement is `≤ 0`. -/
def payResourceCostStacks (reg : RegMap) (bases : BasesMap) :
    List ResourceStack → String → Int → List ResourceStack
  | [], _, _ => []
  | st :: rest, resType, remaining =>
    if remaining ≤ 0 then st :: rest
    else if st.exhausted then st :: payResourceCostStacks reg bases rest resType remaining
    else if getStackResourceTypeFromPlayer reg bases st = some resType then
      { st with exhausted := true } ::
        payResourceCostStacks reg bases rest resType
          (remaining - (stackResourceCount st : Int))
    else st :: payResourceCostStacks reg bases rest resType remaining

/-- `payResourceCost`. -/
def payResourceCost (reg : RegMap) (bases : BasesMap) (p : PlayerState)
    (cost : Option (List (ResourceType × Nat))) : PlayerState :=
  match cost with
  | none => p
  | some entries =>
    { p with
      zones.resourceStacks :=
        entries.foldl
          (fun sts e => payResourceCostStacks reg bases sts e.1 (e.2 : Int))
          p.zones.resourceStacks }

-- --- Mission requirement parsing ---
-- `canResolveMission` matches `/Resolve:\s*(\d+)\s+(ship|personnel)/i`
-- against the ability text.  We run the same scan over the lowercased
-- character list: try the pattern at every position, leftmost match wins.

def natOfDigits (ds : List Char) : Nat :=
  ds.foldl (fun acc c => acc * 10 + (c.toNat - 48)) 0

/-- Try to match `resolve:\s*(\d+)\s+(ship|personnel)` at the head of an
(already lowercased) character list. -/
def parseResolveHere (cs : List Char) : Option (Nat × String) :=
  if ("resolve:".toList).isPrefixOf cs then
    let rest0 := cs.drop 8
    let rest1 := rest0.dropWhile Char.isWhitespace
    let ds := rest1.takeWhile Char.isDigit
    let rest2 := rest1.dropWhile Char.isDigit
    if ds.isEmpty then none
    else
      let ws := rest2.takeWhile Char.isWhitespace
      let rest3 := rest2.dropWhile Char.isWhitespace
      if ws.isEmpty then none
      else if ("ship".toList).isPrefixOf rest3 then some (natOfDigits ds, "ship")
      else if ("personnel".toList).isPrefixOf rest3 then some (natOfDigits ds, "personnel")
      else none
  else none

def findResolveReq : List Char → Option (Nat × String)
  | [] => none
  | c :: rest =>
    match parseResolveHere (c :: rest) with
    | some r => some r
    | none => findResolveReq rest

/-- Count the alert stacks whose face-up, non-exhausted top card has the
required type (the availability loop of `canResolveMission`). -/
def countAlertOfType (reg : RegMap) : List UnitStack → String → Option Nat
  | [], _ => some 0
  | st :: rest, reqType =>
    match st.cards.head? with
    | none => countAlertOfType reg rest reqType
    | some c =>
      if c.faceUp && !st.exhausted then
        match getCardDef reg c.defId with
        | none => none
        | some d =>
          match countAlertOfType reg rest reqType with
          | none => none
          | some n => some (if d.type = reqType then n + 1 else n)
      else countAlertOfType reg rest reqType

/-- `canResolveMission`. -/
def canResolveMission (reg : RegMap) (p : PlayerState) (missionDef : CardDef) :
    Option Bool :=
  match findResolveReq missionDef.abilityText.toLower.toList with
  | none => some true
  | some (count, reqType) =>
    match countAlertOfType reg p.zones.alert reqType with
    | none => none
    | some available => some (decide (count ≤ available))

-- ============================================================
-- Get Player View
-- ============================================================

/-- `getPlayerView`. -/
def getPlayerView (s : GameState) (playerIndex : Nat) : PlayerGameView :=
  let you := s.getP playerIndex
  let opp := s.getP (1 - playerIndex)
  { you :=
      { playerIndex := playerIndex
        zones := you.zones
        hand := you.hand
        deckCount := you.deck.length
        discardCount := you.discard.length
        influence := you.influence }
    opponent :=
      { zones := opp.zones
        handCount := opp.hand.length
        deckCount := opp.deck.length
        discardCount := opp.discard.length
        influence := opp.influence }
    phase := s.phase
    turn := s.turn
    readyStep := s.readyStep
    firstPlayerIndex := s.firstPlayerIndex
    activePlayerIndex := s.activePlayerIndex
    fleetDefenseLevel := s.fleetDefenseLevel
    challenge := s.challenge
    cylonThreats := s.cylonThreats
    log := s.log
    winner := s.winner }

-- ============================================================
-- Create Game
-- ============================================================

/-- Instantiate a list of def ids with sequential instance ids. -/
def makeInstances : Nat → List String → Nat × List CardInstance
  | ctr, [] => (ctr, [])
  | ctr, defId :: rest =>
    let c := makeCardInstance ctr defId
    let (ctr', cs) := makeInstances (ctr + 1) rest
    (ctr', c :: cs)

/-- The `makePlayer` closure of `createGame`. -/
def makePlayer (ctr : Nat) (base : BaseCardDef) (deckDefIds : List String) :
    Nat × PlayerState :=
  let baseInstance := makeCardInstance ctr base.id
  let (ctr', deckInstances) := makeInstances (ctr + 1) deckDefIds
  (ctr',
    { baseDefId := base.id
      zones :=
        { alert := []
          reserve := []
          resourceStacks := [{ topCard := baseInstance, supplyCards := [], exhausted := false }] }
      hand := []
      deck := deckInstances
      discard := []
      influence := base.startingInfluence
      hasMulliganed := false
      hasPlayedResource := false
      hasResolvedMission := false
      consecutivePasses := 0 })

/-- `createGame`.  The source resets the global instance counter to 0; the
returned `Nat` is the counter value after creation. -/
def createGame (shuf : Shuffler) (base1 : BaseCardDef) (deck1 : List String)
    (base2 : BaseCardDef) (deck2 : List String) : Nat × GameState :=
  let (ctr1, p1) := makePlayer 0 base1 deck1
  let (ctr2, p2) := makePlayer ctr1 base2 deck2
  let fleetDefenseLevel := base1.power + base2.power
  let p1 := { p1 with deck := shuf p1.deck }
  let p2 := { p2 with deck := shuf p2.deck }
  let (p1, log) := drawCardsFn shuf base1.handSize p1 [] "Player 1"
  let (p2, log) := drawCardsFn shuf base2.handSize p2 log "Player 2"
  (ctr2,
    { players := { p0 := p1, p1 := p2 }
      phase := GamePhase.setup
      turn := 0
      readyStep := 1
      firstPlayerIndex := if p1.influence ≤ p2.influence then 0 else 1
      activePlayerIndex := if p1.influence ≤ p2.influence then 0 else 1
      fleetDefenseLevel := fleetDefenseLevel
      challenge := none
      cylonThreats := []
      log := log ++ ["Game created. Players may choose to keep or redraw their hands."]
      winner := none })

-- ============================================================
-- Get Valid Actions
-- ============================================================

/-- Execution-phase `playCard` entries: one per affordable hand card. -/
def playCardActions (reg : RegMap) (bases : BasesMap) (p : PlayerState) :
    List CardInstance → Nat → Option (List ValidAction)
  | [], _ => some []
  | c :: rest, i =>
    match getCardDef reg c.defId with
    | none => none
    | some d =>
      match playCardActions reg bases p rest (i + 1) with
      | none => none
      | some acc =>
        if canAfford reg bases p d then
          some ({ type := "playCard"
                  description := "Play " ++ cardName d
                  selectableCardIndices := some [i] } :: acc)
        else some acc

/-- Commit-ability entries for a list of alert stacks.  In the execution
phase the stack must be face-up and unexhausted; in the challenge effects
round the source omits the exhaustion check. -/
def commitAbilityActions (reg : RegMap) (requireUnexhausted : Bool) :
    List UnitStack → Option (List ValidAction)
  | [] => some []
  | st :: rest =>
    match st.cards.head? with
    | none => commitAbilityActions reg requireUnexhausted rest
    | some c =>
      if c.faceUp && (!requireUnexhausted || !st.exhausted) then
        match getCardDef reg c.defId with
        | none => none
        | some d =>
          match commitAbilityActions reg requireUnexhausted rest with
          | none => none
          | some acc =>
            if d.abilityId.isSome && "Commit:".isPrefixOf d.abilityText then
              some ({ type := "playAbility"
                      description := cardName d ++ ": " ++ d.abilityText
                      selectableInstanceIds := some [c.instanceId] } :: acc)
            else some acc
      else commitAbilityActions reg requireUnexhausted rest

/-- Face-up, unexhausted alert units (the challenge / cylon-challenge
candidate loops). -/
def alertUnitIds (reg : RegMap) : List UnitStack → Option (List String)
  | [] => some []
  | st :: rest =>
    match st.cards.head? with
    | none => alertUnitIds reg rest
    | some c =>
      if c.faceUp && !st.exhausted then
        match getCardDef reg c.defId with
        | none => none
        | some d =>
          match alertUnitIds reg rest with
          | none => none
          | some acc => if isUnit d then some (c.instanceId :: acc) else some acc
      else alertUnitIds reg rest

/-- Resolvable-mission entries over the alert zone. -/
def missionActions (reg : RegMap) (p : PlayerState) :
    List UnitStack → Option (List ValidAction)
  | [] => some []
  | st :: rest =>
    match st.cards.head? with
    | none => missionActions reg p rest
    | some c =>
      if c.faceUp then
        match getCardDef reg c.defId with
        | none => none
        | some d =>
          match missionActions reg p rest with
          | none => none
          | some acc =>
            if isMission d then
              match canResolveMission reg p d with
              | none => none
              | some true =>
                some ({ type := "resolveMission"
                        description := "Resolve " ++ cardName d ++ ": " ++ d.abilityText
                        selectableInstanceIds := some [c.instanceId] } :: acc)
              | some false => some acc
            else some acc
      else missionActions reg p rest

/-- Eligible defenders: face-up unexhausted alert units of the challenger's
type. -/
def defenderIds (reg : RegMap) (challengerType : String) :
    List UnitStack → Option (List String)
  | [] => some []
  | st :: rest =>
    match st.cards.head? with
    | none => defenderIds reg challengerType rest
    | some c =>
      if c.faceUp && !st.exhausted then
        match getCardDef reg c.defId with
        | none => none
        | some d =>
          match defenderIds reg challengerType rest with
          | none => none
          | some acc =>
            if isUnit d && d.type = challengerType then some (c.instanceId :: acc)
            else some acc
      else defenderIds reg challengerType rest

/-- Affordable event entries during the challenge effects round. -/
def eventActions (reg : RegMap) (bases : BasesMap) (p : PlayerState) :
    List CardInstance → Nat → Option (List ValidAction)
  | [], _ => some []
  | c :: rest, i =>
    match getCardDef reg c.defId with
    | none => none
    | some d =>
      match eventActions reg bases p rest (i + 1) with
      | none => none
      | some acc =>
        if d.type = "event" && canAfford reg bases p d then
          some ({ type := "playEventInChallenge"
                  description := "Play " ++ cardName d ++ ": " ++ d.abilityText
                  selectableCardIndices := some [i] } :: acc)
        else some acc

/-- `getChallengeActions`. -/
def getChallengeActions (reg : RegMap) (bases : BasesMap) (s : GameState)
    (playerIndex : Nat) (challenge : ChallengeState) :
    Option (List ValidAction) :=
  let p := s.getP playerIndex
  if challenge.waitingForDefender && playerIndex = challenge.defenderPlayerIndex then
    match findCardDefByInstanceId reg s challenge.challengerInstanceId with
    | none => none
    | some challengerDef =>
      let defendersPart :=
        match challengerDef with
        | none => some []
        | some cd =>
          match defenderIds reg cd.type p.zones.alert with
          | none => none
          | some [] => some []
          | some ds =>
            some [{ type := "defend"
                    description := "Choose a defender"
                    selectableInstanceIds := some ds : ValidAction }]
      match defendersPart with
      | none => none
      | some part =>
        some (part ++ [{ type := "defend", description := "Decline to defend" }])
  else if challenge.step = 2 && s.activePlayerIndex = playerIndex then
    match eventActions reg bases p p.hand 0 with
    | none => none
    | some evs =>
      match commitAbilityActions reg false p.zones.alert with
      | none => none
      | some abs =>
        some (evs ++ abs ++ [{ type := "challengePass", description := "Pass" }])
  else some []

/-- `getValidActions`. -/
def getValidActions (reg : RegMap) (bases : BasesMap) (s : GameState)
    (playerIndex : Nat) : Option (List ValidAction) :=
  let p := s.getP playerIndex
  let isActive := s.activePlayerIndex = playerIndex
  if s.phase = GamePhase.setup then
    if !p.hasMulliganed && 0 < p.hand.length then
      some [{ type := "keepHand", description := "Keep your hand" },
            { type := "redraw", description := "Redraw your hand" }]
    else some []
  else if s.phase = GamePhase.gameOver then some []
  else
    match s.challenge with
    | some c => getChallengeActions reg bases s playerIndex c
    | none =>
      if s.phase = GamePhase.ready && s.readyStep = 3 && isActive then
        some [{ type := "drawCards", description := "Draw 2 Cards" }]
      else if s.phase = GamePhase.ready && s.readyStep = 4 && isActive then
        if !p.hasPlayedResource then
          let deploy :=
            if 0 < p.hand.length then
              [{ type := "playToResource"
                 description := "Deploy a card to resource area"
                 selectableCardIndices := some (List.range p.hand.length)
                 selectableStackIndices :=
                   some (List.range p.zones.resourceStacks.length) : ValidAction }]
            else []
          some (deploy ++
            [{ type := "passResource"
               description := "Pass (don\x27t play to resource area)" }])
        else some []
      else if s.phase = GamePhase.ready && s.readyStep = 5 && isActive then
        some [{ type := "doneReorder", description := "Done reordering stacks" }]
      else if s.phase = GamePhase.execution && isActive then
        match playCardActions reg bases p p.hand 0 with
        | none => none
        | some plays =>
          let basePart :=
            match alookup bases p.baseDefId with
            | none => some []
            | some baseDef =>
              if baseDef.abilityId.isSome then
                match p.zones.resourceStacks.head? with
                | none => none  -- `resourceStacks[0].exhausted` throws
                | some st0 =>
                  if !st0.exhausted then
                    some [{ type := "playAbility"
                            description :=
                              "Use " ++ baseDef.title ++ " ability: " ++ baseDef.abilityText
                            selectableInstanceIds := some [st0.topCard.instanceId] : ValidAction }]
                  else some []
              else some []
          match basePart with
          | none => none
          | some basePart =>
            match commitAbilityActions reg true p.zones.alert with
            | none => none
            | some abs =>
              match alertUnitIds reg p.zones.alert with
              | none => none
              | some challengeUnits =>
                let challengePart :=
                  if 0 < challengeUnits.length then
                    [{ type := "challenge"
                       description := "Challenge opponent"
                       selectableInstanceIds := some challengeUnits : ValidAction }]
                  else []
                let missionsPart :=
                  if !p.hasResolvedMission then missionActions reg p p.zones.alert
                  else some []
                match missionsPart with
                | none => none
                | some missions =>
                  some (plays ++ basePart ++ abs ++ challengePart ++ missions ++
                    [{ type := "pass", description := "Pass" }])
      else if s.phase = GamePhase.cylon && isActive && 0 < s.cylonThreats.length then
        match alertUnitIds reg p.zones.alert with
        | none => none
        | some units =>
          let challengePart :=
            if 0 < units.length then
              [{ type := "challengeCylon"
                 description := "Challenge a Cylon threat"
                 selectableInstanceIds := some units
                 selectableThreatIndices :=
                   some (List.range s.cylonThreats.length) : ValidAction }]
            else []
          some (challengePart ++
            [{ type := "passCylon", description := "Pass (lose 1 influence)" }])
      else some []

-- ============================================================
-- Unit helpers / effect resolution
-- ============================================================

def listUpdate {α : Type} : List α → Nat → (α → α) → List α
  | [], _, _ => []
  | x :: rest, 0, f => f x :: rest
  | x :: rest, Nat.succ n, f => x :: listUpdate rest n f

def ZoneTag.str : ZoneTag → String
  | ZoneTag.alert => "alert"
  | ZoneTag.reserve => "reserve"

/-- `findUnitInAnyZone` — alert first, then reserve, with the index. -/
def findUnitInAnyZone (p : PlayerState) (iid : String) :
    Option (UnitStack × ZoneTag × Nat) :=
  match findUnitInZone p.zones.alert iid with
  | some (st, i) => some (st, ZoneTag.alert, i)
  | none =>
    match findUnitInZone p.zones.reserve iid with
    | some (st, i) => some (st, ZoneTag.reserve, i)
    | none => none

/-- `commitUnit` — move the stack from alert to reserve (only when found in
alert). -/
def commitUnit (p : PlayerState) (iid : String) : PlayerState :=
  match findUnitInAnyZone p iid with
  | some (st, ZoneTag.alert, i) =>
    { p with
      zones.alert := p.zones.alert.eraseIdx i
      zones.reserve := p.zones.reserve ++ [st] }
  | _ => p

/-- `defeatUnit` — remove the whole stack from play, all cards to the
owner's discard. -/
def defeatUnit (reg : RegMap) (p : PlayerState) (iid : String)
    (log : List String) : Option (PlayerState × List String) :=
  match findUnitInAnyZone p iid with
  | none => some (p, log)
  | some (st, zone, i) =>
    match st.cards.head? with
    | none => none  -- `found.stack.cards[0].defId` on an empty stack throws
    | some c =>
      match getCardDef reg c.defId with
      | none => none
      | some d =>
        let log := log ++ [cardName d ++ " is defeated."]
        match zone with
        | ZoneTag.alert =>
          some ({ p with
                  zones.alert := p.zones.alert.eraseIdx i
                  discard := p.discard ++ st.cards }, log)
        | ZoneTag.reserve =>
          some ({ p with
                  zones.reserve := p.zones.reserve.eraseIdx i
                  discard := p.discard ++ st.cards }, log)

def resetConsecutivePasses (s : GameState) : GameState :=
  { s with
    players :=
      { p0 := { s.players.p0 with consecutivePasses := 0 }
        p1 := { s.players.p1 with consecutivePasses := 0 } } }

def advanceExecutionTurn (s : GameState) : GameState :=
  { s with activePlayerIndex := (s.activePlayerIndex + 1) % 2 }

def advanceCylonTurn (s : GameState) : GameState :=
  { s with activePlayerIndex := (s.activePlayerIndex + 1) % 2 }

def advanceChallengeEffectTurn (s : GameState) : GameState :=
  match s.challenge with
  | none => s
  | some _ => { s with activePlayerIndex := (s.activePlayerIndex + 1) % 2 }

/-- `applyPowerBuff` — inside a challenge the buff attaches to whichever
side the target id matches; outside a challenge it is a no-op. -/
def applyPowerBuff (s : GameState) (targetInstanceId : String) (amount : Int)
    (log : List String) : GameState × List String :=
  match s.challenge with
  | none => (s, log)
  | some c =>
    if c.challengerInstanceId = targetInstanceId then
      ({ s with challenge :=
            some ({ c with challengerPowerBuff := some (c.challengerPowerBuff.getD 0 + amount) }) },
       log ++ ["Challenger gets +" ++ toString amount ++ " power."])
    else if c.defenderInstanceId = some targetInstanceId then
      ({ s with challenge :=
            some ({ c with defenderPowerBuff := some (c.defenderPowerBuff.getD 0 + amount) }) },
       log ++ ["Defender gets +" ++ toString amount ++ " power."])
    else (s, log)

/-- `resolveEventEffect`. -/
def resolveEventEffect (s : GameState) (playerIndex : Nat) (d : CardDef)
    (log : List String) (targetInstanceId : Option String) :
    GameState × List String :=
  match d.abilityId with
  | some "fire-support" =>
    match targetInstanceId with
    | some t =>
      let (s, log) := applyPowerBuff s t 2 log
      (s, log ++ ["Fire Support: target ship gets +2 power."])
    | none => (s, log)
  | some "shuttle-diplomacy" =>
    let opp := s.getP (1 - playerIndex)
    let opp := { opp with influence := opp.influence - 1 }
    (s.setP (1 - playerIndex) opp,
     log ++ ["Shuttle Diplomacy: opponent loses 1 influence. (Now " ++
       toString opp.influence ++ ")"])
  | some "condition-one" =>
    let p := s.getP playerIndex
    let p := { p with
      zones.reserve := []
      zones.alert := p.zones.alert ++ p.zones.reserve }
    (s.setP playerIndex p, log ++ ["Condition One: all units readied."])
  | some "presidential-candidate" =>
    match targetInstanceId with
    | some t =>
      let (s, log) := applyPowerBuff s t 1 log
      (s, log ++ ["Presidential Candidate: target personnel gets +1 power."])
    | none => (s, log)
  | some "outmaneuvered" =>
    match targetInstanceId with
    | some t =>
      let (s, log) := applyPowerBuff s t (-2) log
      (s, log ++ ["Outmaneuvered: target unit gets -2 power."])
    | none => (s, log)
  | _ =>
    (s, log ++ ["Event " ++ cardName d ++ " resolved (no special effect implemented)."])

/-- `resolveBaseAbility`. -/
def resolveBaseAbility (s : GameState) (playerIndex : Nat) (baseDef : BaseCardDef)
    (log : List String) : GameState × List String :=
  match baseDef.abilityId with
  | some "galactica-exhaust" =>
    let opp := s.getP (1 - playerIndex)
    let opp := { opp with influence := opp.influence - 1 }
    (s.setP (1 - playerIndex) opp,
     log ++ ["Galactica ability: opponent loses 1 influence. (Now " ++
       toString opp.influence ++ ")"])
  | some "colonial-one-exhaust" =>
    let p := s.getP playerIndex
    let p := { p with influence := p.influence + 1 }
    (s.setP playerIndex p,
     log ++ ["Colonial One ability: gain 1 influence. (Now " ++
       toString p.influence ++ ")"])
  | _ => (s, log)

/-- `resolveMissionEffect`. -/
def resolveMissionEffect (shuf : Shuffler) (s : GameState) (playerIndex : Nat)
    (d : CardDef) (log : List String) : GameState × List String :=
  match d.abilityId with
  | some "press-junket" =>
    let p := s.getP playerIndex
    let p := { p with influence := p.influence + 2 }
    (s.setP playerIndex p,
     log ++ ["Press Junket: gain 2 influence. (Now " ++ toString p.influence ++ ")"])
  | some "investigation" =>
    let (p, log) :=
      drawCardsFn shuf 2 (s.getP playerIndex) log
        ("Player " ++ toString (playerIndex + 1))
    (s.setP playerIndex p, log ++ ["Investigation: draw 2 cards."])
  | _ =>
    (s, log ++ ["Mission " ++ cardName d ++ " resolved (no special effect implemented)."])

-- ============================================================
-- Victory check
-- ============================================================

/-- `checkVictory` — both loops iterate players in ascending index order;
with two players this unfolds to four ordered tests. -/
def checkVictory (s : GameState) (log : List String) : GameState × List String :=
  if 20 ≤ s.players.p0.influence then
    ({ s with phase := GamePhase.gameOver, winner := some 0 },
     log ++ ["Player 1 wins! Influence reached " ++
       toString s.players.p0.influence ++ "."])
  else if 20 ≤ s.players.p1.influence then
    ({ s with phase := GamePhase.gameOver, winner := some 1 },
     log ++ ["Player 2 wins! Influence reached " ++
       toString s.players.p1.influence ++ "."])
  else if s.players.p0.influence ≤ 0 then
    ({ s with phase := GamePhase.gameOver, winner := some 1 },
     log ++ ["Player 1 loses! Influence dropped to " ++
       toString s.players.p0.influence ++ ". Player 2 wins!"])
  else if s.players.p1.influence ≤ 0 then
    ({ s with phase := GamePhase.gameOver, winner := some 0 },
     log ++ ["Player 2 loses! Influence dropped to " ++
       toString s.players.p1.influence ++ ". Player 1 wins!"])
  else (s, log)

-- ============================================================
-- Phase transitions
-- ============================================================

/-- Titles of the readied stacks (`toReady.map(... .title).join(", ")`);
JavaScript's `join` renders an `undefined` title as the empty string. -/
def readiedNames (reg : RegMap) : List UnitStack → Option (List String)
  | [] => some []
  | st :: rest =>
    match st.cards.head? with
    | none => none  -- unreachable: readied stacks have a face-up top card
    | some c =>
      match getCardDef reg c.defId with
      | none => none
      | some d =>
        match readiedNames reg rest with
        | none => none
        | some ns => some (d.title.getD "" :: ns)

/-- Per-player step 1 of `startReadyPhase`: face-up reserve stacks move to
alert. -/
def readyPlayerStep (reg : RegMap) (p : PlayerState) (label : String)
    (log : List String) : Option (PlayerState × List String) :=
  let part := p.zones.reserve.partition
    (fun st => st.cards.head?.map (·.faceUp) = some true)
  let toReady := part.1
  let remaining := part.2
  let p := { p with
    zones.reserve := remaining
    zones.alert := p.zones.alert ++ toReady }
  if 0 < toReady.length then
    match readiedNames reg toReady with
    | none => none
    | some ns =>
      some (p, log ++ [label ++ " readies: " ++ String.intercalate ", " ns ++ "."])
  else some (p, log)

def restoreExhausted (p : PlayerState) : PlayerState :=
  { p with
    zones.resourceStacks := p.zones.resourceStacks.map fun st => { st with exhausted := false }
    zones.alert := p.zones.alert.map fun st => { st with exhausted := false }
    zones.reserve := p.zones.reserve.map fun st => { st with exhausted := false } }

/-- `startReadyPhase`. -/
def startReadyPhase (reg : RegMap) (s : GameState) (log : List String) :
    Option (GameState × List String) :=
  let s := { s with
    turn := s.turn + 1
    phase := GamePhase.ready
    firstPlayerIndex := determineFirstPlayer s
    activePlayerIndex := determineFirstPlayer s }
  let log := log ++ ["--- Turn " ++ toString s.turn ++ " ---"]
  match readyPlayerStep reg s.players.p0 "Player 1" log with
  | none => none
  | some (q0, log) =>
    match readyPlayerStep reg s.players.p1 "Player 2" log with
    | none => none
    | some (q1, log) =>
      let s := { s with players := { p0 := restoreExhausted q0, p1 := restoreExhausted q1 } }
      some ({ s with readyStep := 3, activePlayerIndex := s.firstPlayerIndex }, log)

/-- `checkSetupComplete`. -/
def checkSetupComplete (reg : RegMap) (s : GameState) (log : List String) :
    Option (GameState × List String) :=
  if s.players.p0.hasMulliganed && s.players.p1.hasMulliganed then
    startReadyPhase reg s (log ++ ["Both players ready. Starting Turn 1."])
  else some (s, log)

/-- `advanceReadyStep4`. -/
def advanceReadyStep4 (s : GameState) (log : List String) :
    GameState × List String :=
  if s.players.p0.hasPlayedResource && s.players.p1.hasPlayedResource then
    ({ s with readyStep := 5, activePlayerIndex := s.firstPlayerIndex },
     log ++ ["Ready phase: reorder unit stacks."])
  else
    ({ s with activePlayerIndex := (s.activePlayerIndex + 1) % 2 }, log)

/-- `startExecutionPhase`. -/
def startExecutionPhase (s : GameState) (log : List String) :
    GameState × List String :=
  let s := { s with
    phase := GamePhase.execution
    firstPlayerIndex := determineFirstPlayer s
    activePlayerIndex := determineFirstPlayer s }
  let s := { s with
    players :=
      { p0 := { s.players.p0 with consecutivePasses := 0, hasResolvedMission := false }
        p1 := { s.players.p1 with consecutivePasses := 0, hasResolvedMission := false } } }
  (s, log ++ ["Execution phase begins."])

/-- `advanceReadyStep5`. -/
def advanceReadyStep5 (s : GameState) (log : List String) :
    GameState × List String :=
  let nextPlayer := (s.activePlayerIndex + 1) % 2
  if nextPlayer = s.firstPlayerIndex then startExecutionPhase s log
  else ({ s with activePlayerIndex := nextPlayer }, log)

/-- Append one card to a player's discard pile (`player.discard.push(card)`). -/
def discardPlus (p : PlayerState) (c : CardInstance) : PlayerState :=
  { p with discard := p.discard ++ [c] }

/-- Drop the threat at index `i` from the threat list (`cylonThreats.splice(i, 1)`). -/
def eraseThreatAt (s : GameState) (i : Nat) : GameState :=
  { s with cylonThreats := s.cylonThreats.eraseIdx i }

/-- Sequentially push remaining threats into their owners' discard piles
(the loop at the head of `endCylonPhase`). -/
def pushThreatsToDiscard (s : GameState) : List CylonThreatCard → GameState
  | [] => s
  | t :: rest =>
    pushThreatsToDiscard
      (s.setP t.ownerIndex (discardPlus (s.getP t.ownerIndex) t.card)) rest

/-- `endCylonPhase`. -/
def endCylonPhase (reg : RegMap) (s : GameState) (log : List String) :
    Option (GameState × List String) :=
  let s := pushThreatsToDiscard s s.cylonThreats
  let s := { s with cylonThreats := [] }
  let log := log ++ ["Cylon phase ends. Turn ends."]
  let (s, log) := checkVictory s log
  if s.phase ≠ GamePhase.gameOver then startReadyPhase reg s log
  else some (s, log)

/-- The zero-power filter of `startCylonPhase`: zero-power threats go to
their owner's discard (with a log entry) and are dropped from the list. -/
def filterZeroThreats (reg : RegMap) :
    GameState → List CylonThreatCard → List String →
    Option (GameState × List CylonThreatCard × List String)
  | s, [], log => some (s, [], log)
  | s, t :: rest, log =>
    if t.power = 0 then
      match getCardDef reg t.card.defId with
      | none => none
      | some d =>
        let s := s.setP t.ownerIndex (discardPlus (s.getP t.ownerIndex) t.card)
        filterZeroThreats reg s rest
          (log ++ ["Cylon threat " ++ cardName d ++ " (power 0) removed."])
    else
      match filterZeroThreats reg s rest log with
      | none => none
      | some (s', kept, log') => some (s', t :: kept, log')

/-- Threat reveal for one player inside `startCylonPhase`. -/
def revealThreatFor (reg : RegMap) (shuf : Shuffler) (ctr : Nat) (s : GameState)
    (i : Nat) (log : List String) : Option (Nat × GameState × List String) :=
  match revealMysticValue reg shuf ctr (s.getP i) ("Player " ++ toString (i + 1)) with
  | none => none
  | some (ctr', _, card, p', rlog) =>
    let s := s.setP i p'
    match getCardDef reg card.defId with
    | none => none
    | some d =>
      let threatPower := d.cylonThreat.getD 0
      let s := { s with cylonThreats := s.cylonThreats ++
        [{ card := card, power := threatPower, ownerIndex := i }] }
      some (ctr', s,
        log ++ rlog ++ ["Player " ++ toString (i + 1) ++ " reveals " ++ cardName d ++
          " as Cylon threat (power " ++ toString threatPower ++ ")."])

/-- `startCylonPhase`. -/
def startCylonPhase (reg : RegMap) (shuf : Shuffler) (ctr : Nat) (s : GameState)
    (log : List String) : Option (GameState × List String) :=
  let s := { s with
    phase := GamePhase.cylon
    firstPlayerIndex := determineFirstPlayer s
    activePlayerIndex := determineFirstPlayer s }
  match computeCylonThreatLevel reg s with
  | none => none
  | some threatLevel =>
    let log := log ++ ["Cylon phase: threat level is " ++ toString threatLevel ++
      ", fleet defense is " ++ toString s.fleetDefenseLevel ++ "."]
    if threatLevel ≤ s.fleetDefenseLevel then
      endCylonPhase reg s (log ++ ["No Cylon attack this turn."])
    else
      let log := log ++ ["Cylon attack! Each player reveals a threat."]
      let s := { s with cylonThreats := [] }
      match revealThreatFor reg shuf ctr s 0 log with
      | none => none
      | some (ctr1, s, log) =>
        match revealThreatFor reg shuf ctr1 s 1 log with
        | none => none
        | some (_, s, log) =>
          match filterZeroThreats reg s s.cylonThreats log with
          | none => none
          | some (s, kept, log) =>
            let s := { s with cylonThreats := kept }
            if s.cylonThreats.isEmpty then
              endCylonPhase reg s (log ++ ["No Cylon threats remain."])
            else
              some (resetConsecutivePasses s, log)

-- ============================================================
-- Challenge resolution
-- ============================================================

/-- The shared tail of `resolveCylonChallenge`: clear the challenge, reset
passes, run the victory check, then end the cylon phase or advance the cylon
turn unless the game ended. -/
def cylonChallengeTail (reg : RegMap) (s : GameState) (log : List String) :
    Option (GameState × List String) :=
  let s := { s with challenge := none }
  let s := resetConsecutivePasses s
  let (s, log) := checkVictory s log
  if s.phase ≠ GamePhase.gameOver then
    if s.cylonThreats.isEmpty then endCylonPhase reg s log
    else some (advanceCylonTurn s, log)
  else some (s, log)

/-- The shared tail of `resolveChallenge` for non-cylon challenges: clear the
challenge, run the victory check, advance the execution turn unless the game
ended. -/
def challengeTail (s : GameState) (log : List String) : GameState × List String :=
  let s := { s with challenge := none }
  let (s, log) := checkVictory s log
  if s.phase ≠ GamePhase.gameOver then (advanceExecutionTurn s, log)
  else (s, log)

/-- `resolveCylonChallenge`. -/
def resolveCylonChallenge (reg : RegMap) (shuf : Shuffler) (ctr : Nat)
    (s : GameState) (log : List String) : Option (GameState × List String) :=
  match s.challenge with
  | none => none  -- `s.challenge!` dereferenced on null throws
  | some challenge =>
    let atkIdx := challenge.challengerPlayerIndex
    match findUnitInAnyZone (s.getP atkIdx) challenge.challengerInstanceId with
    | none =>
      some ({ s with challenge := none },
        log ++ ["Challenger left play. Cylon challenge ends."])
    | some (ast, _, _) =>
      match getUnitPower reg ast with
      | none => none
      | some basePower =>
        let challengerPower := basePower + challenge.challengerPowerBuff.getD 0
        match revealMysticValue reg shuf ctr (s.getP atkIdx)
            ("Player " ++ toString (atkIdx + 1)) with
        | none => none
        | some (ctr1, av, _, ap', alog) =>
          let s := s.setP atkIdx ap'
          let log := log ++ alog
          match challenge.cylonPlayerIndex with
          | none => none  -- `cylonPlayer` is `undefined`: the reveal throws
          | some cylIdx =>
            match revealMysticValue reg shuf ctr1 (s.getP cylIdx)
                ("Player " ++ toString (cylIdx + 1) ++ " (Cylon player)") with
            | none => none
            | some (_, dv, _, cp', dlog) =>
              let s := s.setP cylIdx cp'
              let log := log ++ dlog
              match challenge.cylonThreatIndex.bind (s.cylonThreats.get? ·) with
              | none => some ({ s with challenge := none }, log)
              | some threat =>
                let threatIdx := challenge.cylonThreatIndex.getD 0
                let atkTotal := challengerPower + av
                let defTotal := threat.power + dv
                let log := log ++
                  ["Challenger total: " ++ toString atkTotal ++ " (" ++
                     toString challengerPower ++ " + " ++ toString av ++ ")",
                   "Cylon threat total: " ++ toString defTotal ++ " (" ++
                     toString threat.power ++ " + " ++ toString dv ++ ")"]
                match
                  (if defTotal ≤ atkTotal then
                    -- challenger wins; two players, so the influence gain is 2
                    let log := log ++ ["Challenger defeats the Cylon threat!"]
                    let ap := s.getP atkIdx
                    let ap := { ap with influence := ap.influence + 2 }
                    let s := s.setP atkIdx ap
                    let log := log ++ ["Player " ++ toString (atkIdx + 1) ++
                      " gains 2 influence. (Now " ++ toString ap.influence ++ ")"]
                    let s := s.setP atkIdx
                      (commitUnit (s.getP atkIdx) challenge.challengerInstanceId)
                    let s := s.setP threat.ownerIndex
                      (discardPlus (s.getP threat.ownerIndex) threat.card)
                    let s := eraseThreatAt s threatIdx
                    some (s, log)
                  else
                    let log := log ++ ["Cylon threat wins!"]
                    match defeatUnit reg (s.getP atkIdx) challenge.challengerInstanceId log with
                    | none => none
                    | some (ap', log) => some (s.setP atkIdx ap', log)) with
                | none => none
                | some (s, log) => cylonChallengeTail reg s log

/-- `resolveChallenge`. -/
def resolveChallenge (reg : RegMap) (shuf : Shuffler) (ctr : Nat) (s : GameState)
    (log : List String) : Option (GameState × List String) :=
  match s.challenge with
  | none => none  -- `s.challenge!` dereferenced on null throws
  | some challenge =>
    if challenge.isCylonChallenge then resolveCylonChallenge reg shuf ctr s log
    else
      let atkIdx := challenge.challengerPlayerIndex
      let defIdx := challenge.defenderPlayerIndex
      match findUnitInAnyZone (s.getP atkIdx) challenge.challengerInstanceId with
      | none =>
        let s := { s with challenge := none }
        some (advanceExecutionTurn s,
          log ++ ["Challenger left play. Challenge ends."])
      | some (ast, _, _) =>
        match getUnitPower reg ast with
        | none => none
        | some basePower =>
          let challengerPower := basePower + challenge.challengerPowerBuff.getD 0
          match
            (match challenge.defenderInstanceId with
            | none =>
              -- undefended challenge
              let damage := challengerPower
              let dp := s.getP defIdx
              let dp := { dp with influence := dp.influence - damage }
              let s := s.setP defIdx dp
              let log := log ++ ["Undefended! Player " ++ toString (defIdx + 1) ++
                " loses " ++ toString damage ++ " influence. (Now " ++
                toString dp.influence ++ ")"]
              let s := s.setP atkIdx
                (commitUnit (s.getP atkIdx) challenge.challengerInstanceId)
              some (s, log)
            | some did =>
              -- defended challenge: reveal mystic values
              match revealMysticValue reg shuf ctr (s.getP atkIdx)
                  ("Player " ++ toString (atkIdx + 1)) with
              | none => none
              | some (ctr1, av, _, ap', alog) =>
                let s := s.setP atkIdx ap'
                let log := log ++ alog
                match revealMysticValue reg shuf ctr1 (s.getP defIdx)
                    ("Player " ++ toString (defIdx + 1)) with
                | none => none
                | some (_, dv, _, dp', dlog) =>
                  let s := s.setP defIdx dp'
                  let log := log ++ dlog
                  let atkTotal := challengerPower + av
                  let defenderStack := findUnitInAnyZone (s.getP defIdx) did
                  match
                    (match defenderStack with
                    | some (dst, _, _) =>
                      match getUnitPower reg dst with
                      | none => none
                      | some dp0 => some (dp0 + challenge.defenderPowerBuff.getD 0)
                    | none => some 0) with
                  | none => none
                  | some defPower =>
                    let defTotal := defPower + dv
                    let log := log ++
                      ["Challenger total: " ++ toString atkTotal ++ " (" ++
                         toString challengerPower ++ " + " ++ toString av ++ ")",
                       "Defender total: " ++ toString defTotal ++ " (" ++
                         toString defPower ++ " + " ++ toString dv ++ ")"]
                    if defTotal ≤ atkTotal then
                      -- challenger wins (ties go to the challenger)
                      let log := log ++ ["Challenger wins!"]
                      let s := s.setP atkIdx
                        (commitUnit (s.getP atkIdx) challenge.challengerInstanceId)
                      if defenderStack.isSome then
                        match defeatUnit reg (s.getP defIdx) did log with
                        | none => none
                        | some (dp2, log) => some (s.setP defIdx dp2, log)
                      else some (s, log)
                    else
                      -- defender wins
                      let log := log ++ ["Defender wins!"]
                      let s :=
                        if defenderStack.isSome then
                          s.setP defIdx (commitUnit (s.getP defIdx) did)
                        else s
                      match defeatUnit reg (s.getP atkIdx)
                          challenge.challengerInstanceId log with
                      | none => none
                      | some (ap2, log) => some (s.setP atkIdx ap2, log)) with
          | none => none
          | some (s, log) => some (challengeTail s log)

-- ============================================================
-- Apply Action
-- ============================================================

/-- The repeated tail of the execution-phase cases (`resetConsecutivePasses`
+ `player.consecutivePasses = 0` + `checkVictory` + turn advance unless the
game ended), factored out of the switch arms that share it verbatim. -/
def finishExecAction (s : GameState) (log : List String) : GameState × List String :=
  let s := resetConsecutivePasses s
  let r := checkVictory s log
  if r.1.phase ≠ GamePhase.gameOver then (advanceExecutionTurn r.1, r.2)
  else r

/-- Same tail for `playAbility`, which advances the challenge turn instead
when a challenge is open. -/
def finishAbilityAction (s : GameState) (log : List String) : GameState × List String :=
  let s := resetConsecutivePasses s
  let r := checkVictory s log
  if r.1.phase ≠ GamePhase.gameOver then
    if r.1.challenge.isSome then (advanceChallengeEffectTurn r.1, r.2)
    else (advanceExecutionTurn r.1, r.2)
  else r

/-- The alert-unit loop of the `playAbility` case: the first alert stack
whose top card carries the source instance id runs its (hard-coded) commit
ability; the trailing pass-reset / victory-check / turn-advance runs
whenever a matching stack was found, even for unrecognized ability ids.
The source's `resolveBaseAbility` takes (and ignores) the target id; the
target only matters for `adama-commit`, handled here. -/
def applyAbilityAlertLoop (reg : RegMap) (s : GameState) (playerIndex : Nat)
    (src : String) (tgt : Option String) (pLabel : String) :
    Option (GameState × List String) :=
  let p := s.getP playerIndex
  match p.zones.alert.find? (fun st => st.cards.head?.map (·.instanceId) = some src) with
  | none => some (s, [])
  | some st =>
    match st.cards.head? with
    | none => none  -- unreachable: the found stack's top card matched
    | some c =>
      match getCardDef reg c.defId with
      | none => none
      | some d =>
        let (s, log) :=
          if d.abilityId = some "adama-commit" then
            let s := s.setP playerIndex (commitUnit (s.getP playerIndex) src)
            let log := [pLabel ++ " commits " ++ cardName d ++ " to give a unit +2 power."]
            match tgt with
            | some t => applyPowerBuff s t 2 log
            | none => (s, log)
          else (s, ([] : List String))
        some (finishAbilityAction s log)

/-- `keepHand` case. -/
def applyKeepHand (reg : RegMap) (s : GameState) (playerIndex : Nat)
    (pLabel : String) : Option (GameState × List String) :=
  let p := s.getP playerIndex
  let s := s.setP playerIndex { p with hasMulliganed := true }
  checkSetupComplete reg s [pLabel ++ " keeps their hand."]

/-- `redraw` case. -/
def applyRedraw (reg : RegMap) (bases : BasesMap) (shuf : Shuffler)
    (s : GameState) (playerIndex : Nat) (pLabel : String) :
    Option (GameState × List String) :=
  let p := s.getP playerIndex
  match alookup bases p.baseDefId with
  | none => none  -- `baseDef.handSize` on `undefined` throws
  | some baseDef =>
    let p := { p with deck := p.deck ++ p.hand, hand := [] }
    let p := { p with deck := shuf p.deck }
    let (p, log) := drawCardsFn shuf baseDef.handSize p [] pLabel
    let p := { p with hasMulliganed := true }
    let s := s.setP playerIndex p
    checkSetupComplete reg s (log ++ [pLabel ++ " redraws their hand."])

/-- `playToResource` case. -/
def applyPlayToResource (reg : RegMap) (s : GameState) (playerIndex : Nat)
    (cardIndex : Nat) (asSupply : Bool) (targetStackIndex : Option Nat)
    (pLabel : String) : Option (GameState × List String) :=
  let p := s.getP playerIndex
  match p.hand.get? cardIndex with
  | none => some (s, [])
  | some card =>
    let p := { p with hand := p.hand.eraseIdx cardIndex }
    match getCardDef reg card.defId with
    | none => none
    | some d =>
      let (p, log) :=
        if asSupply then
          let stackIdx := targetStackIndex.getD 0
          if stackIdx < p.zones.resourceStacks.length then
            let card := { card with faceUp := false }
            let rss := listUpdate p.zones.resourceStacks stackIdx
              (fun st => { st with supplyCards := st.supplyCards ++ [card] })
            ({ p with zones.resourceStacks := rss },
             [pLabel ++ " plays " ++ cardName d ++ " as a supply card."])
          else (p, [])  -- missing target stack: the spliced card is dropped
        else
          let rss := p.zones.resourceStacks ++
            [{ topCard := card, supplyCards := [], exhausted := false }]
          ({ p with zones.resourceStacks := rss },
           [pLabel ++ " plays " ++ cardName d ++ " as an asset."])
      let p := { p with hasPlayedResource := true }
      let s := s.setP playerIndex p
      some (advanceReadyStep4 s log)

/-- `passResource` case. -/
def applyPassResource (s : GameState) (playerIndex : Nat) (pLabel : String) :
    Option (GameState × List String) :=
  let p := s.getP playerIndex
  let s := s.setP playerIndex { p with hasPlayedResource := true }
  some (advanceReadyStep4 s [pLabel ++ " passes on playing to resource area."])

/-- `drawCards` case. -/
def applyDrawCardsCase (shuf : Shuffler) (s : GameState) :
    Option (GameState × List String) :=
  let (q0, log) := drawCardsFn shuf 2 s.players.p0 [] "Player 1"
  let (q1, log) := drawCardsFn shuf 2 s.players.p1 log "Player 2"
  let log := log ++ ["All players draw 2 cards."]
  let s := { s with
    players :=
      { p0 := { q0 with hasPlayedResource := false }
        p1 := { q1 with hasPlayedResource := false } }
    readyStep := 4
    activePlayerIndex := s.firstPlayerIndex }
  some (s, log)

/-- `playCard` placement: pay the cost, remove the card from hand and place
it — overlay onto the matching stack, or a new reserve stack, or resolve an
event into the discard; a card whose type is none of unit/mission/event is
removed from hand without being placed (unreachable for well-typed card
data). -/
def playCardPlace (reg : RegMap) (bases : BasesMap) (s : GameState)
    (playerIndex cardIndex : Nat) (card : CardInstance) (d : CardDef)
    (pLabel : String) : Option (GameState × List String) :=
  let p := payResourceCost reg bases (s.getP playerIndex) d.cost
  let p := { p with hand := p.hand.eraseIdx cardIndex }
  if isUnit d || isMission d then
    match (if isUnit d && isSingular d then findOverlayTarget reg p d
           else some none) with
    | none => none
    | some (some (zone, idx)) =>
      let overlayUpd := fun (st : UnitStack) =>
        { st with cards := card :: st.cards, exhausted := false }
      let p :=
        match zone with
        | ZoneTag.alert =>
          { p with zones.alert := listUpdate p.zones.alert idx overlayUpd }
        | ZoneTag.reserve =>
          { p with zones.reserve := listUpdate p.zones.reserve idx overlayUpd }
      some (s.setP playerIndex p,
        [pLabel ++ " overlays " ++ cardName d ++ " onto existing " ++
          d.title.getD "undefined" ++ " stack (" ++ zone.str ++ ")."])
    | some none =>
      let newStacks := p.zones.reserve ++ [{ cards := [card], exhausted := false }]
      let p := { p with zones.reserve := newStacks }
      some (s.setP playerIndex p,
        [pLabel ++ " plays " ++ cardName d ++ " to reserve."])
  else if d.type = "event" then
    let s := s.setP playerIndex p
    let r := resolveEventEffect s playerIndex d
      [pLabel ++ " plays event " ++ cardName d ++ "."] none
    let q := r.1.getP playerIndex
    some (r.1.setP playerIndex { q with discard := q.discard ++ [card] }, r.2)
  else some (s.setP playerIndex p, [])

/-- `playCard` case. -/
def applyPlayCard (reg : RegMap) (bases : BasesMap) (s : GameState)
    (playerIndex cardIndex : Nat) (pLabel : String) :
    Option (GameState × List String) :=
  match (s.getP playerIndex).hand.get? cardIndex with
  | none => some (s, [])
  | some card =>
    match getCardDef reg card.defId with
    | none => none
    | some d =>
      match playCardPlace reg bases s playerIndex cardIndex card d pLabel with
      | none => none
      | some r => some (finishExecAction r.1 r.2)

/-- `playAbility` case. -/
def applyPlayAbilityCase (reg : RegMap) (bases : BasesMap) (s : GameState)
    (playerIndex : Nat) (sourceInstanceId : String)
    (targetInstanceId : Option String) (pLabel : String) :
    Option (GameState × List String) :=
  let p := s.getP playerIndex
  match p.zones.resourceStacks.head? with
  | some baseStack =>
    if baseStack.topCard.instanceId = sourceInstanceId then
      match alookup bases p.baseDefId with
      | none => none  -- `baseDef.title` on `undefined` throws
      | some baseDef =>
        let rss := listUpdate p.zones.resourceStacks 0
          (fun st => { st with exhausted := true })
        let p := { p with zones.resourceStacks := rss }
        let s := s.setP playerIndex p
        let log := [pLabel ++ " exhausts " ++ baseDef.title ++ " to use its ability."]
        let (s, log) := resolveBaseAbility s playerIndex baseDef log
        some (finishAbilityAction s log)
    else
      applyAbilityAlertLoop reg s playerIndex sourceInstanceId targetInstanceId pLabel
  | none =>
    applyAbilityAlertLoop reg s playerIndex sourceInstanceId targetInstanceId pLabel

/-- `resolveMission` case. -/
def applyResolveMissionCase (reg : RegMap) (shuf : Shuffler) (s : GameState)
    (playerIndex : Nat) (missionInstanceId : String) (pLabel : String) :
    Option (GameState × List String) :=
  let p := s.getP playerIndex
  match findUnitInZone p.zones.alert missionInstanceId with
  | none => some (s, [])
  | some (st, idx) =>
    match st.cards.head? with
    | none => none  -- `found.stack.cards[0].defId` on an empty stack throws
    | some c =>
      match getCardDef reg c.defId with
      | none => none
      | some d =>
        let log := [pLabel ++ " resolves mission " ++ cardName d ++ "."]
        let (s, log) := resolveMissionEffect shuf s playerIndex d log
        let p := s.getP playerIndex
        let p := { p with
          zones.alert := p.zones.alert.eraseIdx idx
          discard := p.discard ++ st.cards }
        let p := { p with hasResolvedMission := true }
        let s := s.setP playerIndex p
        some (finishExecAction s log)

/-- `challenge` case. -/
def applyChallengeCase (reg : RegMap) (s : GameState) (playerIndex : Nat)
    (challengerInstanceId : String) (pLabel : String) :
    Option (GameState × List String) :=
  match findCardDefByInstanceId reg s challengerInstanceId with
  | none => none
  | some none => some (s, [])
  | some (some challengerDef) =>
    let log := [pLabel ++ " challenges with " ++ cardName challengerDef ++ "."]
    let newChallenge : ChallengeState :=
      { challengerInstanceId := challengerInstanceId
        challengerPlayerIndex := playerIndex
        defenderInstanceId := none
        defenderPlayerIndex := 1 - playerIndex
        step := 1
        challengerMysticValue := none
        defenderMysticValue := none
        waitingForDefender := true
        consecutivePasses := 0
        isCylonChallenge := false }
    let s := { s with challenge := some newChallenge }
    let s := resetConsecutivePasses s
    some ({ s with activePlayerIndex := 1 - playerIndex }, log)

/-- `defend` case. -/
def applyDefendCase (reg : RegMap) (s : GameState) (_playerIndex : Nat)
    (defenderInstanceId : Option String) (pLabel : String) :
    Option (GameState × List String) :=
  match s.challenge with
  | none => some (s, [])
  | some c =>
    match
      (match defenderInstanceId with
      | some did =>
        match findCardDefByInstanceId reg s did with
        | none => none
        | some defDef =>
          some ({ c with defenderInstanceId := some did },
            [pLabel ++ " defends with " ++ (defDef.bind (·.title)).getD "unknown" ++ "."])
      | none => some (c, [pLabel ++ " declines to defend."])) with
    | none => none
    | some (c, log) =>
      let c := { c with waitingForDefender := false, step := 2, consecutivePasses := 0 }
      some ({ s with challenge := some c
                     activePlayerIndex := c.challengerPlayerIndex }, log)

/-- `challengePass` case. -/
def applyChallengePassCase (reg : RegMap) (shuf : Shuffler) (ctr : Nat)
    (s : GameState) (_playerIndex : Nat) (pLabel : String) :
    Option (GameState × List String) :=
  match s.challenge with
  | none => some (s, [])
  | some c =>
    let c := { c with consecutivePasses := c.consecutivePasses + 1 }
    let s := { s with challenge := some c }
    let log := [pLabel ++ " passes in the challenge."]
    if 2 ≤ c.consecutivePasses then resolveChallenge reg shuf ctr s log
    else some (advanceChallengeEffectTurn s, log)

/-- `playEventInChallenge` body once the hand card and its def are
resolved. -/
def playEventWithCard (reg : RegMap) (bases : BasesMap) (s : GameState)
    (playerIndex cardIndex : Nat) (targetInstanceId : Option String)
    (card : CardInstance) (d : CardDef) (pLabel : String) :
    Option (GameState × List String) :=
  let p := payResourceCost reg bases (s.getP playerIndex) d.cost
  let p := { p with hand := p.hand.eraseIdx cardIndex }
  let s := s.setP playerIndex p
  let log := [pLabel ++ " plays " ++ cardName d ++ " during challenge."]
  let r := resolveEventEffect s playerIndex d log targetInstanceId
  let q := r.1.getP playerIndex
  let s := r.1.setP playerIndex { q with discard := q.discard ++ [card] }
  match s.challenge with
  | none => none  -- `s.challenge!.consecutivePasses` on null throws
  | some c =>
    let s := { s with challenge := some { c with consecutivePasses := 0 } }
    some (advanceChallengeEffectTurn s, r.2)

/-- `playEventInChallenge` case. -/
def applyPlayEventCase (reg : RegMap) (bases : BasesMap) (s : GameState)
    (playerIndex cardIndex : Nat) (targetInstanceId : Option String)
    (pLabel : String) : Option (GameState × List String) :=
  match s.challenge with
  | none => some (s, [])
  | some _ =>
    match (s.getP playerIndex).hand.get? cardIndex with
    | none => some (s, [])
    | some card =>
      match getCardDef reg card.defId with
      | none => none
      | some d =>
        playEventWithCard reg bases s playerIndex cardIndex targetInstanceId
          card d pLabel

/-- `pass` case. -/
def applyPassCase (reg : RegMap) (shuf : Shuffler) (ctr : Nat) (s : GameState)
    (playerIndex : Nat) (pLabel : String) : Option (GameState × List String) :=
  let p := s.getP playerIndex
  let p := { p with consecutivePasses := p.consecutivePasses + 1 }
  let s := s.setP playerIndex p
  let log := [pLabel ++ " passes."]
  if 0 < s.players.p0.consecutivePasses && 0 < s.players.p1.consecutivePasses then
    startCylonPhase reg shuf ctr s
      (log ++ ["All players passed. Execution phase ends."])
  else some (advanceExecutionTurn s, log)

/-- `challengeCylon` case. -/
def applyChallengeCylonCase (reg : RegMap) (s : GameState) (playerIndex : Nat)
    (challengerInstanceId : String) (threatIndex : Nat) (pLabel : String) :
    Option (GameState × List String) :=
  match s.cylonThreats.get? threatIndex with
  | none => some (s, [])
  | some threat =>
    match findCardDefByInstanceId reg s challengerInstanceId with
    | none => none
    | some challengerDef =>
      let nm := match challengerDef with
        | some d => cardName d
        | none => "unknown"
      let log := [pLabel ++ " challenges Cylon threat (power " ++
        toString threat.power ++ ") with " ++ nm ++ "."]
      let cylonPlayerIndex := (playerIndex + 1) % 2
      let newChallenge : ChallengeState :=
        { challengerInstanceId := challengerInstanceId
          challengerPlayerIndex := playerIndex
          defenderInstanceId := some threat.card.instanceId
          defenderPlayerIndex := cylonPlayerIndex
          step := 2
          challengerMysticValue := none
          defenderMysticValue := none
          waitingForDefender := false
          consecutivePasses := 0
          isCylonChallenge := true
          cylonThreatIndex := some threatIndex
          cylonPlayerIndex := some cylonPlayerIndex }
      let s := { s with challenge := some newChallenge }
      let s := resetConsecutivePasses s
      some ({ s with activePlayerIndex := playerIndex }, log)

/-- `passCylon` case. -/
def applyPassCylonCase (reg : RegMap) (s : GameState) (playerIndex : Nat)
    (pLabel : String) : Option (GameState × List String) :=
  let p := s.getP playerIndex
  let p := { p with influence := p.influence - 1,
                    consecutivePasses := p.consecutivePasses + 1 }
  let s := s.setP playerIndex p
  let log := [pLabel ++ " passes in Cylon phase and loses 1 influence. (Now " ++
    toString p.influence ++ ")"]
  let (s, log) := checkVictory s log
  if s.phase ≠ GamePhase.gameOver then
    if (0 < s.players.p0.consecutivePasses && 0 < s.players.p1.consecutivePasses)
        || s.cylonThreats.isEmpty then
      endCylonPhase reg s log
    else some (advanceCylonTurn s, log)
  else some (s, log)

/-- The switch of `applyAction`: dispatch to the case handlers above.
Returns the post-switch state (its `log` field still untouched) and the
log additions of this action. -/
def applyActionCore (reg : RegMap) (bases : BasesMap) (shuf : Shuffler)
    (ctr : Nat) (s : GameState) (playerIndex : Nat) (action : GameAction) :
    Option (GameState × List String) :=
  let pLabel := "Player " ++ toString (playerIndex + 1)
  match action with
  | GameAction.keepHand => applyKeepHand reg s playerIndex pLabel
  | GameAction.redraw => applyRedraw reg bases shuf s playerIndex pLabel
  | GameAction.playToResource cardIndex asSupply targetStackIndex =>
    applyPlayToResource reg s playerIndex cardIndex asSupply targetStackIndex pLabel
  | GameAction.passResource => applyPassResource s playerIndex pLabel
  | GameAction.drawCards => applyDrawCardsCase shuf s
  | GameAction.doneReorder => some (advanceReadyStep5 s [])
  | GameAction.playCard cardIndex =>
    applyPlayCard reg bases s playerIndex cardIndex pLabel
  | GameAction.playAbility sourceInstanceId targetInstanceId =>
    applyPlayAbilityCase reg bases s playerIndex sourceInstanceId targetInstanceId pLabel
  | GameAction.resolveMission missionInstanceId _ =>
    applyResolveMissionCase reg shuf s playerIndex missionInstanceId pLabel
  | GameAction.challenge challengerInstanceId _ =>
    applyChallengeCase reg s playerIndex challengerInstanceId pLabel
  | GameAction.defend defenderInstanceId =>
    applyDefendCase reg s playerIndex defenderInstanceId pLabel
  | GameAction.challengePass => applyChallengePassCase reg shuf ctr s playerIndex pLabel
  | GameAction.playEventInChallenge cardIndex targetInstanceId =>
    applyPlayEventCase reg bases s playerIndex cardIndex targetInstanceId pLabel
  | GameAction.pass => applyPassCase reg shuf ctr s playerIndex pLabel
  | GameAction.challengeCylon challengerInstanceId threatIndex =>
    applyChallengeCylonCase reg s playerIndex challengerInstanceId threatIndex pLabel
  | GameAction.passCylon => applyPassCylonCase reg s playerIndex pLabel

/-- `applyAction` — returns the new state (with the log appended to its
`log` field) and the log additions. -/
def applyAction (reg : RegMap) (bases : BasesMap) (shuf : Shuffler) (ctr : Nat)
    (s : GameState) (playerIndex : Nat) (action : GameAction) :
    Option (GameState × List String) :=
  match applyActionCore reg bases shuf ctr s playerIndex action with
  | none => none
  | some (s', log) => some ({ s' with log := s'.log ++ log }, log)

-- ============================================================
-- Deck validation (deckValidation.ts)
-- ============================================================

/-- `CardRegistry` — both record maps. -/
structure CardRegistry where
  cards : RegMap
  bases : BasesMap
  deriving DecidableEq, Repr

structure DeckSubmission where
  baseId : String
  deckCardIds : List String
  deriving DecidableEq, Repr

structure DeckValidationResult where
  valid : Bool
  errors : List String
  deriving DecidableEq, Repr

/-- `getCardName` of `deckValidation.ts` — the same helper is redefined
verbatim in the AI deck builder, so one definition serves both: full
"title, subtitle" when both are present, else `subtitle ?? title ?? id`. -/
def deckCardName (card : CardDef) : String :=
  match card.title, card.subtitle with
  | some t, some sub => t ++ ", " ++ sub
  | _, _ => card.subtitle.getD (card.title.getD card.id)

/-- Names in first-occurrence order — the iteration order of the insertion-
ordered `Map` of name counts. -/
def firstOccsAux : List String → List String → List String
  | [], _ => []
  | a :: l, seen =>
    if a ∈ seen then firstOccsAux l seen else a :: firstOccsAux l (a :: seen)

/-- `validateDeck`. -/
def validateDeck (submission : DeckSubmission) (registry : CardRegistry) :
    DeckValidationResult :=
  if (alookup registry.bases submission.baseId).isNone then
    { valid := false, errors := ["Unknown base: " ++ submission.baseId] }
  else
    let lenErrors :=
      if submission.deckCardIds.length < 60 then
        ["Deck must have at least 60 cards (has " ++
          toString submission.deckCardIds.length ++ ")"]
      else []
    let unknownErrors := submission.deckCardIds.filterMap fun cid =>
      if (alookup registry.cards cid).isNone then some ("Unknown card: " ++ cid)
      else none
    let resolvedNames := submission.deckCardIds.filterMap fun cid =>
      (alookup registry.cards cid).map deckCardName
    let copyErrors := (firstOccsAux resolvedNames []).filterMap fun n =>
      let c := resolvedNames.count n
      if 4 < c then
        some ("Too many copies of \"" ++ n ++ "\" (" ++ toString c ++ ", max 4)")
      else none
    let errors := lenErrors ++ unknownErrors ++ copyErrors
    { valid := errors.isEmpty, errors := errors }

-- ============================================================
-- AI deck builder (ai-deck-builder)
-- ============================================================

/-- `addCards` — the count map (`nameCounts`, `get(name) ?? 0`) is modelled
as a function `String → Nat`; the result is the extended deck id list, the
updated counts and the number of copies added.  `4 - current` truncates at
0 where JavaScript would go negative; the loop invariant `current ≤ 4`
makes both behave identically. -/
def addCardsGo : List CardDef → List String → (String → Nat) → Nat → Nat →
    List String × (String → Nat) × Nat
  | [], deck, nc, _, added => (deck, nc, added)
  | c :: rest, deck, nc, count, added =>
    if count ≤ added then (deck, nc, added)
    else
      let name := deckCardName c
      let current := nc name
      let toAdd := min (4 - current) (count - added)
      addCardsGo rest (deck ++ List.replicate toAdd c.id)
        (fun n => if n = name then current + toAdd else nc n) count (added + toAdd)

/-- `buildAIDeck`.  The random parts are explicit parameters: `baseIdx` is
the `pickRandom` choice among the base keys, and the three reorderings
stand for the outcomes of sorting by the jittered scores (`unitOrder`,
`nonUnitOrder`) and of the final `shuffle` (`allOrder`); every achievable
sort or shuffle outcome is a permutation of its input, and the theorems
below quantify over all permutations.  `pickRandom` on an empty key list
yields `undefined`, so `base.resource` throws (`none`). -/
def buildAIDeck (registry : CardRegistry) (baseIdx : Nat)
    (unitOrder nonUnitOrder allOrder : List CardDef → List CardDef) :
    Option DeckSubmission :=
  let baseIds := registry.bases.map Prod.fst
  match baseIds.get? baseIdx with
  | none => none
  | some baseId =>
    match alookup registry.bases baseId with
    | none => none  -- unreachable: `baseId` is one of the record's keys
    | some _base =>
      let allCards := registry.cards.map Prod.snd
      let units := allCards.filter fun c => c.type = "personnel" || c.type = "ship"
      let nonUnits := allCards.filter fun c => c.type = "event" || c.type = "mission"
      let r1 := addCardsGo (unitOrder units) [] (fun _ => 0) 34 0
      let r2 := addCardsGo (nonUnitOrder nonUnits) r1.1 r1.2.1 (60 - r1.1.length) 0
      let deck3 :=
        if r2.1.length < 60 then
          (addCardsGo (allOrder allCards) r2.1 r2.2.1 (60 - r2.1.length) 0).1
        else r2.1
      some { baseId := baseId, deckCardIds := deck3 }

-- ============================================================
-- Instance counting (for the conservation claims)
-- ============================================================

/-- Number of card instances a player holds across every zone list: hand,
deck, discard, alert and reserve stacks, resource-stack tops and supply
cards. -/
def countPlayer (p : PlayerState) : Nat :=
  p.hand.length + p.deck.length + p.discard.length +
    (p.zones.alert.map (fun st => st.cards.length)).sum +
    (p.zones.reserve.map (fun st => st.cards.length)).sum +
    (p.zones.resourceStacks.map (fun st => 1 + st.supplyCards.length)).sum

/-- Total card instances in a game state, cylon threats included. -/
def countState (s : GameState) : Nat :=
  countPlayer s.players.p0 + countPlayer s.players.p1 + s.cylonThreats.length

/-- All instance ids a player holds, zone by zone. -/
def playerInstanceIds (p : PlayerState) : List String :=
  p.hand.map (·.instanceId) ++ p.deck.map (·.instanceId) ++
    p.discard.map (·.instanceId) ++
    (p.zones.alert.map (fun st => st.cards.map (·.instanceId))).flatten ++
    (p.zones.reserve.map (fun st => st.cards.map (·.instanceId))).flatten ++
    (p.zones.resourceStacks.map
      (fun st => st.topCard.instanceId :: st.supplyCards.map (·.instanceId))).flatten

/-- All instance ids in a game state. -/
def stateInstanceIds (s : GameState) : List String :=
  playerInstanceIds s.players.p0 ++ playerInstanceIds s.players.p1 ++
    s.cylonThreats.map (·.card.instanceId)

-- ============================================================
-- Concrete fixtures used by counterexamples and witnesses
-- ============================================================

/-- An empty-zones player template. -/
def blankPlayer (baseId : String) : PlayerState :=
  { baseDefId := baseId
    zones := { alert := [], reserve := [], resourceStacks := [] }
    hand := []
    deck := []
    discard := []
    influence := 10
    hasMulliganed := false
    hasPlayedResource := false
    hasResolvedMission := false
    consecutivePasses := 0 }

/-- A state template around two players. -/
def mkState (q0 q1 : PlayerState) (phase : GamePhase) : GameState :=
  { players := { p0 := q0, p1 := q1 }
    phase := phase
    turn := 1
    readyStep := 1
    firstPlayerIndex := 0
    activePlayerIndex := 0
    fleetDefenseLevel := 7
    challenge := none
    cylonThreats := []
    log := []
    winner := none }

def inst (iid defId : String) : CardInstance :=
  { instanceId := iid, defId := defId, faceUp := true }

-- ============================================================
-- Shared lemmas
-- ============================================================

theorem Players.get_set_self (ps : Players) (i : Nat) (p : PlayerState) :
    (ps.set i p).get i = p := by
  unfold Players.get Players.set
  by_cases h : i = 0 <;> simp [h]

theorem GameState.getP_setP_self (s : GameState) (i : Nat) (p : PlayerState) :
    (s.setP i p).getP i = p := by
  unfold GameState.getP GameState.setP
  exact Players.get_set_self s.players i p

theorem listUpdate_length {α : Type} (l : List α) (i : Nat) (f : α → α) :
    (listUpdate l i f).length = l.length := by
  induction l generalizing i with
  | nil => rfl
  | cons x rest ih =>
    cases i with
    | zero => rfl
    | succ n => simpa [listUpdate] using ih n

theorem listUpdate_get_self {α : Type} (l : List α) (i : Nat) (f : α → α) :
    (listUpdate l i f).get? i = (l.get? i).map f := by
  induction l generalizing i with
  | nil => rfl
  | cons x rest ih =>
    cases i with
    | zero => rfl
    | succ n => simpa [listUpdate] using ih n

-- ============================================================
-- C10 — opponent face-down supply cards are fully exposed
-- ============================================================

/-- C10: for every state in which player `1-i` holds a face-down supply
card under one of their resource stacks, `getPlayerView s i` exposes that
full `CardInstance` (its `defId` included) inside `opponent.zones`, not
merely a count. -/
theorem C10_theorem (s : GameState) (i : Nat) (_hi : i < 2)
    (stIdx : Nat) (st : ResourceStack) (c : CardInstance)
    (hst : (s.getP (1 - i)).zones.resourceStacks.get? stIdx = some st)
    (hc : c ∈ st.supplyCards) (_hdown : c.faceUp = false) :
    ∃ st', (getPlayerView s i).opponent.zones.resourceStacks.get? stIdx = some st' ∧
      c ∈ st'.supplyCards ∧ st'.topCard = st.topCard := by
  refine ⟨st, ?_, hc, rfl⟩
  simpa [getPlayerView] using hst

/-- A face-down supply card and the stack and state hosting it. -/
def c10supply : CardInstance :=
  { instanceId := "s1", defId := "hidden1", faceUp := false }

def c10stack : ResourceStack :=
  { topCard := inst "t1" "base1"
    supplyCards := [c10supply]
    exhausted := false }

def c10state : GameState :=
  mkState (blankPlayer "b0")
    { blankPlayer "b1" with
      zones := { alert := [], reserve := [], resourceStacks := [c10stack] } }
    GamePhase.ready

/-- Witness for C10 at a concrete state. -/
theorem C10_witness :
    ∃ st', (getPlayerView c10state 0).opponent.zones.resourceStacks.get? 0 = some st' ∧
      c10supply ∈ st'.supplyCards ∧ st'.topCard = inst "t1" "base1" :=
  C10_theorem c10state 0 (by decide) 0 c10stack c10supply
    (by decide) (by decide) (by decide)

-- ============================================================
-- C5 — the view hides the opponent's hand contents and deck order
-- ============================================================

/-- C5: `getPlayerView s i` exposes the opponent's hand and deck only as
counts: replacing the opponent's hand by any list of the same length and
their deck by any list of the same length leaves the view unchanged. -/
theorem C5_theorem (s : GameState) (i : Nat) (hi : i < 2)
    (h' d' : List CardInstance)
    (hh : h'.length = (s.getP (1 - i)).hand.length)
    (hd : d'.length = (s.getP (1 - i)).deck.length) :
    getPlayerView
      (s.setP (1 - i) { s.getP (1 - i) with hand := h', deck := d' }) i =
      getPlayerView s i := by
  interval_cases i <;>
    simp_all [getPlayerView, GameState.getP, GameState.setP,
      Players.get, Players.set]

/-- A state in which the opponent (player 1) holds one hand card and one
deck card. -/
def c5state : GameState :=
  mkState (blankPlayer "b0")
    { blankPlayer "b1" with hand := [inst "h1" "x1"], deck := [inst "d1" "y1"] }
    GamePhase.execution

/-- Witness for C5 at a concrete state. -/
theorem C5_witness :
    getPlayerView
      (c5state.setP 1
        { c5state.getP 1 with hand := [inst "h9" "secret"], deck := [inst "d9" "other"] })
      0 = getPlayerView c5state 0 :=
  C5_theorem c5state 0 (by decide) [inst "h9" "secret"] [inst "d9" "other"]
    (by decide) (by decide)

-- ============================================================
-- C9 — drawCards is applied without any precondition
-- ============================================================

/-- Drawing `n` cards grows the hand by `min n (deck + discard)` when the
shuffle preserves length. -/
theorem drawCardsFn_hand_length (shuf : Shuffler)
    (hs : ∀ l, (shuf l).length = l.length) (n : Nat) (p : PlayerState)
    (log : List String) (label : String) :
    (drawCardsFn shuf n p log label).1.hand.length =
      p.hand.length + min n (p.deck.length + p.discard.length) := by
  induction n generalizing p log with
  | zero => simp [drawCardsFn]
  | succ n ih =>
    cases hdeck : p.deck with
    | nil =>
      cases hdisc : p.discard with
      | nil => simp [drawCardsFn, hdeck, hdisc]
      | cons d ds =>
        have hlen := hs p.discard
        rw [hdisc] at hlen
        cases hsh : shuf (d :: ds) with
        | nil => rw [hsh] at hlen; simp at hlen
        | cons c rest =>
          rw [hsh] at hlen
          simp only [List.length_cons] at hlen
          simp only [drawCardsFn, hdeck, hdisc, hsh]
          rw [ih]
          simp only [List.length_append, List.length_nil, List.length_cons]
          omega
    | cons c rest =>
      simp only [drawCardsFn, hdeck]
      rw [ih]
      simp only [List.length_append, List.length_nil, List.length_cons]
      omega

/-- A game-over state with empty decks and discards. -/
def c9state : GameState :=
  mkState (blankPlayer "b0") (blankPlayer "b1") GamePhase.gameOver

/-- Counterexample to C9 as stated: on a (game-over) state whose decks and
discards are empty, the drawCards branch still runs (readyStep becomes 4)
but neither player's hand grows by two cards — zero cards are drawn. -/
theorem C9_counterexample :
    (applyAction [] [] id 0 c9state 0 GameAction.drawCards).map
        (fun r => (r.1.players.p0.hand.length, r.1.players.p1.hand.length,
          r.1.readyStep, r.1.activePlayerIndex)) = some (0, 0, 4, 0) ∧
      c9state.players.p0.hand.length = 0 ∧ c9state.phase = GamePhase.gameOver := by
  decide

/-- C9 (amended): `applyAction` enforces no phase, ready-step or
active-player precondition on `drawCards`: in every state (any phase,
`gameOver` included) and for every player index, it draws up to 2 cards for
both players (exactly 2 whenever deck plus discard hold at least 2), sets
`readyStep` to 4, sets the active player to `firstPlayerIndex`, and clears
both players' `hasPlayedResource` flags. -/
theorem C9_theorem (reg : RegMap) (bases : BasesMap) (shuf : Shuffler)
    (ctr : Nat) (s : GameState) (p : Nat)
    (hs : ∀ l, (shuf l).length = l.length) :
    ∃ s' lg, applyAction reg bases shuf ctr s p GameAction.drawCards = some (s', lg) ∧
      s'.phase = s.phase ∧ s'.readyStep = 4 ∧
      s'.activePlayerIndex = s.firstPlayerIndex ∧
      s'.players.p0.hasPlayedResource = false ∧
      s'.players.p1.hasPlayedResource = false ∧
      s'.players.p0.hand.length =
        s.players.p0.hand.length +
          min 2 (s.players.p0.deck.length + s.players.p0.discard.length) ∧
      s'.players.p1.hand.length =
        s.players.p1.hand.length +
          min 2 (s.players.p1.deck.length + s.players.p1.discard.length) := by
  obtain ⟨q0, l0, hq0⟩ : ∃ q l, drawCardsFn shuf 2 s.players.p0 [] "Player 1" = (q, l) :=
    ⟨_, _, rfl⟩
  obtain ⟨q1, l1, hq1⟩ : ∃ q l, drawCardsFn shuf 2 s.players.p1 l0 "Player 2" = (q, l) :=
    ⟨_, _, rfl⟩
  have h0 := drawCardsFn_hand_length shuf hs 2 s.players.p0 [] "Player 1"
  have h1 := drawCardsFn_hand_length shuf hs 2 s.players.p1 l0 "Player 2"
  rw [hq0] at h0
  rw [hq1] at h1
  refine ⟨{ s with
      players := { p0 := { q0 with hasPlayedResource := false }
                   p1 := { q1 with hasPlayedResource := false } }
      readyStep := 4
      activePlayerIndex := s.firstPlayerIndex
      log := s.log ++ (l1 ++ ["All players draw 2 cards."]) },
    l1 ++ ["All players draw 2 cards."], ?_, rfl, rfl, rfl, rfl, rfl, h0, h1⟩
  simp [applyAction, applyActionCore, applyDrawCardsCase, hq0, hq1]

/-- A state with two-card decks for the C9 witness. -/
def c9wstate : GameState :=
  mkState { blankPlayer "b0" with deck := [inst "a1" "x", inst "a2" "x"] }
          { blankPlayer "b1" with deck := [inst "b1" "x", inst "b2" "x"] }
          GamePhase.gameOver

/-- Witness for C9 at a concrete input (note: player index 1 acts in a
game-over phase and the action still applies). -/
theorem C9_witness :
    ∃ s' lg, applyAction [] [] id 0 c9wstate 1 GameAction.drawCards = some (s', lg) ∧
      s'.phase = c9wstate.phase ∧ s'.readyStep = 4 ∧
      s'.activePlayerIndex = c9wstate.firstPlayerIndex ∧
      s'.players.p0.hasPlayedResource = false ∧
      s'.players.p1.hasPlayedResource = false ∧
      s'.players.p0.hand.length =
        c9wstate.players.p0.hand.length +
          min 2 (c9wstate.players.p0.deck.length + c9wstate.players.p0.discard.length) ∧
      s'.players.p1.hand.length =
        c9wstate.players.p1.hand.length +
          min 2 (c9wstate.players.p1.deck.length + c9wstate.players.p1.discard.length) :=
  C9_theorem [] [] id 0 c9wstate 1 (fun _ => rfl)

-- ============================================================
-- C4 — stale references: which actions are silent no-ops
-- ============================================================

/-- An open challenge awaiting the defender, used by the C4 results. -/
def c4challenge : ChallengeState :=
  { challengerInstanceId := "x1"
    challengerPlayerIndex := 0
    defenderInstanceId := none
    defenderPlayerIndex := 1
    step := 1
    challengerMysticValue := none
    defenderMysticValue := none
    waitingForDefender := true
    consecutivePasses := 0
    isCylonChallenge := false }

def c4state : GameState :=
  { mkState (blankPlayer "b0") (blankPlayer "b1") GamePhase.execution with
    challenge := some c4challenge }

/-- Counterexample to C4 as stated: `defend` naming an instance id that is
nowhere in play ("ghost") is *not* a silent no-op — it records the ghost as
the chosen defender and appends a log entry. -/
theorem C4_counterexample :
    (applyAction [] [] id 0 c4state 1 (GameAction.defend (some "ghost"))).map
        (fun r => (decide (r.1 = c4state), r.2,
          r.1.challenge.map (fun c => c.defenderInstanceId))) =
      some (false, ["Player 2 defends with unknown."], some (some "ghost")) := by
  decide

/-- C4 (amended): actions that reference a hand index, instance id or
threat index no longer present are silent no-ops — the returned state
equals the input state and no log entry is appended — for `playCard`,
`playToResource`, `playEventInChallenge`, `resolveMission`, `challenge`,
`challengeCylon` (stale threat index) and `playAbility`; but `defend` with
a stale instance id still records it as the defender and logs, and
`challengeCylon` with a stale challenger id (but a live threat index) still
opens the challenge. -/
theorem C4_theorem (reg : RegMap) (bases : BasesMap) (shuf : Shuffler) (ctr : Nat)
    (s : GameState) (p : Nat) (c : ChallengeState) (i ti oi : Nat) (b : Bool)
    (tsi : Option Nat) (tgt : Option String) (iid : String) (uids : List String) :
    ((s.getP p).hand.get? i = none →
      applyAction reg bases shuf ctr s p (GameAction.playCard i) = some (s, [])) ∧
    ((s.getP p).hand.get? i = none →
      applyAction reg bases shuf ctr s p (GameAction.playToResource i b tsi) = some (s, [])) ∧
    (s.challenge = some c → (s.getP p).hand.get? i = none →
      applyAction reg bases shuf ctr s p (GameAction.playEventInChallenge i tgt) = some (s, [])) ∧
    (findUnitInZone (s.getP p).zones.alert iid = none →
      applyAction reg bases shuf ctr s p (GameAction.resolveMission iid uids) = some (s, [])) ∧
    (findCardDefByInstanceId reg s iid = some none →
      applyAction reg bases shuf ctr s p (GameAction.challenge iid oi) = some (s, [])) ∧
    (s.cylonThreats.get? ti = none →
      applyAction reg bases shuf ctr s p (GameAction.challengeCylon iid ti) = some (s, [])) ∧
    ((∀ st0, (s.getP p).zones.resourceStacks.head? = some st0 →
        st0.topCard.instanceId ≠ iid) →
      (s.getP p).zones.alert.find?
          (fun st => st.cards.head?.map (·.instanceId) = some iid) = none →
      applyAction reg bases shuf ctr s p (GameAction.playAbility iid tgt) = some (s, [])) := by
  refine ⟨?_, ?_, ?_, ?_, ?_, ?_, ?_⟩
  · intro hi
    simp only [applyAction, applyActionCore, applyPlayCard, hi, List.append_nil]
  · intro hi
    simp only [applyAction, applyActionCore, applyPlayToResource, hi, List.append_nil]
  · intro hch hi
    simp only [applyAction, applyActionCore, applyPlayEventCase, hch, hi,
      List.append_nil]
    rw [← hch]
  · intro hf
    simp only [applyAction, applyActionCore, applyResolveMissionCase, hf,
      List.append_nil]
  · intro hf
    simp only [applyAction, applyActionCore, applyChallengeCase, hf, List.append_nil]
  · intro ht
    simp only [applyAction, applyActionCore, applyChallengeCylonCase, ht,
      List.append_nil]
  · intro hbase hf
    cases hh : (s.getP p).zones.resourceStacks.head? with
    | none =>
      simp only [applyAction, applyActionCore, applyPlayAbilityCase,
        applyAbilityAlertLoop, hh, hf, List.append_nil]
    | some st0 =>
      simp only [applyAction, applyActionCore, applyPlayAbilityCase,
        applyAbilityAlertLoop, hh, if_neg (hbase st0 hh), hf, List.append_nil]

/-- Witness for C4: three of the stale cases, evaluated on a concrete
state. -/
theorem C4_witness :
    applyAction [] [] id 0 c4state 0 (GameAction.playCard 3) = some (c4state, []) ∧
    applyAction [] [] id 0 c4state 0 (GameAction.resolveMission "gone" []) = some (c4state, []) ∧
    applyAction [] [] id 0 c4state 0 (GameAction.challengeCylon "gone" 0) = some (c4state, []) := by
  have h := C4_theorem [] [] id 0 c4state 0 c4challenge 3 0 1 true none none "gone" []
  exact ⟨h.1 (by decide), h.2.2.2.1 (by decide), h.2.2.2.2.2.1 (by decide)⟩

-- ============================================================
-- C3 — when the victory check runs, and what it does
-- ============================================================

theorem checkVictory_players (s : GameState) (log : List String) :
    (checkVictory s log).1.players = s.players := by
  unfold checkVictory
  split_ifs <;> rfl

/-- If the state coming out of the execution tail has player 0 at 20+
influence, the tail's victory check fired for player 0. -/
theorem finishExecAction_victory0 (s : GameState) (log : List String)
    (h : 20 ≤ (finishExecAction s log).1.players.p0.influence) :
    (finishExecAction s log).1.phase = GamePhase.gameOver ∧
      (finishExecAction s log).1.winner = some 0 := by
  have hp : (finishExecAction s log).1.players.p0.influence =
      s.players.p0.influence := by
    simp only [finishExecAction, checkVictory, resetConsecutivePasses,
      advanceExecutionTurn]
    split_ifs <;> rfl
  rw [hp] at h
  simp [finishExecAction, checkVictory, resetConsecutivePasses, h]

theorem applyPowerBuff_fields (s : GameState) (t : String) (a : Int)
    (log : List String) :
    (applyPowerBuff s t a log).1.phase = s.phase ∧
    (applyPowerBuff s t a log).1.winner = s.winner ∧
    (applyPowerBuff s t a log).1.players = s.players ∧
    (applyPowerBuff s t a log).1.challenge.isSome = s.challenge.isSome := by
  unfold applyPowerBuff
  rcases hc : s.challenge with _ | c
  · simp [hc]
  · simp only [hc]
    split_ifs <;> simp [hc]

theorem resolveEventEffect_fields (s : GameState) (pi : Nat) (d : CardDef)
    (log : List String) (tgt : Option String) :
    (resolveEventEffect s pi d log tgt).1.phase = s.phase ∧
    (resolveEventEffect s pi d log tgt).1.winner = s.winner ∧
    (resolveEventEffect s pi d log tgt).1.challenge.isSome = s.challenge.isSome := by
  unfold resolveEventEffect
  split
  · rcases tgt with _ | t
    · simp
    · simpa using And.intro (applyPowerBuff_fields s t 2 log).1
        (And.intro (applyPowerBuff_fields s t 2 log).2.1
          (applyPowerBuff_fields s t 2 log).2.2.2)
  · simp [GameState.setP]
  · simp [GameState.setP]
  · rcases tgt with _ | t
    · simp
    · simpa using And.intro (applyPowerBuff_fields s t 1 log).1
        (And.intro (applyPowerBuff_fields s t 1 log).2.1
          (applyPowerBuff_fields s t 1 log).2.2.2)
  · rcases tgt with _ | t
    · simp
    · simpa using And.intro (applyPowerBuff_fields s t (-2) log).1
        (And.intro (applyPowerBuff_fields s t (-2) log).2.1
          (applyPowerBuff_fields s t (-2) log).2.2.2)
  · simp

/-- Split `applyAction` success into the underlying `applyActionCore`
success; the wrapper only appends to the `log` field. -/
theorem applyAction_some_elim (reg : RegMap) (bases : BasesMap) (shuf : Shuffler)
    (ctr : Nat) (s : GameState) (pi : Nat) (a : GameAction)
    (s' : GameState) (lg : List String)
    (h : applyAction reg bases shuf ctr s pi a = some (s', lg)) :
    ∃ pr, applyActionCore reg bases shuf ctr s pi a = some pr ∧
      s' = { pr.1 with log := pr.1.log ++ pr.2 } ∧ lg = pr.2 := by
  unfold applyAction at h
  cases hcore : applyActionCore reg bases shuf ctr s pi a with
  | none => rw [hcore] at h; cases h
  | some pr =>
    rw [hcore] at h
    simp only [Option.some.injEq, Prod.mk.injEq] at h
    exact ⟨pr, rfl, h.1.symm, h.2.symm⟩

/-- A challenge-effects-round state: player 0 holds a Shuttle Diplomacy
event, player 1 sits at influence 1. -/
def c3reg : RegMap :=
  [("ev", { id := "ev", subtitle := some "Shuttle Diplomacy", type := "event",
            abilityId := some "shuttle-diplomacy" })]

def c3state : GameState :=
  { mkState { blankPlayer "b0" with hand := [inst "i1" "ev"] }
      { blankPlayer "b1" with influence := 1 } GamePhase.execution with
    challenge := some { c4challenge with step := 2, waitingForDefender := false } }

/-- Counterexample to C3 as stated: the state-mutating
`playEventInChallenge` (Shuttle Diplomacy drops the opponent to influence
0) runs no victory check — the phase stays `execution` and no winner is
set, although a player now has influence ≤ 0. -/
theorem C3_counterexample :
    (applyAction c3reg [] id 0 c3state 0 (GameAction.playEventInChallenge 0 none)).map
        (fun r => (r.1.players.p1.influence, r.1.phase, r.1.winner)) =
      some (0, GamePhase.execution, none) := by
  decide

/-- The `playEventInChallenge` body never touches `phase` or `winner`. -/
theorem playEventWithCard_fields (reg : RegMap) (bases : BasesMap) (s : GameState)
    (pi i : Nat) (tgt : Option String) (card : CardInstance) (d : CardDef)
    (lbl : String) (pr : GameState × List String)
    (h : playEventWithCard reg bases s pi i tgt card d lbl = some pr) :
    pr.1.phase = s.phase ∧ pr.1.winner = s.winner := by
  have hfields := resolveEventEffect_fields
    (s.setP pi
      { payResourceCost reg bases (s.getP pi) d.cost with
        hand := (payResourceCost reg bases (s.getP pi) d.cost).hand.eraseIdx i })
    pi d [lbl ++ " plays " ++ cardName d ++ " during challenge."] tgt
  simp only [playEventWithCard] at h
  rcases hre : resolveEventEffect
      (s.setP pi
        { payResourceCost reg bases (s.getP pi) d.cost with
          hand := (payResourceCost reg bases (s.getP pi) d.cost).hand.eraseIdx i })
      pi d [lbl ++ " plays " ++ cardName d ++ " during challenge."] tgt
    with ⟨s2, l2⟩
  rw [hre] at h hfields
  split at h
  · cases h
  · simp only [Option.some.injEq] at h
    rw [← h]
    constructor
    · simpa [advanceChallengeEffectTurn, GameState.setP] using hfields.1
    · simpa [advanceChallengeEffectTurn, GameState.setP] using hfields.2.1


-- ============================================================
-- C3 support: which paths run the victory check
-- ============================================================

/-- A mystic reveal only touches the deck, discard and (via the log) the
labels: the unit zones and the influence total are unchanged. -/
theorem revealMysticValue_fields (reg : RegMap) (shuf : Shuffler) (ctr : Nat)
    (p : PlayerState) (label : String) (c' : Nat) (v : Int) (card : CardInstance)
    (p' : PlayerState) (lg : List String)
    (h : revealMysticValue reg shuf ctr p label = some (c', v, card, p', lg)) :
    p'.zones = p.zones ∧ p'.influence = p.influence := by
  unfold revealMysticValue at h
  rcases hdk : p.deck with _ | ⟨c, rest⟩ <;> simp only [hdk] at h
  · rcases hdc : p.discard with _ | ⟨d, ds⟩
    · simp only [hdc] at h
      obtain ⟨h1, h2, h3, h5⟩ := h
      exact ⟨rfl, rfl⟩
    · simp only [hdc] at h
      rcases hsh : shuf (d :: ds) with _ | ⟨e, es⟩
      · simp only [hsh] at h
        cases h
      · simp only [hsh] at h
        rcases hg : getCardDef reg e.defId with _ | gd
        · simp only [hg] at h
          cases h
        · simp only [hg] at h
          obtain ⟨h1, h2, h3, h5⟩ := h
          exact ⟨rfl, rfl⟩
  · rcases hg : getCardDef reg c.defId with _ | gd
    · simp only [hg] at h
      cases h
    · simp only [hg] at h
      obtain ⟨h1, h2, h3, h5⟩ := h
      exact ⟨rfl, rfl⟩

/-- Some player's influence has crossed a victory/defeat threshold. -/
def victoryPending (ps : Players) : Prop :=
  20 ≤ ps.p0.influence ∨ 20 ≤ ps.p1.influence ∨
    ps.p0.influence ≤ 0 ∨ ps.p1.influence ≤ 0

/-- A state that has been through the victory check: if a threshold is
crossed, the game is over and a winner is recorded. -/
def victoryChecked (s : GameState) : Prop :=
  victoryPending s.players →
    s.phase = GamePhase.gameOver ∧ s.winner.isSome = true

/-- Both players' influence totals agree. -/
def influencesEq (a b : Players) : Prop :=
  a.p0.influence = b.p0.influence ∧ a.p1.influence = b.p1.influence

theorem checkVictory_fires (s : GameState) (log : List String)
    (h : victoryPending s.players) :
    (checkVictory s log).1.phase = GamePhase.gameOver ∧
      (checkVictory s log).1.winner.isSome = true := by
  unfold checkVictory
  rcases h with h | h | h | h <;> split_ifs <;> simp_all

theorem setP_influence (s : GameState) (i : Nat) (q : PlayerState)
    (h : q.influence = (s.getP i).influence) :
    influencesEq (s.setP i q).players s.players := by
  unfold influencesEq GameState.setP GameState.getP Players.set Players.get at *
  by_cases hi : i = 0
  · simp [hi] at h ⊢
    exact h
  · simp [hi] at h ⊢
    exact h

theorem influencesEq_refl (a : Players) : influencesEq a a := ⟨rfl, rfl⟩

theorem influencesEq_symm {a b : Players} (h : influencesEq a b) :
    influencesEq b a := ⟨h.1.symm, h.2.symm⟩

theorem influencesEq_trans {a b c : Players} (h1 : influencesEq a b)
    (h2 : influencesEq b c) : influencesEq a c :=
  ⟨h1.1.trans h2.1, h1.2.trans h2.2⟩

theorem victoryPending_of_eq {a b : Players} (h : influencesEq a b)
    (hp : victoryPending a) : victoryPending b := by
  rcases h with ⟨h0, h1⟩
  rw [victoryPending, ← h0, ← h1]
  exact hp

theorem pushThreatsToDiscard_influence :
    ∀ (ts : List CylonThreatCard) (s : GameState),
      influencesEq (pushThreatsToDiscard s ts).players s.players ∧
      (pushThreatsToDiscard s ts).phase = s.phase ∧
      (pushThreatsToDiscard s ts).winner = s.winner
  | [], s => ⟨influencesEq_refl _, rfl, rfl⟩
  | t :: rest, s => by
    have ih := pushThreatsToDiscard_influence rest
      (s.setP t.ownerIndex (discardPlus (s.getP t.ownerIndex) t.card))
    have hstep : influencesEq
        (s.setP t.ownerIndex (discardPlus (s.getP t.ownerIndex) t.card)).players
        s.players :=
      setP_influence s t.ownerIndex _ rfl
    have hph : (s.setP t.ownerIndex
        (discardPlus (s.getP t.ownerIndex) t.card)).phase = s.phase := rfl
    have hw : (s.setP t.ownerIndex
        (discardPlus (s.getP t.ownerIndex) t.card)).winner = s.winner := rfl
    exact ⟨influencesEq_trans ih.1 hstep, ih.2.1.trans hph, ih.2.2.trans hw⟩

theorem readyPlayerStep_influence (reg : RegMap) (p : PlayerState)
    (label : String) (log : List String) (p2 : PlayerState)
    (log2 : List String) (h : readyPlayerStep reg p label log = some (p2, log2)) :
    p2.influence = p.influence := by
  simp only [readyPlayerStep] at h
  split_ifs at h
  · split at h
    · cases h
    · cases h
      rfl
  · cases h
    rfl

theorem startReadyPhase_influence (reg : RegMap) (s : GameState)
    (log : List String) (s' : GameState) (log' : List String)
    (h : startReadyPhase reg s log = some (s', log')) :
    influencesEq s'.players s.players ∧ s'.phase = GamePhase.ready := by
  simp only [startReadyPhase] at h
  split at h
  · cases h
  · rename_i q0 log0 h0
    split at h
    · cases h
    · rename_i q1 log1 h1
      cases h
      have hq0 := readyPlayerStep_influence reg _ _ _ _ _ h0
      have hq1 := readyPlayerStep_influence reg _ _ _ _ _ h1
      exact ⟨⟨hq0, hq1⟩, rfl⟩

/-- The cylon-phase end runs the victory check: whatever it returns has
been victory-checked, and it never changes influence. -/
theorem endCylonPhase_victory (reg : RegMap) (s : GameState)
    (log : List String) (s' : GameState) (log' : List String)
    (h : endCylonPhase reg s log = some (s', log')) :
    influencesEq s'.players s.players ∧ victoryChecked s' := by
  simp only [endCylonPhase] at h
  rcases hcv : checkVictory
      { pushThreatsToDiscard s s.cylonThreats with cylonThreats := [] }
      (log ++ ["Cylon phase ends. Turn ends."]) with ⟨s2, log2⟩
  simp only [hcv] at h
  have hpl := checkVictory_players
    { pushThreatsToDiscard s s.cylonThreats with cylonThreats := [] }
    (log ++ ["Cylon phase ends. Turn ends."])
  rw [hcv] at hpl
  have hpush := pushThreatsToDiscard_influence s.cylonThreats s
  have hs2inf : influencesEq s2.players s.players := by
    refine influencesEq_trans ?_ hpush.1
    rw [hpl]
    exact influencesEq_refl _
  have hfired : victoryPending s2.players →
      s2.phase = GamePhase.gameOver ∧ s2.winner.isSome = true := by
    intro hp
    have hp2 : victoryPending
        ({ pushThreatsToDiscard s s.cylonThreats with
            cylonThreats := [] } : GameState).players := by
      rw [← hpl]
      exact hp
    have := checkVictory_fires
      { pushThreatsToDiscard s s.cylonThreats with cylonThreats := [] }
      (log ++ ["Cylon phase ends. Turn ends."]) hp2
    rw [hcv] at this
    exact this
  split_ifs at h with hph
  · have hsr := startReadyPhase_influence reg s2 log2 s' log' h
    refine ⟨influencesEq_trans hsr.1 hs2inf, ?_⟩
    intro hp
    exfalso
    have hp2 : victoryPending s2.players := victoryPending_of_eq hsr.1 hp
    exact hph (hfired hp2).1
  · cases h
    exact ⟨hs2inf, hfired⟩


theorem advanceChallengeEffectTurn_players (s : GameState) :
    (advanceChallengeEffectTurn s).players = s.players ∧
    (advanceChallengeEffectTurn s).phase = s.phase ∧
    (advanceChallengeEffectTurn s).winner = s.winner := by
  unfold advanceChallengeEffectTurn
  split <;> exact ⟨rfl, rfl, rfl⟩

/-- The shared execution tail always victory-checks its result. -/
theorem finishExecAction_victoryChecked (s : GameState) (log : List String) :
    victoryChecked (finishExecAction s log).1 := by
  unfold finishExecAction
  rcases hcv : checkVictory (resetConsecutivePasses s) log with ⟨s2, log2⟩
  simp only [hcv]
  have hpl := checkVictory_players (resetConsecutivePasses s) log
  rw [hcv] at hpl
  have hfired : victoryPending s2.players →
      s2.phase = GamePhase.gameOver ∧ s2.winner.isSome = true := by
    intro hp
    have hp2 : victoryPending (resetConsecutivePasses s).players := by
      rw [← hpl]
      exact hp
    have hf := checkVictory_fires (resetConsecutivePasses s) log hp2
    rw [hcv] at hf
    exact hf
  split_ifs with hph
  · intro hp
    exfalso
    have hp2 : victoryPending s2.players := hp
    exact hph (hfired hp2).1
  · exact hfired

/-- The ability tail always victory-checks its result. -/
theorem finishAbilityAction_victoryChecked (s : GameState) (log : List String) :
    victoryChecked (finishAbilityAction s log).1 := by
  unfold finishAbilityAction
  rcases hcv : checkVictory (resetConsecutivePasses s) log with ⟨s2, log2⟩
  simp only [hcv]
  have hpl := checkVictory_players (resetConsecutivePasses s) log
  rw [hcv] at hpl
  have hfired : victoryPending s2.players →
      s2.phase = GamePhase.gameOver ∧ s2.winner.isSome = true := by
    intro hp
    have hp2 : victoryPending (resetConsecutivePasses s).players := by
      rw [← hpl]
      exact hp
    have hf := checkVictory_fires (resetConsecutivePasses s) log hp2
    rw [hcv] at hf
    exact hf
  split_ifs with hph hch
  · intro hp
    exfalso
    have hpe : victoryPending (advanceChallengeEffectTurn s2).players := hp
    rw [(advanceChallengeEffectTurn_players s2).1] at hpe
    exact hph (hfired hpe).1
  · intro hp
    exfalso
    have hp2 : victoryPending s2.players := hp
    exact hph (hfired hp2).1
  · exact hfired

/-- The non-cylon challenge tail always victory-checks its result. -/
theorem challengeTail_victoryChecked (s : GameState) (log : List String) :
    victoryChecked (challengeTail s log).1 := by
  unfold challengeTail
  rcases hcv : checkVictory { s with challenge := none } log with ⟨s2, log2⟩
  simp only [hcv]
  have hpl := checkVictory_players { s with challenge := none } log
  rw [hcv] at hpl
  have hfired : victoryPending s2.players →
      s2.phase = GamePhase.gameOver ∧ s2.winner.isSome = true := by
    intro hp
    have hp2 : victoryPending
        ({ s with challenge := none } : GameState).players := by
      rw [← hpl]
      exact hp
    have hf := checkVictory_fires { s with challenge := none } log hp2
    rw [hcv] at hf
    exact hf
  split_ifs with hph
  · intro hp
    exfalso
    have hp2 : victoryPending s2.players := hp
    exact hph (hfired hp2).1
  · exact hfired

/-- The cylon challenge tail always victory-checks its result. -/
theorem cylonChallengeTail_victoryChecked (reg : RegMap) (s : GameState)
    (log : List String) (s' : GameState) (log' : List String)
    (h : cylonChallengeTail reg s log = some (s', log')) :
    victoryChecked s' := by
  unfold cylonChallengeTail at h
  rcases hcv : checkVictory (resetConsecutivePasses { s with challenge := none })
      log with ⟨s2, log2⟩
  simp only [hcv] at h
  have hpl := checkVictory_players
    (resetConsecutivePasses { s with challenge := none }) log
  rw [hcv] at hpl
  have hfired : victoryPending s2.players →
      s2.phase = GamePhase.gameOver ∧ s2.winner.isSome = true := by
    intro hp
    have hp2 : victoryPending
        (resetConsecutivePasses { s with challenge := none }).players := by
      rw [← hpl]
      exact hp
    have hf := checkVictory_fires
      (resetConsecutivePasses { s with challenge := none }) log hp2
    rw [hcv] at hf
    exact hf
  split_ifs at h with hph hemp
  · exact (endCylonPhase_victory reg s2 log2 s' log' h).2
  · cases h
    intro hp
    exfalso
    have hp2 : victoryPending s2.players := hp
    exact hph (hfired hp2).1
  · cases h
    exact hfired


/-- Cylon challenge resolution either leaves both influence totals alone
(abort paths) or victory-checks its result. -/
theorem resolveCylonChallenge_victory (reg : RegMap) (shuf : Shuffler)
    (ctr : Nat) (s : GameState) (log : List String) (s' : GameState)
    (log' : List String)
    (h : resolveCylonChallenge reg shuf ctr s log = some (s', log')) :
    influencesEq s'.players s.players ∨ victoryChecked s' := by
  unfold resolveCylonChallenge at h
  rcases hch : s.challenge with _ | challenge
  · simp only [hch] at h
    cases h
  · simp only [hch] at h
    rcases hfind : findUnitInAnyZone (s.getP challenge.challengerPlayerIndex)
        challenge.challengerInstanceId with _ | ⟨ast, tg, ia⟩
    · simp only [hfind] at h
      cases h
      exact Or.inl ⟨rfl, rfl⟩
    · simp only [hfind] at h
      rcases hpow : getUnitPower reg ast with _ | basePower
      · simp only [hpow] at h
        cases h
      · simp only [hpow] at h
        rcases hrevA : revealMysticValue reg shuf ctr
            (s.getP challenge.challengerPlayerIndex)
            ("Player " ++ toString (challenge.challengerPlayerIndex + 1))
            with _ | ⟨ctr1, av, card1, ap', alog⟩
        · simp only [hrevA] at h
          cases h
        · simp only [hrevA] at h
          rcases hcyl : challenge.cylonPlayerIndex with _ | cylIdx
          · simp only [hcyl] at h
            cases h
          · simp only [hcyl] at h
            rcases hrevC : revealMysticValue reg shuf ctr1
                ((s.setP challenge.challengerPlayerIndex ap').getP cylIdx)
                ("Player " ++ toString (cylIdx + 1) ++ " (Cylon player)")
                with _ | ⟨ctr2, dv, card2, cp', dlog⟩
            · simp only [hrevC] at h
              cases h
            · simp only [hrevC] at h
              set S2 := (s.setP challenge.challengerPlayerIndex ap').setP cylIdx cp'
                with hS2
              have hiA := (revealMysticValue_fields _ _ _ _ _ _ _ _ _ _ hrevA).2
              have hiC := (revealMysticValue_fields _ _ _ _ _ _ _ _ _ _ hrevC).2
              have hS2inf : influencesEq S2.players s.players := by
                rw [hS2]
                exact influencesEq_trans
                  (setP_influence _ cylIdx cp' hiC)
                  (setP_influence s challenge.challengerPlayerIndex ap' hiA)
              split at h
              · cases h
                exact Or.inl hS2inf
              · rename_i threat hthreat
                split_ifs at h with hcmp
                · exact Or.inr (cylonChallengeTail_victoryChecked reg _ _ _ _ h)
                · split at h
                  · cases h
                  · rename_i ap2 log5 hdefeat0
                    split at hdefeat0
                    · cases hdefeat0
                    · rename_i ap3 log6 hdef2
                      cases hdefeat0
                      exact Or.inr
                        (cylonChallengeTail_victoryChecked reg _ _ _ _ h)

/-- Challenge resolution either leaves both influence totals alone (abort
paths) or victory-checks its result. -/
theorem resolveChallenge_victory (reg : RegMap) (shuf : Shuffler) (ctr : Nat)
    (s : GameState) (log : List String) (s' : GameState) (log' : List String)
    (h : resolveChallenge reg shuf ctr s log = some (s', log')) :
    influencesEq s'.players s.players ∨ victoryChecked s' := by
  unfold resolveChallenge at h
  rcases hch : s.challenge with _ | challenge
  · simp only [hch] at h
    cases h
  · simp only [hch] at h
    split_ifs at h with hicy
    · exact resolveCylonChallenge_victory reg shuf ctr s log s' log' h
    · rcases hfind : findUnitInAnyZone (s.getP challenge.challengerPlayerIndex)
          challenge.challengerInstanceId with _ | ⟨ast, tg, ia⟩
      · simp only [hfind] at h
        cases h
        exact Or.inl ⟨rfl, rfl⟩
      · simp only [hfind] at h
        rcases hpow : getUnitPower reg ast with _ | basePower
        · simp only [hpow] at h
          cases h
        · simp only [hpow] at h
          rcases hdef : challenge.defenderInstanceId with _ | did
          · simp only [hdef] at h
            have hpair := Option.some.inj h
            have hfst : (challengeTail
                ((s.setP challenge.defenderPlayerIndex
                    { s.getP challenge.defenderPlayerIndex with
                      influence := (s.getP challenge.defenderPlayerIndex).influence -
                        (basePower + challenge.challengerPowerBuff.getD 0) }).setP
                  challenge.challengerPlayerIndex
                  (commitUnit
                    ((s.setP challenge.defenderPlayerIndex
                        { s.getP challenge.defenderPlayerIndex with
                          influence :=
                            (s.getP challenge.defenderPlayerIndex).influence -
                              (basePower + challenge.challengerPowerBuff.getD 0) }).getP
                      challenge.challengerPlayerIndex)
                    challenge.challengerInstanceId))
                (log ++ ["Undefended! Player " ++
                  toString (challenge.defenderPlayerIndex + 1) ++ " loses " ++
                  toString (basePower + challenge.challengerPowerBuff.getD 0) ++
                  " influence. (Now " ++
                  toString ((s.getP challenge.defenderPlayerIndex).influence -
                    (basePower + challenge.challengerPowerBuff.getD 0)) ++
                  ")"])).1 = s' := congrArg Prod.fst hpair
            refine Or.inr ?_
            rw [← hfst]
            exact challengeTail_victoryChecked _ _
          · simp only [hdef] at h
            rcases hrevA : revealMysticValue reg shuf ctr
                (s.getP challenge.challengerPlayerIndex)
                ("Player " ++ toString (challenge.challengerPlayerIndex + 1))
                with _ | ⟨ctr1, av, card1, ap', alog⟩
            · simp only [hrevA] at h
              cases h
            · simp only [hrevA] at h
              rcases hrevD : revealMysticValue reg shuf ctr1
                  ((s.setP challenge.challengerPlayerIndex ap').getP
                    challenge.defenderPlayerIndex)
                  ("Player " ++ toString (challenge.defenderPlayerIndex + 1))
                  with _ | ⟨ctr2, dv, card2, dp', dlog⟩
              · simp only [hrevD] at h
                cases h
              · simp only [hrevD] at h
                set S2 := (s.setP challenge.challengerPlayerIndex ap').setP
                    challenge.defenderPlayerIndex dp' with hS2
                rcases hds : findUnitInAnyZone
                    (S2.getP challenge.defenderPlayerIndex) did
                    with _ | ⟨dst, dtag, dix⟩
                · simp only [hds, Option.isSome_none, Bool.false_eq_true,
                    if_false] at h
                  split_ifs at h with hcmp
                  · have hpair := Option.some.inj h
                    have hfst := congrArg (fun r => victoryChecked r.1) hpair
                    simp only [] at hfst
                    exact Or.inr (hfst.mp (challengeTail_victoryChecked _ _))
                  · split at h
                    · cases h
                    · rename_i ap2 log6 hdft0
                      split at hdft0
                      · cases hdft0
                      · rename_i ap3 log7 hdft
                        cases hdft0
                        have hpair := Option.some.inj h
                        have hfst := congrArg (fun r => victoryChecked r.1) hpair
                        simp only [] at hfst
                        exact Or.inr (hfst.mp (challengeTail_victoryChecked _ _))
                · simp only [hds, Option.isSome_some, if_true] at h
                  rcases hpowD : getUnitPower reg dst with _ | dp0
                  · simp only [hpowD] at h
                    cases h
                  · simp only [hpowD] at h
                    split_ifs at h with hcmp
                    · split at h
                      · cases h
                      · rename_i dp2 log6 hdft0
                        split at hdft0
                        · cases hdft0
                        · rename_i dp3 log7 hdft
                          cases hdft0
                          have hpair := Option.some.inj h
                          have hfst := congrArg (fun r => victoryChecked r.1) hpair
                          simp only [] at hfst
                          exact Or.inr (hfst.mp (challengeTail_victoryChecked _ _))
                    · split at h
                      · cases h
                      · rename_i ap2 log6 hdft0
                        split at hdft0
                        · cases hdft0
                        · rename_i ap3 log7 hdft
                          cases hdft0
                          have hpair := Option.some.inj h
                          have hfst := congrArg (fun r => victoryChecked r.1) hpair
                          simp only [] at hfst
                          exact Or.inr (hfst.mp (challengeTail_victoryChecked _ _))


/-- `playCard` either leaves influence alone (stale index) or
victory-checks its result. -/
theorem applyPlayCard_victory (reg : RegMap) (bases : BasesMap) (s : GameState)
    (pi ci : Nat) (lbl : String) (pr : GameState × List String)
    (h : applyPlayCard reg bases s pi ci lbl = some pr) :
    influencesEq pr.1.players s.players ∨ victoryChecked pr.1 := by
  unfold applyPlayCard at h
  rcases hget : (s.getP pi).hand.get? ci with _ | card
  · simp only [hget] at h
    cases h
    exact Or.inl (influencesEq_refl _)
  · simp only [hget] at h
    rcases hd : getCardDef reg card.defId with _ | d
    · simp only [hd] at h
      cases h
    · simp only [hd] at h
      rcases hpl : playCardPlace reg bases s pi ci card d lbl with _ | r
      · simp only [hpl] at h
        cases h
      · simp only [hpl] at h
        cases h
        exact Or.inr (finishExecAction_victoryChecked r.1 r.2)

theorem applyAbilityAlertLoop_victory (reg : RegMap) (s : GameState)
    (pi : Nat) (src : String) (tgt : Option String) (lbl : String)
    (pr : GameState × List String)
    (h : applyAbilityAlertLoop reg s pi src tgt lbl = some pr) :
    influencesEq pr.1.players s.players ∨ victoryChecked pr.1 := by
  unfold applyAbilityAlertLoop at h
  rcases hfind : (s.getP pi).zones.alert.find?
      (fun st => st.cards.head?.map (fun c => c.instanceId) = some src)
      with _ | st
  · simp only [hfind] at h
    cases h
    exact Or.inl (influencesEq_refl _)
  · simp only [hfind] at h
    rcases hhd : st.cards.head? with _ | c
    · simp only [hhd] at h
      cases h
    · simp only [hhd] at h
      rcases hcd : getCardDef reg c.defId with _ | d
      · simp only [hcd] at h
        cases h
      · simp only [hcd] at h
        cases h
        exact Or.inr (finishAbilityAction_victoryChecked _ _)

/-- `playAbility` either leaves influence alone (no matching source) or
victory-checks its result. -/
theorem applyPlayAbilityCase_victory (reg : RegMap) (bases : BasesMap)
    (s : GameState) (pi : Nat) (src : String) (tgt : Option String)
    (lbl : String) (pr : GameState × List String)
    (h : applyPlayAbilityCase reg bases s pi src tgt lbl = some pr) :
    influencesEq pr.1.players s.players ∨ victoryChecked pr.1 := by
  unfold applyPlayAbilityCase at h
  rcases hhead : (s.getP pi).zones.resourceStacks.head? with _ | baseStack
  · simp only [hhead] at h
    exact applyAbilityAlertLoop_victory reg s pi src tgt lbl pr h
  · simp only [hhead] at h
    split_ifs at h with hid
    · rcases hb : alookup bases (s.getP pi).baseDefId with _ | baseDef
      · simp only [hb] at h
        cases h
      · simp only [hb] at h
        cases h
        exact Or.inr (finishAbilityAction_victoryChecked _ _)
    · exact applyAbilityAlertLoop_victory reg s pi src tgt lbl pr h

/-- `resolveMission` either leaves influence alone (stale mission) or
victory-checks its result. -/
theorem applyResolveMissionCase_victory (reg : RegMap) (shuf : Shuffler)
    (s : GameState) (pi : Nat) (mid : String) (lbl : String)
    (pr : GameState × List String)
    (h : applyResolveMissionCase reg shuf s pi mid lbl = some pr) :
    influencesEq pr.1.players s.players ∨ victoryChecked pr.1 := by
  unfold applyResolveMissionCase at h
  rcases hfz : findUnitInZone (s.getP pi).zones.alert mid with _ | ⟨st, idx⟩
  · simp only [hfz] at h
    cases h
    exact Or.inl (influencesEq_refl _)
  · simp only [hfz] at h
    rcases hhd : st.cards.head? with _ | c
    · simp only [hhd] at h
      cases h
    · simp only [hhd] at h
      rcases hd : getCardDef reg c.defId with _ | d
      · simp only [hd] at h
        cases h
      · simp only [hd] at h
        cases h
        exact Or.inr (finishExecAction_victoryChecked _ _)

/-- `passCylon` always victory-checks its result. -/
theorem applyPassCylonCase_victory (reg : RegMap) (s : GameState) (pi : Nat)
    (lbl : String) (pr : GameState × List String)
    (h : applyPassCylonCase reg s pi lbl = some pr) :
    victoryChecked pr.1 := by
  unfold applyPassCylonCase at h
  simp only [] at h
  rcases hcv : checkVictory (s.setP pi
      { baseDefId := (s.getP pi).baseDefId,
        zones := (s.getP pi).zones,
        hand := (s.getP pi).hand,
        deck := (s.getP pi).deck,
        discard := (s.getP pi).discard,
        influence := (s.getP pi).influence - 1,
        hasMulliganed := (s.getP pi).hasMulliganed,
        hasPlayedResource := (s.getP pi).hasPlayedResource,
        hasResolvedMission := (s.getP pi).hasResolvedMission,
        consecutivePasses := (s.getP pi).consecutivePasses + 1 })
      [lbl ++ " passes in Cylon phase and loses 1 influence. (Now " ++
        toString ((s.getP pi).influence - 1) ++ ")"] with ⟨s2, log2⟩
  simp only [hcv] at h
  have hpl := checkVictory_players (s.setP pi
      { baseDefId := (s.getP pi).baseDefId,
        zones := (s.getP pi).zones,
        hand := (s.getP pi).hand,
        deck := (s.getP pi).deck,
        discard := (s.getP pi).discard,
        influence := (s.getP pi).influence - 1,
        hasMulliganed := (s.getP pi).hasMulliganed,
        hasPlayedResource := (s.getP pi).hasPlayedResource,
        hasResolvedMission := (s.getP pi).hasResolvedMission,
        consecutivePasses := (s.getP pi).consecutivePasses + 1 })
      [lbl ++ " passes in Cylon phase and loses 1 influence. (Now " ++
        toString ((s.getP pi).influence - 1) ++ ")"]
  rw [hcv] at hpl
  have hfired : victoryPending s2.players →
      s2.phase = GamePhase.gameOver ∧ s2.winner.isSome = true := by
    intro hp
    have hf := checkVictory_fires (s.setP pi
        { baseDefId := (s.getP pi).baseDefId,
          zones := (s.getP pi).zones,
          hand := (s.getP pi).hand,
          deck := (s.getP pi).deck,
          discard := (s.getP pi).discard,
          influence := (s.getP pi).influence - 1,
          hasMulliganed := (s.getP pi).hasMulliganed,
          hasPlayedResource := (s.getP pi).hasPlayedResource,
          hasResolvedMission := (s.getP pi).hasResolvedMission,
          consecutivePasses := (s.getP pi).consecutivePasses + 1 })
        [lbl ++ " passes in Cylon phase and loses 1 influence. (Now " ++
          toString ((s.getP pi).influence - 1) ++ ")"]
        (by rw [hpl] at hp; exact hp)
    rw [hcv] at hf
    exact hf
  split_ifs at h with hph hdone
  · exact (endCylonPhase_victory reg s2 log2 pr.1 pr.2 h).2
  · cases h
    intro hp
    exfalso
    have hp2 : victoryPending s2.players := hp
    exact hph (hfired hp2).1
  · cases h
    exact hfired



/-- C3 (amended): the victory check itself behaves as specified — the ≥ 20
test is evaluated for both players in ascending index order before the ≤ 0
test, a ≥ 20 player wins immediately, otherwise a ≤ 0 player loses and the
other player wins, and a state triggering neither is returned unchanged.
The check runs after every listed mutating path: `playCard`, `playAbility`,
`resolveMission` and `passCylon` (each either leaves both influence totals
unchanged or yields a state where any crossed threshold has already set
`phase = gameOver` and a winner), challenge resolution and the cylon phase
end (same guarantee). But it does **not** run after the state-mutating
`playEventInChallenge`, whose result always keeps the incoming phase and
winner. -/
theorem C3_theorem :
    (∀ s log, 20 ≤ s.players.p0.influence →
      (checkVictory s log).1.phase = GamePhase.gameOver ∧
      (checkVictory s log).1.winner = some 0) ∧
    (∀ s log, ¬ 20 ≤ s.players.p0.influence → 20 ≤ s.players.p1.influence →
      (checkVictory s log).1.phase = GamePhase.gameOver ∧
      (checkVictory s log).1.winner = some 1) ∧
    (∀ s log, ¬ 20 ≤ s.players.p0.influence → ¬ 20 ≤ s.players.p1.influence →
      s.players.p0.influence ≤ 0 →
      (checkVictory s log).1.phase = GamePhase.gameOver ∧
      (checkVictory s log).1.winner = some 1) ∧
    (∀ s log, ¬ 20 ≤ s.players.p0.influence → ¬ 20 ≤ s.players.p1.influence →
      ¬ s.players.p0.influence ≤ 0 → s.players.p1.influence ≤ 0 →
      (checkVictory s log).1.phase = GamePhase.gameOver ∧
      (checkVictory s log).1.winner = some 0) ∧
    (∀ s log, ¬ 20 ≤ s.players.p0.influence → ¬ 20 ≤ s.players.p1.influence →
      ¬ s.players.p0.influence ≤ 0 → ¬ s.players.p1.influence ≤ 0 →
      checkVictory s log = (s, log)) ∧
    (∀ reg bases shuf ctr s pi i tgt s' lg,
      applyAction reg bases shuf ctr s pi
          (GameAction.playEventInChallenge i tgt) = some (s', lg) →
      s'.phase = s.phase ∧ s'.winner = s.winner) ∧
    (∀ reg bases shuf ctr s pi i s' lg,
      applyAction reg bases shuf ctr s pi (GameAction.playCard i) = some (s', lg) →
      influencesEq s'.players s.players ∨ victoryChecked s') ∧
    (∀ reg bases shuf ctr s pi src tgt s' lg,
      applyAction reg bases shuf ctr s pi
          (GameAction.playAbility src tgt) = some (s', lg) →
      influencesEq s'.players s.players ∨ victoryChecked s') ∧
    (∀ reg bases shuf ctr s pi mid uids s' lg,
      applyAction reg bases shuf ctr s pi
          (GameAction.resolveMission mid uids) = some (s', lg) →
      influencesEq s'.players s.players ∨ victoryChecked s') ∧
    (∀ reg bases shuf ctr s pi s' lg,
      applyAction reg bases shuf ctr s pi GameAction.passCylon = some (s', lg) →
      victoryChecked s') ∧
    (∀ reg shuf ctr s log s' log',
      resolveChallenge reg shuf ctr s log = some (s', log') →
      influencesEq s'.players s.players ∨ victoryChecked s') ∧
    (∀ reg s log s' log',
      endCylonPhase reg s log = some (s', log') →
      victoryChecked s') := by
  refine ⟨?_, ?_, ?_, ?_, ?_, ?_, ?_, ?_, ?_, ?_, ?_, ?_⟩
  · intro s log h
    simp [checkVictory, h]
  · intro s log h0 h1
    simp [checkVictory, h0, h1]
  · intro s log h0 h1 h2
    simp [checkVictory, h0, h1, h2]
  · intro s log h0 h1 h2 h3
    simp [checkVictory, h0, h1, h2, h3]
  · intro s log h0 h1 h2 h3
    simp [checkVictory, h0, h1, h2, h3]
  · intro reg bases shuf ctr s pi i tgt s' lg heq
    obtain ⟨pr, hcore, hs', -⟩ := applyAction_some_elim _ _ _ _ _ _ _ _ _ heq
    have hgoal : pr.1.phase = s.phase ∧ pr.1.winner = s.winner →
        s'.phase = s.phase ∧ s'.winner = s.winner := by
      intro h
      rw [hs']
      exact h
    apply hgoal
    clear heq hs' hgoal
    simp only [applyActionCore, applyPlayEventCase] at hcore
    split at hcore
    · simp only [Option.some.injEq] at hcore
      rw [← hcore]
      exact ⟨rfl, rfl⟩
    · split at hcore
      · simp only [Option.some.injEq] at hcore
        rw [← hcore]
        exact ⟨rfl, rfl⟩
      · split at hcore
        · cases hcore
        · exact playEventWithCard_fields _ _ _ _ _ _ _ _ _ _ hcore
  · intro reg bases shuf ctr s pi i s' lg heq
    obtain ⟨pr, hcore, hs', -⟩ := applyAction_some_elim _ _ _ _ _ _ _ _ _ heq
    simp only [applyActionCore] at hcore
    have hv := applyPlayCard_victory reg bases s pi i _ pr hcore
    rw [hs']
    exact hv
  · intro reg bases shuf ctr s pi src tgt s' lg heq
    obtain ⟨pr, hcore, hs', -⟩ := applyAction_some_elim _ _ _ _ _ _ _ _ _ heq
    simp only [applyActionCore] at hcore
    have hv := applyPlayAbilityCase_victory reg bases s pi src tgt _ pr hcore
    rw [hs']
    exact hv
  · intro reg bases shuf ctr s pi mid uids s' lg heq
    obtain ⟨pr, hcore, hs', -⟩ := applyAction_some_elim _ _ _ _ _ _ _ _ _ heq
    simp only [applyActionCore] at hcore
    have hv := applyResolveMissionCase_victory reg shuf s pi mid _ pr hcore
    rw [hs']
    exact hv
  · intro reg bases shuf ctr s pi s' lg heq
    obtain ⟨pr, hcore, hs', -⟩ := applyAction_some_elim _ _ _ _ _ _ _ _ _ heq
    simp only [applyActionCore] at hcore
    have hv := applyPassCylonCase_victory reg s pi _ pr hcore
    rw [hs']
    exact hv
  · intro reg shuf ctr s log s' log' h
    exact resolveChallenge_victory reg shuf ctr s log s' log' h
  · intro reg s log s' log' h
    exact (endCylonPhase_victory reg s log s' log' h).2

/-- Witness for C3 at a concrete input: player 0 at influence 21 playing a
unit ends the game at once with winner 0. -/
theorem C3_witness :
    (checkVictory (mkState { blankPlayer "b0" with influence := 21 }
        (blankPlayer "b1") GamePhase.execution) []).1.phase = GamePhase.gameOver ∧
    (checkVictory (mkState { blankPlayer "b0" with influence := 21 }
        (blankPlayer "b1") GamePhase.execution) []).1.winner = some 0 :=
  C3_theorem.1 (mkState { blankPlayer "b0" with influence := 21 }
    (blankPlayer "b1") GamePhase.execution) [] (by decide)

-- ============================================================
-- C7 — overlay onto an existing stack
-- ============================================================

/-- The zone list a `ZoneTag` selects. -/
def zoneList (q : PlayerState) : ZoneTag → List UnitStack
  | ZoneTag.alert => q.zones.alert
  | ZoneTag.reserve => q.zones.reserve

def ZoneTag.other : ZoneTag → ZoneTag
  | ZoneTag.alert => ZoneTag.reserve
  | ZoneTag.reserve => ZoneTag.alert

theorem payResourceCost_zones (reg : RegMap) (bases : BasesMap) (p : PlayerState)
    (cost : Option (List (ResourceType × Nat))) :
    (payResourceCost reg bases p cost).zones.alert = p.zones.alert ∧
    (payResourceCost reg bases p cost).zones.reserve = p.zones.reserve ∧
    (payResourceCost reg bases p cost).hand = p.hand := by
  unfold payResourceCost
  cases cost <;> simp

theorem findOverlayTarget_congr (reg : RegMap) (q p : PlayerState) (d : CardDef)
    (ha : q.zones.alert = p.zones.alert) (hr : q.zones.reserve = p.zones.reserve) :
    findOverlayTarget reg q d = findOverlayTarget reg p d := by
  unfold findOverlayTarget
  rw [ha, hr]

theorem finishExecAction_players_zones (s : GameState) (log : List String) :
    (finishExecAction s log).1.players.p0.zones = s.players.p0.zones ∧
    (finishExecAction s log).1.players.p1.zones = s.players.p1.zones := by
  simp only [finishExecAction, checkVictory, resetConsecutivePasses,
    advanceExecutionTurn]
  split_ifs <;> exact ⟨rfl, rfl⟩

theorem getP_zones_congr {t s : GameState} (p : Nat)
    (h0 : t.players.p0.zones = s.players.p0.zones)
    (h1 : t.players.p1.zones = s.players.p1.zones) :
    (t.getP p).zones = (s.getP p).zones := by
  unfold GameState.getP Players.get
  by_cases hp : p = 0 <;> simp [hp, h0, h1]

/-- C7: in the execution phase, `playCard` of a singular unit whose title
matches the top card of one of the acting player's existing unit stacks
pushes the new card on top of that stack (clearing its exhausted flag):
that zone's stack at the found index becomes `card :: st.cards` with
`exhausted := false`, the zone keeps its length (no new stack), and the
other zone is untouched (the stack's zone is unchanged). -/
theorem C7_theorem (reg : RegMap) (bases : BasesMap) (shuf : Shuffler) (ctr : Nat)
    (s : GameState) (p i idx : Nat) (card : CardInstance) (d : CardDef)
    (st : UnitStack) (zone : ZoneTag) (s' : GameState) (lg : List String)
    (_hp : p < 2)
    (_hphase : s.phase = GamePhase.execution)
    (hget : (s.getP p).hand.get? i = some card)
    (hdef : getCardDef reg card.defId = some d)
    (hunit : isUnit d = true) (hsing : isSingular d = true)
    (hov : findOverlayTarget reg (s.getP p) d = some (some (zone, idx)))
    (hst : (zoneList (s.getP p) zone).get? idx = some st)
    (happly : applyAction reg bases shuf ctr s p (GameAction.playCard i) = some (s', lg)) :
    (zoneList (s'.getP p) zone).get? idx =
        some { cards := card :: st.cards, exhausted := false } ∧
    (zoneList (s'.getP p) zone).length = (zoneList (s.getP p) zone).length ∧
    zoneList (s'.getP p) zone.other = zoneList (s.getP p) zone.other := by
  obtain ⟨pr, hcore, hs', -⟩ := applyAction_some_elim _ _ _ _ _ _ _ _ _ happly
  simp only [applyActionCore, applyPlayCard, hget, hdef] at hcore
  have hzp := payResourceCost_zones reg bases (s.getP p) d.cost
  have hov' : findOverlayTarget reg
      { payResourceCost reg bases (s.getP p) d.cost with
        hand := (payResourceCost reg bases (s.getP p) d.cost).hand.eraseIdx i } d =
      some (some (zone, idx)) := by
    rw [findOverlayTarget_congr reg
      { payResourceCost reg bases (s.getP p) d.cost with
        hand := (payResourceCost reg bases (s.getP p) d.cost).hand.eraseIdx i }
      (s.getP p) d hzp.1 hzp.2.1]
    exact hov
  split at hcore
  · cases hcore
  · rename_i r hplace
    simp only [Option.some.injEq] at hcore
    simp only [playCardPlace, hunit, hsing, Bool.true_or, Bool.and_self,
      eq_self_iff_true, if_true, hov'] at hplace
    have hzones : (s'.getP p).zones = (r.1.getP p).zones := by
      have h1 : s'.players = pr.1.players := by rw [hs']
      have h2 := finishExecAction_players_zones r.1 r.2
      rw [← hcore] at h1
      apply getP_zones_congr
      · rw [h1]; exact h2.1
      · rw [h1]; exact h2.2
    cases zone with
    | alert =>
      simp only [Option.some.injEq] at hplace
      rw [← hplace] at hzones
      rw [GameState.getP_setP_self] at hzones
      simp only [zoneList, hzones]
      refine ⟨?_, ?_, ?_⟩
      · rw [listUpdate_get_self]
        have hst' : (payResourceCost reg bases (s.getP p) d.cost).zones.alert.get? idx =
            some st := by rw [hzp.1]; exact hst
        rw [hst']
        rfl
      · rw [listUpdate_length, hzp.1]
      · simp only [ZoneTag.other, zoneList]
        exact hzp.2.1
    | reserve =>
      simp only [Option.some.injEq] at hplace
      rw [← hplace] at hzones
      rw [GameState.getP_setP_self] at hzones
      simp only [zoneList, hzones]
      refine ⟨?_, ?_, ?_⟩
      · rw [listUpdate_get_self]
        have hst' : (payResourceCost reg bases (s.getP p) d.cost).zones.reserve.get? idx =
            some st := by rw [hzp.2.1]; exact hst
        rw [hst']
        rfl
      · rw [listUpdate_length, hzp.2.1]
      · simp only [ZoneTag.other, zoneList]
        exact hzp.1

/-- Concrete overlay scenario: a singular personnel in hand whose title
matches the (exhausted) alert stack's top card. -/
def c7def : CardDef :=
  { id := "adama", title := some "William Adama", subtitle := some "Commander",
    type := "personnel", power := some 3 }

def c7reg : RegMap := [("adama", c7def)]

def c7card : CardInstance := inst "h1" "adama"

def c7stack : UnitStack := { cards := [inst "a1" "adama"], exhausted := true }

def c7state : GameState :=
  mkState
    { blankPlayer "b0" with
      hand := [c7card]
      zones := { alert := [c7stack], reserve := [], resourceStacks := [] } }
    (blankPlayer "b1") GamePhase.execution

/-- Witness for C7 at the concrete overlay scenario. -/
theorem C7_witness :
    ∃ s' lg, applyAction c7reg [] id 0 c7state 0 (GameAction.playCard 0) = some (s', lg) ∧
      ((zoneList (s'.getP 0) ZoneTag.alert).get? 0 =
          some { cards := c7card :: c7stack.cards, exhausted := false } ∧
        (zoneList (s'.getP 0) ZoneTag.alert).length =
          (zoneList (c7state.getP 0) ZoneTag.alert).length ∧
        zoneList (s'.getP 0) ZoneTag.alert.other =
          zoneList (c7state.getP 0) ZoneTag.alert.other) := by
  refine ⟨_, _, rfl, ?_⟩
  exact C7_theorem c7reg [] id 0 c7state 0 0 0 c7card c7def c7stack ZoneTag.alert _ _
    (by decide) (by decide) (by decide) (by decide) (by decide) (by decide)
    (by decide) (by decide) rfl

-- ============================================================
-- C8 — buildAIDeck / validateDeck round trip
-- ============================================================

/-- A registry with one base and a single card (one card name). -/
def c8reg : CardRegistry :=
  { cards := [("u1", { id := "u1", title := some "U", type := "personnel" })]
    bases := [("b1", { id := "b1", title := "B", power := 4, startingInfluence := 10,
                       handSize := 5, resource := "persuasion" })] }

/-- Counterexample to C8 as stated: with a registry holding one base and a
single card name, every outcome of `buildAIDeck` is a 4-card deck (the
4-copies-per-name cap also limits the final random fill), and
`validateDeck` rejects it for being under 60 cards. -/
theorem C8_counterexample :
    (buildAIDeck c8reg 0 id id id).map
        (fun dsub => (dsub.deckCardIds, (validateDeck dsub c8reg).valid)) =
      some (["u1", "u1", "u1", "u1"], false) := by
  decide

/-- Names produced by resolving a list of card ids against the registry
(the name computation of `validateDeck`). -/
def namesOf (cards : RegMap) (ids : List String) : List String :=
  ids.filterMap fun cid => (alookup cards cid).map deckCardName

theorem alookup_isSome_of_key_mem {α : Type} (m : List (String × α)) (k : String)
    (hk : k ∈ m.map Prod.fst) : (alookup m k).isSome := by
  induction m with
  | nil => simp at hk
  | cons e rest ih =>
    simp only [List.map_cons, List.mem_cons] at hk
    unfold alookup
    rcases hk with hk | hk
    · simp [hk]
    · by_cases he : e.1 = k
      · simp [he]
      · simpa [he] using ih hk

/-- With id-consistent, duplicate-free keys, looking a value's id back up
returns that value. -/
theorem alookup_mem_self (cards : RegMap)
    (hkc : ∀ e ∈ cards, (e.2).id = e.1)
    (hnd : (cards.map Prod.fst).Nodup) (c : CardDef)
    (hc : c ∈ cards.map Prod.snd) : alookup cards c.id = some c := by
  induction cards with
  | nil => simp at hc
  | cons e rest ih =>
    simp only [List.map_cons, List.mem_cons] at hc
    simp only [List.map_cons, List.nodup_cons] at hnd
    unfold alookup
    rcases hc with hc | hc
    · subst hc
      have hid : e.2.id = e.1 := hkc e (List.mem_cons_self e rest)
      rw [hid]
      simp
    · have hkey : c.id ∈ List.map Prod.fst rest := by
        obtain ⟨e', he', hv⟩ := List.mem_map.mp hc
        have h2 : e'.2.id = e'.1 := hkc e' (List.mem_cons_of_mem e he')
        rw [← hv, h2]
        exact List.mem_map.mpr ⟨e', he', rfl⟩
      have hne : e.1 ≠ c.id := fun heq => hnd.1 (heq ▸ hkey)
      simp only [if_neg hne]
      exact ih (fun e' he' => hkc e' (List.mem_cons_of_mem e he')) hnd.2 hc

theorem namesOf_append (cards : RegMap) (a b : List String) :
    namesOf cards (a ++ b) = namesOf cards a ++ namesOf cards b := by
  simp [namesOf]

theorem namesOf_replicate_id (cards : RegMap) (c : CardDef) (k : Nat)
    (hl : alookup cards c.id = some c) :
    namesOf cards (List.replicate k c.id) = List.replicate k (deckCardName c) := by
  induction k with
  | zero => rfl
  | succ n ih =>
    simp only [List.replicate_succ, namesOf, List.filterMap_cons, hl, Option.map_some']
    simpa [namesOf] using ih

theorem firstOccsAux_subset (l seen : List String) :
    ∀ a ∈ firstOccsAux l seen, a ∈ l := by
  induction l generalizing seen with
  | nil => simp [firstOccsAux]
  | cons x rest ih =>
    intro a ha
    unfold firstOccsAux at ha
    by_cases hx : x ∈ seen
    · simp only [if_pos hx] at ha
      exact List.mem_cons_of_mem x (ih seen a ha)
    · simp only [if_neg hx, List.mem_cons] at ha
      rcases ha with ha | ha
      · exact ha ▸ List.mem_cons_self x rest
      · exact List.mem_cons_of_mem x (ih (x :: seen) a ha)

theorem firstOccsAux_not_mem_seen (l seen : List String) :
    ∀ a ∈ firstOccsAux l seen, a ∉ seen := by
  induction l generalizing seen with
  | nil => simp [firstOccsAux]
  | cons x rest ih =>
    intro a ha
    unfold firstOccsAux at ha
    by_cases hx : x ∈ seen
    · simp only [if_pos hx] at ha
      exact ih seen a ha
    · simp only [if_neg hx, List.mem_cons] at ha
      rcases ha with ha | ha
      · exact ha ▸ hx
      · intro hseen
        exact ih (x :: seen) a ha (List.mem_cons_of_mem x hseen)

theorem firstOccsAux_nodup (l seen : List String) : (firstOccsAux l seen).Nodup := by
  induction l generalizing seen with
  | nil => simp [firstOccsAux]
  | cons x rest ih =>
    unfold firstOccsAux
    by_cases hx : x ∈ seen
    · simp only [if_pos hx]
      exact ih seen
    · simp only [if_neg hx, List.nodup_cons]
      refine ⟨?_, ih (x :: seen)⟩
      intro hmem
      exact firstOccsAux_not_mem_seen rest (x :: seen) x hmem
        (List.mem_cons_self x seen)

theorem length_filterMap_of_all_some {α β : Type} (f : α → Option β) (l : List α)
    (h : ∀ a ∈ l, (f a).isSome) : (l.filterMap f).length = l.length := by
  induction l with
  | nil => rfl
  | cons x rest ih =>
    obtain ⟨b, hb⟩ := Option.isSome_iff_exists.mp (h x (List.mem_cons_self x rest))
    simp [List.filterMap_cons, hb, ih (fun a ha => h a (List.mem_cons_of_mem x ha))]

/-- A list holding four copies of each of `ns` pairwise-distinct names has
length at least `4 * ns.length`. -/
theorem four_mul_le_length (L : List String) (ns : List String) (hnd : ns.Nodup)
    (hcount : ∀ n ∈ ns, L.count n = 4) : 4 * ns.length ≤ L.length := by
  classical
  have hsub : ns.toFinset ⊆ L.toFinset := by
    intro a ha
    rw [List.mem_toFinset] at ha ⊢
    have h4 := hcount a ha
    have hpos : 0 < L.count a := by omega
    exact List.count_pos_iff.mp hpos
  have h1 : ns.toFinset.sum (fun a => L.count a) = 4 * ns.length := by
    rw [Finset.sum_congr rfl (fun a ha => hcount a (List.mem_toFinset.mp ha))]
    rw [Finset.sum_const, List.toFinset_card_of_nodup hnd, smul_eq_mul]
    omega
  have h2 : L.toFinset.sum (fun a => L.count a) = L.length := by
    simp
  calc 4 * ns.length = ns.toFinset.sum (fun a => L.count a) := h1.symm
    _ ≤ L.toFinset.sum (fun a => L.count a) :=
        Finset.sum_le_sum_of_subset hsub
    _ = L.length := h2

/-- Full specification of the `addCards` loop: the count map tracks the
name multiset of the produced deck; no name exceeds 4 copies; the deck
grows by exactly the reported number of additions (which never exceed the
request); the counts only grow; when the request was not met every
remaining card's name sits at the 4-copy cap; and every added id resolves
in the registry. -/
theorem addCardsGo_spec (cards : RegMap)
    (hkc : ∀ e ∈ cards, (e.2).id = e.1)
    (hnd : (cards.map Prod.fst).Nodup) :
    ∀ (scored : List CardDef) (deck : List String) (nc : String → Nat)
      (count added : Nat),
      (∀ c ∈ scored, c ∈ cards.map Prod.snd) →
      (∀ n, nc n = (namesOf cards deck).count n) →
      (∀ n, nc n ≤ 4) →
      added ≤ count →
      (∀ n, (addCardsGo scored deck nc count added).2.1 n =
          (namesOf cards (addCardsGo scored deck nc count added).1).count n) ∧
      (∀ n, (addCardsGo scored deck nc count added).2.1 n ≤ 4) ∧
      (addCardsGo scored deck nc count added).1.length + added =
        deck.length + (addCardsGo scored deck nc count added).2.2 ∧
      added ≤ (addCardsGo scored deck nc count added).2.2 ∧
      (addCardsGo scored deck nc count added).2.2 ≤ count ∧
      (∀ n, nc n ≤ (addCardsGo scored deck nc count added).2.1 n) ∧
      ((addCardsGo scored deck nc count added).2.2 < count →
        ∀ c ∈ scored, (addCardsGo scored deck nc count added).2.1 (deckCardName c) = 4) ∧
      (∀ cid ∈ (addCardsGo scored deck nc count added).1,
        cid ∈ deck ∨ (alookup cards cid).isSome) := by
  intro scored
  induction scored with
  | nil =>
    intro deck nc count added _ hcount hcap hle
    exact ⟨hcount, hcap, rfl, le_refl _, hle, fun n => le_refl _,
      fun _ c hc => absurd hc (List.not_mem_nil c), fun cid hcid => Or.inl hcid⟩
  | cons c rest ih =>
    intro deck nc count added hmem hcount hcap hle
    by_cases hguard : count ≤ added
    · have hres : addCardsGo (c :: rest) deck nc count added = (deck, nc, added) := by
        simp [addCardsGo, hguard]
      rw [hres]
      exact ⟨hcount, hcap, rfl, le_refl _, hle, fun n => le_refl _,
        fun hlt => absurd hguard (Nat.not_le.mpr hlt), fun cid hcid => Or.inl hcid⟩
    · simp only [addCardsGo, if_neg hguard]
      have hcmem : c ∈ cards.map Prod.snd := hmem c (List.mem_cons_self c rest)
      have hlook : alookup cards c.id = some c := alookup_mem_self cards hkc hnd c hcmem
      set name := deckCardName c with hname
      set current := nc name with hcurrent
      set toAdd := min (4 - current) (count - added) with htoAdd
      have hcapn : current ≤ 4 := hcap name
      have htoAdd_le : toAdd ≤ 4 - current := Nat.min_le_left _ _
      have htoAdd_le2 : toAdd ≤ count - added := Nat.min_le_right _ _
      have hnew_names : namesOf cards (deck ++ List.replicate toAdd c.id) =
          namesOf cards deck ++ List.replicate toAdd name := by
        rw [namesOf_append, namesOf_replicate_id cards c toAdd hlook]
      have hcount' : ∀ n, (if n = name then current + toAdd else nc n) =
          (namesOf cards (deck ++ List.replicate toAdd c.id)).count n := by
        intro n
        rw [hnew_names]
        by_cases hn : n = name
        · rw [if_pos hn, hn, List.count_append, List.count_replicate_self,
            hcurrent, hcount name]
        · rw [if_neg hn, List.count_append, hcount n]
          have hz : List.count n (List.replicate toAdd name) = 0 :=
            List.count_eq_zero.mpr (fun hmem => hn (List.eq_of_mem_replicate hmem))
          rw [hz, Nat.add_zero]
      have hcap' : ∀ n, (if n = name then current + toAdd else nc n) ≤ 4 := by
        intro n
        by_cases hn : n = name
        · rw [if_pos hn]
          omega
        · rw [if_neg hn]
          exact hcap n
      have hle' : added + toAdd ≤ count := by omega
      obtain ⟨i1, i2, i3, i4, i5, i6, i7, i8⟩ :=
        ih (deck ++ List.replicate toAdd c.id)
          (fun n => if n = name then current + toAdd else nc n) count (added + toAdd)
          (fun c' hc' => hmem c' (List.mem_cons_of_mem c hc')) hcount' hcap' hle'
      refine ⟨i1, i2, ?_, by omega, i5, ?_, ?_, ?_⟩
      · simp only [List.length_append, List.length_replicate] at i3
        omega
      · intro n
        have h6 := i6 n
        by_cases hn : n = name
        · simp only [if_pos hn] at h6
          rw [hn] at h6 ⊢
          omega
        · simp only [if_neg hn] at h6
          exact h6
      · intro hlt c' hc'
        rcases List.mem_cons.mp hc' with hc' | hc'
        · rw [hc', ← hname]
          have hlt2 : added + toAdd < count := lt_of_le_of_lt i4 hlt
          have h4 : current + toAdd = 4 := by omega
          have hge : current + toAdd ≤
              (addCardsGo rest (deck ++ List.replicate toAdd c.id)
                (fun n => if n = name then current + toAdd else nc n) count
                (added + toAdd)).2.1 name := by
            simpa using i6 name
          have hle4 := i2 name
          omega
        · exact i7 hlt c' hc'
      · intro cid hcid
        rcases i8 cid hcid with h | h
        · rcases List.mem_append.mp h with h | h
          · exact Or.inl h
          · right
            rw [List.eq_of_mem_replicate h, hlook]
            rfl
        · exact Or.inr h

/-- C8 (amended): when the registry's base index is in range, every random
outcome is a permutation of its input, card entries are keyed by their own
ids without duplicates, and the registry offers at least 15 distinct card
names, `buildAIDeck` succeeds and its deck passes `validateDeck`. -/
theorem C8_theorem (registry : CardRegistry) (baseIdx : Nat)
    (unitOrder nonUnitOrder allOrder : List CardDef → List CardDef)
    (hbase : baseIdx < registry.bases.length)
    (hu : ∀ l, (unitOrder l).Perm l)
    (hv : ∀ l, (nonUnitOrder l).Perm l)
    (hw : ∀ l, (allOrder l).Perm l)
    (hkc : ∀ e ∈ registry.cards, (e.2).id = e.1)
    (hnd : (registry.cards.map Prod.fst).Nodup)
    (hnames : 15 ≤ (((registry.cards.map Prod.snd).map deckCardName).dedup).length) :
    ∃ dsub, buildAIDeck registry baseIdx unitOrder nonUnitOrder allOrder = some dsub ∧
      (validateDeck dsub registry).valid = true := by
  classical
  -- resolve the chosen base
  have hlen : baseIdx < (registry.bases.map Prod.fst).length := by simpa using hbase
  have hgetsome : (registry.bases.map Prod.fst).get? baseIdx =
      some ((registry.bases.map Prod.fst).get ⟨baseIdx, hlen⟩) :=
    List.get?_eq_get hlen
  set baseId := (registry.bases.map Prod.fst).get ⟨baseIdx, hlen⟩ with hbid
  have hbmem : baseId ∈ registry.bases.map Prod.fst := List.get_mem _ _ _
  obtain ⟨bdef, hbline⟩ :=
    Option.isSome_iff_exists.mp (alookup_isSome_of_key_mem _ _ hbmem)
  set allCards := registry.cards.map Prod.snd with hallCards
  set units := allCards.filter (fun c => c.type = "personnel" || c.type = "ship")
    with hunitsdef
  set nonUnits := allCards.filter (fun c => c.type = "event" || c.type = "mission")
    with hnonUnitsdef
  -- phase 1: units up to 34
  obtain ⟨j1, j2, j3, j4, j5, j6, j7, j8⟩ :=
    addCardsGo_spec registry.cards hkc hnd (unitOrder units) [] (fun _ => 0) 34 0
      (fun c hc => List.mem_of_mem_filter ((hu units).mem_iff.mp hc))
      (by intro n; simp [namesOf]) (fun n => Nat.zero_le 4) (by omega)
  set r1 := addCardsGo (unitOrder units) [] (fun _ => 0) 34 0 with hr1def
  have hlen1 : r1.1.length = r1.2.2 := by simpa using j3
  -- phase 2: non-units up to 60 total
  obtain ⟨k1, k2, k3, k4, k5, k6, k7, k8⟩ :=
    addCardsGo_spec registry.cards hkc hnd (nonUnitOrder nonUnits) r1.1 r1.2.1
      (60 - r1.1.length) 0
      (fun c hc => List.mem_of_mem_filter ((hv nonUnits).mem_iff.mp hc))
      j1 j2 (by omega)
  set r2 := addCardsGo (nonUnitOrder nonUnits) r1.1 r1.2.1 (60 - r1.1.length) 0
    with hr2def
  have hlen2 : r2.1.length = r1.1.length + r2.2.2 := by simpa using k3
  -- the produced deck
  set deck3 := (if r2.1.length < 60 then
      (addCardsGo (allOrder allCards) r2.1 r2.2.1 (60 - r2.1.length) 0).1
    else r2.1) with hdeck3
  have hbuild : buildAIDeck registry baseIdx unitOrder nonUnitOrder allOrder =
      some { baseId := baseId, deckCardIds := deck3 } := by
    simp only [buildAIDeck, hgetsome, hbline, ← hallCards, ← hunitsdef, ← hnonUnitsdef,
      ← hr1def, ← hr2def, ← hdeck3]
  -- establish the three validation facts for deck3
  have hkey : 60 ≤ deck3.length ∧
      (∀ cid ∈ deck3, (alookup registry.cards cid).isSome) ∧
      (∀ n, (namesOf registry.cards deck3).count n ≤ 4) := by
    by_cases hfill : r2.1.length < 60
    · obtain ⟨m1, m2, m3, m4, m5, m6, m7, m8⟩ :=
        addCardsGo_spec registry.cards hkc hnd (allOrder allCards) r2.1 r2.2.1
          (60 - r2.1.length) 0
          (fun c hc => (hw allCards).mem_iff.mp hc)
          k1 k2 (by omega)
      set r3 := addCardsGo (allOrder allCards) r2.1 r2.2.1 (60 - r2.1.length) 0
        with hr3def
      have hd3 : deck3 = r3.1 := by rw [hdeck3, if_pos hfill]
      have hlen3 : r3.1.length = r2.1.length + r3.2.2 := by simpa using m3
      have hids : ∀ cid ∈ r3.1, (alookup registry.cards cid).isSome := by
        intro cid hcid
        rcases m8 cid hcid with h | h
        · rcases k8 cid h with h2 | h2
          · rcases j8 cid h2 with h3 | h3
            · simp at h3
            · exact h3
          · exact h2
        · exact h
      have hcap3 : ∀ n, (namesOf registry.cards r3.1).count n ≤ 4 := fun n =>
        (m1 n) ▸ m2 n
      have h60 : 60 ≤ r3.1.length := by
        by_cases hsat : r3.2.2 < 60 - r2.1.length
        · -- the request was not met, so every name sits at the 4-copy cap
          have hcnt4 : ∀ c ∈ allCards,
              (namesOf registry.cards r3.1).count (deckCardName c) = 4 := by
            intro c hc
            have := m7 hsat c ((hw allCards).mem_iff.mpr hc)
            rw [m1 (deckCardName c)] at this
            exact this
          have hns : ∀ n ∈ (allCards.map deckCardName).dedup,
              (namesOf registry.cards r3.1).count n = 4 := by
            intro n hn
            obtain ⟨c, hc, hcn⟩ := List.mem_map.mp (List.mem_dedup.mp hn)
            exact hcn ▸ hcnt4 c hc
          have hmul := four_mul_le_length (namesOf registry.cards r3.1)
            ((allCards.map deckCardName).dedup) (List.nodup_dedup _) hns
          have hfm : (namesOf registry.cards r3.1).length ≤ r3.1.length :=
            List.length_filterMap_le _ _
          omega
        · omega
      exact hd3 ▸ ⟨h60, hids, hcap3⟩
    · have hd3 : deck3 = r2.1 := by rw [hdeck3, if_neg hfill]
      have hids : ∀ cid ∈ r2.1, (alookup registry.cards cid).isSome := by
        intro cid hcid
        rcases k8 cid hcid with h | h
        · rcases j8 cid h with h2 | h2
          · simp at h2
          · exact h2
        · exact h
      have hcap2 : ∀ n, (namesOf registry.cards r2.1).count n ≤ 4 := fun n =>
        (k1 n) ▸ k2 n
      exact hd3 ▸ ⟨by omega, hids, hcap2⟩
  -- run the validator
  obtain ⟨h60, hids, hcap4⟩ := hkey
  have hunknown : (deck3.filterMap fun cid =>
      if (alookup registry.cards cid).isNone then some ("Unknown card: " ++ cid)
      else none) = [] := by
    refine List.filterMap_eq_nil_iff.mpr (fun cid hcid => ?_)
    obtain ⟨v, hv⟩ := Option.isSome_iff_exists.mp (hids cid hcid)
    simp [hv]
  have hcopy : ((firstOccsAux (namesOf registry.cards deck3) []).filterMap fun n =>
      if 4 < (namesOf registry.cards deck3).count n then
        some ("Too many copies of \x22" ++ n ++ "\x22 (" ++
          toString ((namesOf registry.cards deck3).count n) ++ ", max 4)")
      else none) = [] := by
    refine List.filterMap_eq_nil_iff.mpr (fun n _ => ?_)
    have := hcap4 n
    rw [if_neg (by omega)]
  refine ⟨_, hbuild, ?_⟩
  simp only [validateDeck, hbline, Option.isNone_some, Bool.false_eq_true, if_false]
  rw [if_neg (by omega : ¬ deck3.length < 60)]
  have hres : List.filterMap (fun cid => Option.map deckCardName (alookup registry.cards cid))
      deck3 = namesOf registry.cards deck3 := rfl
  rw [hunknown, hres, hcopy]
  rfl

/-- A registry with 15 distinctly named personnel cards and one base, used
to instantiate the amended C8 theorem. -/
def c8wreg : CardRegistry :=
  { cards :=
      [("w01", { id := "w01", title := some "N01", type := "personnel" }),
       ("w02", { id := "w02", title := some "N02", type := "personnel" }),
       ("w03", { id := "w03", title := some "N03", type := "personnel" }),
       ("w04", { id := "w04", title := some "N04", type := "personnel" }),
       ("w05", { id := "w05", title := some "N05", type := "personnel" }),
       ("w06", { id := "w06", title := some "N06", type := "personnel" }),
       ("w07", { id := "w07", title := some "N07", type := "personnel" }),
       ("w08", { id := "w08", title := some "N08", type := "personnel" }),
       ("w09", { id := "w09", title := some "N09", type := "personnel" }),
       ("w10", { id := "w10", title := some "N10", type := "personnel" }),
       ("w11", { id := "w11", title := some "N11", type := "personnel" }),
       ("w12", { id := "w12", title := some "N12", type := "personnel" }),
       ("w13", { id := "w13", title := some "N13", type := "personnel" }),
       ("w14", { id := "w14", title := some "N14", type := "personnel" }),
       ("w15", { id := "w15", title := some "N15", type := "personnel" })]
    bases := [("b1", { id := "b1", title := "B", power := 4, startingInfluence := 10,
                       handSize := 5, resource := "persuasion" })] }

/-- Witness for C8: on `c8wreg` with the identity permutations the AI deck
builder produces a deck accepted by `validateDeck`. -/
theorem C8_witness :
    ∃ dsub, buildAIDeck c8wreg 0 id id id = some dsub ∧
      (validateDeck dsub c8wreg).valid = true :=
  C8_theorem c8wreg 0 id id id (by decide)
    (fun l => List.Perm.refl l) (fun l => List.Perm.refl l) (fun l => List.Perm.refl l)
    (by decide) (by decide) (by decide)

/-- Unit lookup only reads the zones. -/
theorem findUnitInAnyZone_zones_congr {p q : PlayerState} (h : p.zones = q.zones)
    (iid : String) : findUnitInAnyZone p iid = findUnitInAnyZone q iid := by
  unfold findUnitInAnyZone
  rw [h]

theorem getP_setP_zero_one (st : GameState) (q : PlayerState) :
    (st.setP 0 q).getP 1 = st.getP 1 := rfl

theorem getP_setP_one_zero (st : GameState) (q : PlayerState) :
    (st.setP 1 q).getP 0 = st.getP 0 := rfl

theorem getP_setP_zero_zero (st : GameState) (q : PlayerState) :
    (st.setP 0 q).getP 0 = q := rfl

theorem getP_setP_one_one (st : GameState) (q : PlayerState) :
    (st.setP 1 q).getP 1 = q := rfl

/-- C6: resolution of a defended non-Cylon challenge.  The hypotheses name
the stacks and reveal outcomes; the conclusion compares the totals
power + buff + mystic and moves the stacks: on a challenger win (ties
included) the challenger's unit leaves alert for reserve and the
defender's whole stack goes to the defender's discard; on a defender win
the roles swap. -/
theorem C6_theorem (reg : RegMap) (shuf : Shuffler) (ctr : Nat) (s : GameState)
    (log : List String) (challenge : ChallengeState) (did : String)
    (ai di : Nat) (ast dst : UnitStack) (ia idx : Nat)
    (pa pd av dv : Int) (ctr1 ctr2 : Nat) (ac dc : CardInstance)
    (ap' dp' : PlayerState) (alog dlog : List String)
    (acard dcard : CardInstance) (adef ddef : CardDef)
    (hch : s.challenge = some challenge)
    (hncy : challenge.isCylonChallenge = false)
    (hai : challenge.challengerPlayerIndex = ai)
    (hdi : challenge.defenderPlayerIndex = di)
    (hidx : (ai = 0 ∧ di = 1) ∨ (ai = 1 ∧ di = 0))
    (hdef : challenge.defenderInstanceId = some did)
    (hfA : findUnitInAnyZone (s.getP ai) challenge.challengerInstanceId =
      some (ast, ZoneTag.alert, ia))
    (hpA : getUnitPower reg ast = some pa)
    (hrA : revealMysticValue reg shuf ctr (s.getP ai)
      ("Player " ++ toString (ai + 1)) = some (ctr1, av, ac, ap', alog))
    (hrD : revealMysticValue reg shuf ctr1 (s.getP di)
      ("Player " ++ toString (di + 1)) = some (ctr2, dv, dc, dp', dlog))
    (hfD : findUnitInAnyZone (s.getP di) did = some (dst, ZoneTag.alert, idx))
    (hpD : getUnitPower reg dst = some pd)
    (hah : ast.cards.head? = some acard)
    (had : getCardDef reg acard.defId = some adef)
    (hdh : dst.cards.head? = some dcard)
    (hdd : getCardDef reg dcard.defId = some ddef)
    (hv1 : ¬ 20 ≤ s.players.p0.influence) (hv2 : ¬ 20 ≤ s.players.p1.influence)
    (hv3 : ¬ s.players.p0.influence ≤ 0) (hv4 : ¬ s.players.p1.influence ≤ 0)
    (hph : s.phase = GamePhase.execution) :
    (resolveChallenge reg shuf ctr s log).isSome ∧
    ∀ s' log', resolveChallenge reg shuf ctr s log = some (s', log') →
      s'.challenge = none ∧
      (if pd + challenge.defenderPowerBuff.getD 0 + dv ≤
          pa + challenge.challengerPowerBuff.getD 0 + av then
        (s'.getP ai).zones.alert = (s.getP ai).zones.alert.eraseIdx ia ∧
        (s'.getP ai).zones.reserve = (s.getP ai).zones.reserve ++ [ast] ∧
        (s'.getP di).zones.alert = (s.getP di).zones.alert.eraseIdx idx ∧
        (s'.getP di).discard = dp'.discard ++ dst.cards
      else
        (s'.getP di).zones.alert = (s.getP di).zones.alert.eraseIdx idx ∧
        (s'.getP di).zones.reserve = (s.getP di).zones.reserve ++ [dst] ∧
        (s'.getP ai).zones.alert = (s.getP ai).zones.alert.eraseIdx ia ∧
        (s'.getP ai).discard = ap'.discard ++ ast.cards) := by
  obtain ⟨hzA, hiA⟩ := revealMysticValue_fields _ _ _ _ _ _ _ _ _ _ hrA
  obtain ⟨hzD, hiD⟩ := revealMysticValue_fields _ _ _ _ _ _ _ _ _ _ hrD
  have hfA2 : findUnitInAnyZone ap' challenge.challengerInstanceId =
      some (ast, ZoneTag.alert, ia) := by
    rw [findUnitInAnyZone_zones_congr hzA]
    exact hfA
  have hfD2 : findUnitInAnyZone dp' did = some (dst, ZoneTag.alert, idx) := by
    rw [findUnitInAnyZone_zones_congr hzD]
    exact hfD
  have hne : GamePhase.execution ≠ GamePhase.gameOver := by decide
  rcases hidx with ⟨ha, hd⟩ | ⟨ha, hd⟩
  · subst ha
    subst hd
    have hiA0 : ap'.influence = s.players.p0.influence := hiA
    have hiD1 : dp'.influence = s.players.p1.influence := hiD
    have hfA' : findUnitInAnyZone s.players.p0 challenge.challengerInstanceId =
        some (ast, ZoneTag.alert, ia) := hfA
    have hrA' : revealMysticValue reg shuf ctr s.players.p0
        ("Player " ++ toString 1) = some (ctr1, av, ac, ap', alog) := hrA
    have hrD' : revealMysticValue reg shuf ctr1 s.players.p1
        ("Player " ++ toString 2) = some (ctr2, dv, dc, dp', dlog) := hrD
    have hfD' : findUnitInAnyZone s.players.p1 did =
        some (dst, ZoneTag.alert, idx) := hfD
    by_cases hcmp : pd + challenge.defenderPowerBuff.getD 0 + dv ≤
        pa + challenge.challengerPowerBuff.getD 0 + av
    all_goals constructor
    · simp [resolveChallenge, challengeTail, hch, hncy, hai, hdi, hdef, hfA', hpA, hrA',
        getP_setP_zero_one, hrD', getP_setP_one_one, getP_setP_one_zero,
        getP_setP_zero_zero, hfD2, hfD', hpD, commitUnit, hfA2, defeatUnit, hdh, hdd,
        hah, had, checkVictory, advanceExecutionTurn, GameState.setP,
        GameState.getP, Players.set, Players.get, Nat.one_ne_zero,
        eq_self_iff_true, Bool.false_eq_true,
        if_false, if_true, if_pos hcmp, Option.isSome_some, hiA0, hiD1,
        hv1, hv2, hv3, hv4, hph, hne]
    · intro s' log' hpr
      simp [resolveChallenge, challengeTail, hch, hncy, hai, hdi, hdef, hfA', hpA, hrA',
        getP_setP_zero_one, hrD', getP_setP_one_one, getP_setP_one_zero,
        getP_setP_zero_zero, hfD2, hfD', hpD, commitUnit, hfA2, defeatUnit, hdh, hdd,
        hah, had, checkVictory, advanceExecutionTurn, GameState.setP,
        GameState.getP, Players.set, Players.get, Nat.one_ne_zero,
        eq_self_iff_true, Bool.false_eq_true,
        if_false, if_true, if_pos hcmp, Option.some.injEq, Prod.mk.injEq,
        hiA0, hiD1, hv1, hv2, hv3, hv4, hph, hne] at hpr
      obtain ⟨hs', -⟩ := hpr
      subst hs'
      rw [if_pos hcmp]
      refine ⟨rfl, ?_, ?_, ?_, ?_⟩ <;>
        simp [GameState.getP, GameState.setP, Players.get, Players.set,
          hzA, hzD]
    · simp [resolveChallenge, challengeTail, hch, hncy, hai, hdi, hdef, hfA', hpA, hrA',
        getP_setP_zero_one, hrD', getP_setP_one_one, getP_setP_one_zero,
        getP_setP_zero_zero, hfD2, hfD', hpD, commitUnit, hfA2, defeatUnit, hdh, hdd,
        hah, had, checkVictory, advanceExecutionTurn, GameState.setP,
        GameState.getP, Players.set, Players.get, Nat.one_ne_zero,
        eq_self_iff_true, Bool.false_eq_true,
        if_false, if_true, if_neg hcmp, Option.isSome_some, hiA0, hiD1,
        hv1, hv2, hv3, hv4, hph, hne]
    · intro s' log' hpr
      simp [resolveChallenge, challengeTail, hch, hncy, hai, hdi, hdef, hfA', hpA, hrA',
        getP_setP_zero_one, hrD', getP_setP_one_one, getP_setP_one_zero,
        getP_setP_zero_zero, hfD2, hfD', hpD, commitUnit, hfA2, defeatUnit, hdh, hdd,
        hah, had, checkVictory, advanceExecutionTurn, GameState.setP,
        GameState.getP, Players.set, Players.get, Nat.one_ne_zero,
        eq_self_iff_true, Bool.false_eq_true,
        if_false, if_true, if_neg hcmp, Option.some.injEq, Prod.mk.injEq,
        hiA0, hiD1, hv1, hv2, hv3, hv4, hph, hne] at hpr
      obtain ⟨hs', -⟩ := hpr
      subst hs'
      rw [if_neg hcmp]
      refine ⟨rfl, ?_, ?_, ?_, ?_⟩ <;>
        simp [GameState.getP, GameState.setP, Players.get, Players.set,
          hzA, hzD]
  · subst ha
    subst hd
    have hiA1 : ap'.influence = s.players.p1.influence := hiA
    have hiD0 : dp'.influence = s.players.p0.influence := hiD
    have hfA' : findUnitInAnyZone s.players.p1 challenge.challengerInstanceId =
        some (ast, ZoneTag.alert, ia) := hfA
    have hrA' : revealMysticValue reg shuf ctr s.players.p1
        ("Player " ++ toString 2) = some (ctr1, av, ac, ap', alog) := hrA
    have hrD' : revealMysticValue reg shuf ctr1 s.players.p0
        ("Player " ++ toString 1) = some (ctr2, dv, dc, dp', dlog) := hrD
    have hfD' : findUnitInAnyZone s.players.p0 did =
        some (dst, ZoneTag.alert, idx) := hfD
    by_cases hcmp : pd + challenge.defenderPowerBuff.getD 0 + dv ≤
        pa + challenge.challengerPowerBuff.getD 0 + av
    all_goals constructor
    · simp [resolveChallenge, challengeTail, hch, hncy, hai, hdi, hdef, hfA', hpA, hrA',
        getP_setP_one_zero, hrD', getP_setP_zero_zero, getP_setP_zero_one,
        getP_setP_one_one, hfD2, hfD', hpD, commitUnit, hfA2, defeatUnit, hdh, hdd,
        hah, had, checkVictory, advanceExecutionTurn, GameState.setP,
        GameState.getP, Players.set, Players.get, Nat.one_ne_zero,
        eq_self_iff_true, Bool.false_eq_true,
        if_false, if_true, if_pos hcmp, Option.isSome_some, hiA1, hiD0,
        hv1, hv2, hv3, hv4, hph, hne]
    · intro s' log' hpr
      simp [resolveChallenge, challengeTail, hch, hncy, hai, hdi, hdef, hfA', hpA, hrA',
        getP_setP_one_zero, hrD', getP_setP_zero_zero, getP_setP_zero_one,
        getP_setP_one_one, hfD2, hfD', hpD, commitUnit, hfA2, defeatUnit, hdh, hdd,
        hah, had, checkVictory, advanceExecutionTurn, GameState.setP,
        GameState.getP, Players.set, Players.get, Nat.one_ne_zero,
        eq_self_iff_true, Bool.false_eq_true,
        if_false, if_true, if_pos hcmp, Option.some.injEq, Prod.mk.injEq,
        hiA1, hiD0, hv1, hv2, hv3, hv4, hph, hne] at hpr
      obtain ⟨hs', -⟩ := hpr
      subst hs'
      rw [if_pos hcmp]
      refine ⟨rfl, ?_, ?_, ?_, ?_⟩ <;>
        simp [GameState.getP, GameState.setP, Players.get, Players.set,
          hzA, hzD]
    · simp [resolveChallenge, challengeTail, hch, hncy, hai, hdi, hdef, hfA', hpA, hrA',
        getP_setP_one_zero, hrD', getP_setP_zero_zero, getP_setP_zero_one,
        getP_setP_one_one, hfD2, hfD', hpD, commitUnit, hfA2, defeatUnit, hdh, hdd,
        hah, had, checkVictory, advanceExecutionTurn, GameState.setP,
        GameState.getP, Players.set, Players.get, Nat.one_ne_zero,
        eq_self_iff_true, Bool.false_eq_true,
        if_false, if_true, if_neg hcmp, Option.isSome_some, hiA1, hiD0,
        hv1, hv2, hv3, hv4, hph, hne]
    · intro s' log' hpr
      simp [resolveChallenge, challengeTail, hch, hncy, hai, hdi, hdef, hfA', hpA, hrA',
        getP_setP_one_zero, hrD', getP_setP_zero_zero, getP_setP_zero_one,
        getP_setP_one_one, hfD2, hfD', hpD, commitUnit, hfA2, defeatUnit, hdh, hdd,
        hah, had, checkVictory, advanceExecutionTurn, GameState.setP,
        GameState.getP, Players.set, Players.get, Nat.one_ne_zero,
        eq_self_iff_true, Bool.false_eq_true,
        if_false, if_true, if_neg hcmp, Option.some.injEq, Prod.mk.injEq,
        hiA1, hiD0, hv1, hv2, hv3, hv4, hph, hne] at hpr
      obtain ⟨hs', -⟩ := hpr
      subst hs'
      rw [if_neg hcmp]
      refine ⟨rfl, ?_, ?_, ?_, ?_⟩ <;>
        simp [GameState.getP, GameState.setP, Players.get, Players.set,
          hzA, hzD]

def c6cudef : CardDef := { id := "cu", title := some "CU", type := "ship", power := some 5 }
def c6dudef : CardDef := { id := "du", title := some "DU", type := "ship", power := some 3 }

def c6reg : RegMap :=
  [("cu", c6cudef), ("du", c6dudef),
   ("m",  { id := "m",  title := some "M",  type := "personnel", mysticValue := some 2 })]

def c6p0 : PlayerState :=
  { blankPlayer "b0" with
    zones := { alert := [{ cards := [inst "a1" "cu"], exhausted := true }],
               reserve := [], resourceStacks := [] }
    deck := [inst "k1" "m"] }

def c6p1 : PlayerState :=
  { blankPlayer "b1" with
    zones := { alert := [{ cards := [inst "d1" "du"], exhausted := false }],
               reserve := [], resourceStacks := [] }
    deck := [inst "k2" "m"] }

def c6challenge : ChallengeState :=
  { challengerInstanceId := "a1"
    challengerPlayerIndex := 0
    defenderInstanceId := some "d1"
    defenderPlayerIndex := 1
    step := 2
    challengerMysticValue := none
    defenderMysticValue := none
    waitingForDefender := false
    consecutivePasses := 0
    isCylonChallenge := false }

def c6state : GameState :=
  { mkState c6p0 c6p1 GamePhase.execution with challenge := some c6challenge }

def c6ast : UnitStack := { cards := [inst "a1" "cu"], exhausted := true }
def c6dst : UnitStack := { cards := [inst "d1" "du"], exhausted := false }
def c6ap : PlayerState := { c6p0 with deck := [], discard := [inst "k1" "m"] }
def c6dp : PlayerState := { c6p1 with deck := [], discard := [inst "k2" "m"] }

/-- Witness for C6 on a concrete defended challenge (5+2 versus 3+2: the
challenger wins, commits, and the defender's stack is discarded). -/
theorem C6_witness :
    (resolveChallenge c6reg id 0 c6state []).isSome ∧
    ∀ s' log', resolveChallenge c6reg id 0 c6state [] = some (s', log') →
      s'.challenge = none ∧
      (if (3 : Int) + c6challenge.defenderPowerBuff.getD 0 + 2 ≤
          (5 : Int) + c6challenge.challengerPowerBuff.getD 0 + 2 then
        (s'.getP 0).zones.alert = (c6state.getP 0).zones.alert.eraseIdx 0 ∧
        (s'.getP 0).zones.reserve = (c6state.getP 0).zones.reserve ++ [c6ast] ∧
        (s'.getP 1).zones.alert = (c6state.getP 1).zones.alert.eraseIdx 0 ∧
        (s'.getP 1).discard = c6dp.discard ++ c6dst.cards
      else
        (s'.getP 1).zones.alert = (c6state.getP 1).zones.alert.eraseIdx 0 ∧
        (s'.getP 1).zones.reserve = (c6state.getP 1).zones.reserve ++ [c6dst] ∧
        (s'.getP 0).zones.alert = (c6state.getP 0).zones.alert.eraseIdx 0 ∧
        (s'.getP 0).discard = c6ap.discard ++ c6ast.cards) :=
  C6_theorem c6reg id 0 c6state [] c6challenge "d1" 0 1 c6ast c6dst 0 0 5 3 2 2 0 0
    (inst "k1" "m") (inst "k2" "m") c6ap c6dp
    ["Player 1 reveals M (mystic value 2)."] ["Player 2 reveals M (mystic value 2)."]
    (inst "a1" "cu") (inst "d1" "du") c6cudef c6dudef
    rfl rfl rfl rfl (Or.inl ⟨rfl, rfl⟩) rfl rfl rfl rfl rfl rfl rfl rfl rfl rfl rfl
    (by decide) (by decide) (by decide) (by decide) rfl

-- ============================================================
-- Card-count conservation lemmas (C2)
-- ============================================================

theorem sum_map_eraseIdx {α : Type} (f : α → Nat) :
    ∀ (l : List α) (i : Nat) (a : α), l.get? i = some a →
      ((l.eraseIdx i).map f).sum + f a = (l.map f).sum
  | [], i, a, h => by simp at h
  | x :: rest, 0, a, h => by
    simp only [List.get?] at h
    cases h
    simp [List.eraseIdx]
    omega
  | x :: rest, Nat.succ n, a, h => by
    simp only [List.get?] at h
    have ih := sum_map_eraseIdx f rest n a h
    simp [List.eraseIdx]
    omega

theorem length_eraseIdx_of_get {α : Type} (l : List α) (i : Nat) (a : α)
    (h : l.get? i = some a) : (l.eraseIdx i).length + 1 = l.length := by
  have := sum_map_eraseIdx (fun _ => 1) l i a h
  simpa using this

theorem listUpdate_sum_add {α : Type} (f : α → Nat) (g : α → α) (k : Nat)
    (hg : ∀ x, f (g x) = f x + k) :
    ∀ (l : List α) (i : Nat), i < l.length →
      ((listUpdate l i g).map f).sum = (l.map f).sum + k
  | [], i, h => by simp at h
  | x :: rest, 0, _ => by
    simp [listUpdate, hg x]
    omega
  | x :: rest, Nat.succ n, h => by
    have ih := listUpdate_sum_add f g k hg rest n (by simpa using h)
    simp [listUpdate, ih]
    omega

theorem sum_map_append {α : Type} (f : α → Nat) (l₁ l₂ : List α) :
    ((l₁ ++ l₂).map f).sum = (l₁.map f).sum + (l₂.map f).sum := by
  simp

theorem findUnitInZoneAux_spec :
    ∀ (l : List UnitStack) (iid : String) (k : Nat) (st : UnitStack) (i : Nat),
      findUnitInZoneAux l iid k = some (st, i) → k ≤ i ∧ l.get? (i - k) = some st
  | [], _, _, _, _, h => by simp [findUnitInZoneAux] at h
  | s0 :: rest, iid, k, st, i, h => by
    unfold findUnitInZoneAux at h
    by_cases hc : s0.cards.head?.map (·.instanceId) = some iid
    · rw [if_pos hc] at h
      obtain ⟨h1, h2⟩ := Option.some.injEq _ _ ▸ h
      cases h
      simp
    · rw [if_neg hc] at h
      obtain ⟨hk, hget⟩ := findUnitInZoneAux_spec rest iid (k + 1) st i h
      refine ⟨by omega, ?_⟩
      have hik : i - k = (i - (k + 1)) + 1 := by omega
      rw [hik]
      simpa using hget

theorem findUnitInZone_get (zone : List UnitStack) (iid : String)
    (st : UnitStack) (i : Nat) (h : findUnitInZone zone iid = some (st, i)) :
    zone.get? i = some st := by
  have := findUnitInZoneAux_spec zone iid 0 st i h
  simpa using this.2

theorem findUnitInAnyZone_spec (p : PlayerState) (iid : String)
    (st : UnitStack) (tag : ZoneTag) (i : Nat)
    (h : findUnitInAnyZone p iid = some (st, tag, i)) :
    (tag = ZoneTag.alert ∧ p.zones.alert.get? i = some st) ∨
    (tag = ZoneTag.reserve ∧ p.zones.reserve.get? i = some st) := by
  unfold findUnitInAnyZone at h
  rcases ha : findUnitInZone p.zones.alert iid with _ | ⟨st', i'⟩
  · rw [ha] at h
    rcases hr : findUnitInZone p.zones.reserve iid with _ | ⟨st'', i''⟩
    · rw [hr] at h
      cases h
    · rw [hr] at h
      cases h
      exact Or.inr ⟨rfl, findUnitInZone_get _ _ _ _ hr⟩
  · rw [ha] at h
    cases h
    exact Or.inl ⟨rfl, findUnitInZone_get _ _ _ _ ha⟩

theorem findOverlayInList_spec :
    ∀ (reg : RegMap) (l : List UnitStack) (t : String) (k i : Nat),
      findOverlayInList reg l t k = some (some i) → k ≤ i ∧ i - k < l.length
  | reg, [], t, k, i, h => by simp [findOverlayInList] at h
  | reg, s0 :: rest, t, k, i, h => by
    unfold findOverlayInList at h
    rcases hc : s0.cards.head? with _ | c
    · simp only [hc] at h
      cases h
    · simp only [hc] at h
      rcases hg : getCardDef reg c.defId with _ | d
      · simp only [hg] at h
        cases h
      · simp only [hg] at h
        by_cases ht : d.title = some t
        · rw [if_pos ht] at h
          cases h
          simp
        · rw [if_neg ht] at h
          obtain ⟨hk, hlt⟩ := findOverlayInList_spec reg rest t (k + 1) i h
          constructor
          · omega
          · simp only [List.length_cons]
            omega

theorem findOverlayTarget_bound (reg : RegMap) (p : PlayerState) (d : CardDef)
    (tag : ZoneTag) (idx : Nat)
    (h : findOverlayTarget reg p d = some (some (tag, idx))) :
    (tag = ZoneTag.alert → idx < p.zones.alert.length) ∧
    (tag = ZoneTag.reserve → idx < p.zones.reserve.length) := by
  unfold findOverlayTarget at h
  rcases hti : d.title with _ | t
  · simp only [hti] at h
    cases h
  · simp only [hti] at h
    rcases hfa : findOverlayInList reg p.zones.alert t 0 with _ | oi
    · simp only [hfa] at h
      cases h
    · simp only [hfa] at h
      rcases oi with _ | i
      · rcases hfr : findOverlayInList reg p.zones.reserve t 0 with _ | oj
        · simp only [hfr] at h
          cases h
        · simp only [hfr] at h
          rcases oj with _ | j
          · simp at h
          · cases h
            have hb := findOverlayInList_spec reg p.zones.reserve t 0 idx hfr
            refine ⟨(fun hcontra => nomatch hcontra), fun _ => by simpa using hb.2⟩
      · cases h
        have hb := findOverlayInList_spec reg p.zones.alert t 0 idx hfa
        refine ⟨fun _ => by simpa using hb.2, fun hcontra => nomatch hcontra⟩

theorem alookup_mem {α : Type} :
    ∀ (m : List (String × α)) (k : String) (v : α),
      alookup m k = some v → (k, v) ∈ m
  | [], k, v, h => by simp [alookup] at h
  | e :: rest, k, v, h => by
    unfold alookup at h
    by_cases he : e.1 = k
    · rw [if_pos he] at h
      cases h
      rw [← he]
      exact List.mem_cons_self _ _
    · rw [if_neg he] at h
      exact List.mem_cons_of_mem e (alookup_mem rest k v h)

theorem map_sum_comp {α : Type} (f : α → Nat) (g : α → α)
    (hg : ∀ x, f (g x) = f x) : ∀ (l : List α), ((l.map g).map f).sum = (l.map f).sum
  | [] => rfl
  | x :: rest => by
    have ih := map_sum_comp f g hg rest
    rw [List.map_map] at ih
    simp [hg x, ih]

theorem sum_map_filter_split {α : Type} (f : α → Nat) (pr : α → Bool) :
    ∀ (l : List α),
      ((l.filter pr).map f).sum + ((l.filter (not ∘ pr)).map f).sum =
        (l.map f).sum
  | [] => rfl
  | x :: rest => by
    have ih := sum_map_filter_split f pr rest
    by_cases hx : pr x = true <;>
      simp [List.filter_cons, hx, Function.comp] <;> omega

/-- Drawing preserves the per-player card count and the zones. -/
theorem drawCardsFn_count (shuf : Shuffler) (hlen : ∀ l, (shuf l).length = l.length) :
    ∀ (n : Nat) (p : PlayerState) (log : List String) (label : String),
      countPlayer (drawCardsFn shuf n p log label).1 = countPlayer p ∧
      (drawCardsFn shuf n p log label).1.zones = p.zones
  | 0, p, log, label => ⟨rfl, rfl⟩
  | Nat.succ n, p, log, label => by
    rcases hdk : p.deck with _ | ⟨c, rest⟩
    · rcases hdc : p.discard with _ | ⟨d, ds⟩
      · simp [drawCardsFn, hdk, hdc]
      · rcases hsh : shuf (d :: ds) with _ | ⟨e, es⟩
        · have hv := hlen (d :: ds)
          rw [hsh] at hv
          simp at hv
        · simp only [drawCardsFn, hdk, hdc, hsh]
          obtain ⟨ih1, ih2⟩ := drawCardsFn_count shuf hlen n
            { p with deck := es, discard := [],
                     hand := p.hand ++ [e] }
            (log ++ [label ++ " reshuffled discard pile into deck."]) label
          refine ⟨?_, ih2⟩
          rw [ih1]
          have hv := hlen (d :: ds)
          rw [hsh] at hv
          simp only [List.length_cons] at hv
          simp [countPlayer, hdk, hdc]
          omega
    · simp only [drawCardsFn, hdk]
      obtain ⟨ih1, ih2⟩ := drawCardsFn_count shuf hlen n
        { p with deck := rest, hand := p.hand ++ [c] } log label
      refine ⟨?_, ih2⟩
      rw [ih1]
      simp [countPlayer, hdk]
      omega

/-- A mystic reveal preserves the per-player card count. -/
theorem revealMysticValue_count (reg : RegMap) (shuf : Shuffler)
    (hlen : ∀ l, (shuf l).length = l.length) (ctr : Nat)
    (p : PlayerState) (label : String) (c' : Nat) (v : Int) (card : CardInstance)
    (p' : PlayerState) (lg : List String)
    (h : revealMysticValue reg shuf ctr p label = some (c', v, card, p', lg)) :
    countPlayer p' = countPlayer p := by
  unfold revealMysticValue at h
  rcases hdk : p.deck with _ | ⟨c, rest⟩ <;> simp only [hdk] at h
  · rcases hdc : p.discard with _ | ⟨d, ds⟩
    · simp only [hdc] at h
      obtain ⟨h1, h2, h3, h5⟩ := h
      rfl
    · simp only [hdc] at h
      rcases hsh : shuf (d :: ds) with _ | ⟨e, es⟩
      · simp only [hsh] at h
        cases h
      · simp only [hsh] at h
        rcases hg : getCardDef reg e.defId with _ | gd
        · simp only [hg] at h
          cases h
        · simp only [hg] at h
          obtain ⟨h1, h2, h3, h5⟩ := h
          have hv := hlen (d :: ds)
          rw [hsh] at hv
          simp only [List.length_cons] at hv
          simp [countPlayer, hdk, hdc]
          omega
  · rcases hg : getCardDef reg c.defId with _ | gd
    · simp only [hg] at h
      cases h
    · simp only [hg] at h
      obtain ⟨h1, h2, h3, h5⟩ := h
      simp [countPlayer, hdk]
      omega

theorem payResourceCostStacks_sum (reg : RegMap) (bases : BasesMap) :
    ∀ (l : List ResourceStack) (rt : String) (rem : Int),
      ((payResourceCostStacks reg bases l rt rem).map
          (fun st => 1 + st.supplyCards.length)).sum =
        (l.map (fun st => 1 + st.supplyCards.length)).sum
  | [], _, _ => rfl
  | st :: rest, rt, rem => by
    unfold payResourceCostStacks
    split_ifs with h1 h2 h3 <;>
      simp [payResourceCostStacks_sum reg bases rest rt]

theorem payResourceCost_count (reg : RegMap) (bases : BasesMap)
    (p : PlayerState) (cost : Option (List (ResourceType × Nat))) :
    countPlayer (payResourceCost reg bases p cost) = countPlayer p := by
  unfold payResourceCost
  rcases cost with _ | entries
  · rfl
  · have key : ∀ (es : List (ResourceType × Nat)) (sts : List ResourceStack),
        ((es.foldl (fun sts e => payResourceCostStacks reg bases sts e.1 (e.2 : Int))
            sts).map (fun st => 1 + st.supplyCards.length)).sum =
          (sts.map (fun st => 1 + st.supplyCards.length)).sum := by
      intro es
      induction es with
      | nil => intro sts; rfl
      | cons e tail ih =>
        intro sts
        simp only [List.foldl_cons]
        rw [ih, payResourceCostStacks_sum]
    simp [countPlayer, key entries]

theorem commitUnit_count (p : PlayerState) (iid : String) :
    countPlayer (commitUnit p iid) = countPlayer p := by
  unfold commitUnit
  rcases hf : findUnitInAnyZone p iid with _ | ⟨st, tag, i⟩
  · rfl
  · rcases tag with _ | _
    · rcases findUnitInAnyZone_spec p iid st ZoneTag.alert i hf with ⟨-, hget⟩ | ⟨hc, -⟩
      · have he := sum_map_eraseIdx (fun st => st.cards.length) p.zones.alert i st hget
        simp only [] at he
        simp [countPlayer, sum_map_append]
        omega
      · cases hc
    · rfl

theorem defeatUnit_count (reg : RegMap) (p : PlayerState) (iid : String)
    (log : List String) (p2 : PlayerState) (log2 : List String)
    (h : defeatUnit reg p iid log = some (p2, log2)) :
    countPlayer p2 = countPlayer p := by
  unfold defeatUnit at h
  rcases hf : findUnitInAnyZone p iid with _ | ⟨st, tag, i⟩
  · simp only [hf] at h
    cases h
    rfl
  · simp only [hf] at h
    rcases hc : st.cards.head? with _ | c0
    · simp only [hc] at h
      cases h
    · simp only [hc] at h
      rcases hg : getCardDef reg c0.defId with _ | d0
      · simp only [hg] at h
        cases h
      · simp only [hg] at h
        rcases tag with _ | _ <;> simp only [] at h
        · rcases findUnitInAnyZone_spec p iid st ZoneTag.alert i hf with ⟨-, hget⟩ | ⟨hcon, -⟩
          · cases h
            have he := sum_map_eraseIdx (fun st => st.cards.length) p.zones.alert i st hget
            simp only [] at he
            simp [countPlayer, sum_map_append]
            omega
          · cases hcon
        · rcases findUnitInAnyZone_spec p iid st ZoneTag.reserve i hf with ⟨hcon, -⟩ | ⟨-, hget⟩
          · cases hcon
          · cases h
            have he := sum_map_eraseIdx (fun st => st.cards.length) p.zones.reserve i st hget
            simp only [] at he
            simp [countPlayer, sum_map_append]
            omega

theorem restoreExhausted_count (p : PlayerState) :
    countPlayer (restoreExhausted p) = countPlayer p := by
  have h1 := map_sum_comp (fun st : UnitStack => st.cards.length)
    (fun st => { st with exhausted := false }) (fun x => rfl) p.zones.alert
  have h2 := map_sum_comp (fun st : UnitStack => st.cards.length)
    (fun st => { st with exhausted := false }) (fun x => rfl) p.zones.reserve
  have h3 := map_sum_comp (fun st : ResourceStack => 1 + st.supplyCards.length)
    (fun st => { st with exhausted := false }) (fun x => rfl) p.zones.resourceStacks
  simp only [restoreExhausted, countPlayer]
  rw [h1, h2, h3]

theorem readyPlayerStep_count (reg : RegMap) (p : PlayerState) (label : String)
    (log : List String) (p2 : PlayerState) (log2 : List String)
    (h : readyPlayerStep reg p label log = some (p2, log2)) :
    countPlayer p2 = countPlayer p := by
  simp only [readyPlayerStep] at h
  split_ifs at h with hlen0
  · rcases hrn : readiedNames reg _ with _ | ns
    · rw [hrn] at h
      cases h
    · rw [hrn] at h
      cases h
      have hs := sum_map_filter_split (fun st : UnitStack => st.cards.length)
        (fun st => decide (st.cards.head?.map (·.faceUp) = some true)) p.zones.reserve
      simp only [countPlayer, List.partition_eq_filter_filter, sum_map_append]
      omega
  · cases h
    have hs := sum_map_filter_split (fun st : UnitStack => st.cards.length)
      (fun st => decide (st.cards.head?.map (·.faceUp) = some true)) p.zones.reserve
    simp only [countPlayer, List.partition_eq_filter_filter, sum_map_append]
    omega

theorem countState_setP_eq (s : GameState) (i : Nat) (q : PlayerState) :
    countState (s.setP i q) + countPlayer (s.getP i) = countState s + countPlayer q := by
  unfold countState GameState.setP GameState.getP Players.set Players.get
  by_cases hi : i = 0 <;> simp [hi] <;> omega

theorem countState_setP_preserve (s : GameState) (i : Nat) (q : PlayerState)
    (h : countPlayer q = countPlayer (s.getP i)) :
    countState (s.setP i q) = countState s := by
  have := countState_setP_eq s i q
  omega

theorem checkVictory_count (s : GameState) (log : List String) :
    countState (checkVictory s log).1 = countState s := by
  unfold checkVictory
  split_ifs <;> rfl

theorem finishExecAction_count (s : GameState) (log : List String) :
    countState (finishExecAction s log).1 = countState s := by
  simp only [finishExecAction]
  split
  · exact checkVictory_count (resetConsecutivePasses s) log
  · exact checkVictory_count (resetConsecutivePasses s) log

theorem finishAbilityAction_count (s : GameState) (log : List String) :
    countState (finishAbilityAction s log).1 = countState s := by
  have hk := checkVictory_count (resetConsecutivePasses s) log
  simp only [finishAbilityAction]
  split
  · split
    · simp only [advanceChallengeEffectTurn]
      split <;> exact hk
    · exact hk
  · exact hk

theorem applyPowerBuff_count (s : GameState) (t : String) (a : Int)
    (log : List String) : countState (applyPowerBuff s t a log).1 = countState s := by
  unfold applyPowerBuff
  split
  · rfl
  · split_ifs <;> rfl

theorem resolveEventEffect_count (s : GameState) (playerIndex : Nat) (d : CardDef)
    (log : List String) (tgt : Option String) :
    countState (resolveEventEffect s playerIndex d log tgt).1 = countState s := by
  unfold resolveEventEffect
  split
  · -- fire-support
    split
    · rename_i t
      rcases hab : applyPowerBuff s t 2 log with ⟨s1, log1⟩
      simp only [hab]
      have hc := applyPowerBuff_count s t 2 log
      rw [hab] at hc
      exact hc
    · rfl
  · -- shuttle-diplomacy
    exact countState_setP_preserve _ _ _ rfl
  · -- condition-one
    refine countState_setP_preserve _ _ _ ?_
    simp [countPlayer, sum_map_append]
    omega
  · -- presidential-candidate
    split
    · rename_i t
      rcases hab : applyPowerBuff s t 1 log with ⟨s1, log1⟩
      simp only [hab]
      have hc := applyPowerBuff_count s t 1 log
      rw [hab] at hc
      exact hc
    · rfl
  · -- outmaneuvered
    split
    · rename_i t
      rcases hab : applyPowerBuff s t (-2) log with ⟨s1, log1⟩
      simp only [hab]
      have hc := applyPowerBuff_count s t (-2) log
      rw [hab] at hc
      exact hc
    · rfl
  · rfl

theorem resolveBaseAbility_count (s : GameState) (playerIndex : Nat)
    (baseDef : BaseCardDef) (log : List String) :
    countState (resolveBaseAbility s playerIndex baseDef log).1 = countState s := by
  unfold resolveBaseAbility
  split
  · exact countState_setP_preserve _ _ _ rfl
  · exact countState_setP_preserve _ _ _ rfl
  · rfl

theorem resolveMissionEffect_count (shuf : Shuffler)
    (hlen : ∀ l, (shuf l).length = l.length) (s : GameState) (playerIndex : Nat)
    (d : CardDef) (log : List String) :
    countState (resolveMissionEffect shuf s playerIndex d log).1 = countState s := by
  unfold resolveMissionEffect
  split
  · exact countState_setP_preserve _ _ _ rfl
  · rcases hdr : drawCardsFn shuf 2 (s.getP playerIndex) log
        ("Player " ++ toString (playerIndex + 1)) with ⟨p1, log1⟩
    simp only [hdr]
    refine countState_setP_preserve _ _ _ ?_
    have hc := (drawCardsFn_count shuf hlen 2 (s.getP playerIndex) log
      ("Player " ++ toString (playerIndex + 1))).1
    rw [hdr] at hc
    exact hc
  · rfl

/-- Mission effects do not touch the zones of any player. -/
theorem resolveMissionEffect_zones (shuf : Shuffler)
    (hlen : ∀ l, (shuf l).length = l.length) (s : GameState) (playerIndex : Nat)
    (d : CardDef) (log : List String) (i : Nat) :
    ((resolveMissionEffect shuf s playerIndex d log).1.getP i).zones =
      (s.getP i).zones := by
  unfold resolveMissionEffect
  split
  · simp only [GameState.getP, GameState.setP, Players.get, Players.set]
    by_cases hp : playerIndex = 0 <;> by_cases hi : i = 0 <;> simp [hp, hi]
  · rcases hdr : drawCardsFn shuf 2 (s.getP playerIndex) log
        ("Player " ++ toString (playerIndex + 1)) with ⟨p1, log1⟩
    simp only [hdr]
    have hz := (drawCardsFn_count shuf hlen 2 (s.getP playerIndex) log
      ("Player " ++ toString (playerIndex + 1))).2
    rw [hdr] at hz
    simp only [GameState.getP, GameState.setP, Players.get, Players.set]
    by_cases hp : playerIndex = 0 <;> by_cases hi : i = 0 <;>
      simp [hp, hi] <;>
      simpa [GameState.getP, Players.get, hp] using hz
  · rfl

theorem startReadyPhase_count (reg : RegMap) (s : GameState) (log : List String)
    (s' : GameState) (log' : List String)
    (h : startReadyPhase reg s log = some (s', log')) :
    countState s' = countState s := by
  simp only [startReadyPhase] at h
  split at h
  · cases h
  · rename_i q0 log0 h0
    split at h
    · cases h
    · rename_i q1 log1 h1
      cases h
      have c0 := readyPlayerStep_count reg _ _ _ _ _ h0
      have c1 := readyPlayerStep_count reg _ _ _ _ _ h1
      have r0 := restoreExhausted_count q0
      have r1 := restoreExhausted_count q1
      simp only [countState]
      rw [r0, r1, c0, c1]

theorem checkSetupComplete_count (reg : RegMap) (s : GameState) (log : List String)
    (s' : GameState) (log' : List String)
    (h : checkSetupComplete reg s log = some (s', log')) :
    countState s' = countState s := by
  unfold checkSetupComplete at h
  split_ifs at h
  · exact startReadyPhase_count reg s _ s' log' h
  · cases h
    rfl

theorem advanceReadyStep4_count (s : GameState) (log : List String) :
    countState (advanceReadyStep4 s log).1 = countState s := by
  unfold advanceReadyStep4
  split_ifs <;> rfl

theorem startExecutionPhase_count (s : GameState) (log : List String) :
    countState (startExecutionPhase s log).1 = countState s := rfl

theorem advanceReadyStep5_count (s : GameState) (log : List String) :
    countState (advanceReadyStep5 s log).1 = countState s := by
  simp only [advanceReadyStep5]
  split_ifs <;> rfl

theorem countPlayer_discardPlus (p : PlayerState) (c : CardInstance) :
    countPlayer (discardPlus p c) = countPlayer p + 1 := by
  simp [discardPlus, countPlayer]
  omega

theorem pushThreatsToDiscard_spec :
    ∀ (ts : List CylonThreatCard) (s : GameState),
      countState (pushThreatsToDiscard s ts) = countState s + ts.length ∧
      (pushThreatsToDiscard s ts).cylonThreats = s.cylonThreats
  | [], s => ⟨by simp [pushThreatsToDiscard], rfl⟩
  | t :: rest, s => by
    have step : pushThreatsToDiscard s (t :: rest) =
        pushThreatsToDiscard
          (s.setP t.ownerIndex
            (discardPlus (s.getP t.ownerIndex) t.card)) rest := rfl
    have e1 : countState (pushThreatsToDiscard
          (s.setP t.ownerIndex (discardPlus (s.getP t.ownerIndex) t.card)) rest) =
        countState (s.setP t.ownerIndex
          (discardPlus (s.getP t.ownerIndex) t.card)) + rest.length :=
      (pushThreatsToDiscard_spec rest _).1
    have e2 : (pushThreatsToDiscard
          (s.setP t.ownerIndex (discardPlus (s.getP t.ownerIndex) t.card))
            rest).cylonThreats =
        s.cylonThreats :=
      (pushThreatsToDiscard_spec rest _).2
    have e3 : countState (s.setP t.ownerIndex
          (discardPlus (s.getP t.ownerIndex) t.card)) +
        countPlayer (s.getP t.ownerIndex) =
        countState s + countPlayer (discardPlus (s.getP t.ownerIndex) t.card) :=
      countState_setP_eq s t.ownerIndex _
    have e4 := countPlayer_discardPlus (s.getP t.ownerIndex) t.card
    rw [step]
    refine ⟨?_, e2⟩
    rw [e1]
    simp only [List.length_cons]
    omega

theorem endCylonPhase_count (reg : RegMap) (s : GameState) (log : List String)
    (s' : GameState) (log' : List String)
    (h : endCylonPhase reg s log = some (s', log')) :
    countState s' = countState s := by
  simp only [endCylonPhase] at h
  obtain ⟨hp1, hp2⟩ := pushThreatsToDiscard_spec s.cylonThreats s
  have hcount2 : countState
      { pushThreatsToDiscard s s.cylonThreats with cylonThreats := [] } =
      countState s := by
    have hlen2 : (pushThreatsToDiscard s s.cylonThreats).cylonThreats.length =
        s.cylonThreats.length := by rw [hp2]
    simp only [countState] at hp1 ⊢
    simp only [List.length_nil]
    omega
  rcases hcv : checkVictory
      { pushThreatsToDiscard s s.cylonThreats with cylonThreats := [] }
      (log ++ ["Cylon phase ends. Turn ends."]) with ⟨s2, log2⟩
  simp only [hcv] at h
  have hc2 : countState s2 = countState s := by
    have := checkVictory_count
      { pushThreatsToDiscard s s.cylonThreats with cylonThreats := [] }
      (log ++ ["Cylon phase ends. Turn ends."])
    rw [hcv] at this
    exact this.trans hcount2
  split_ifs at h
  · exact (startReadyPhase_count reg s2 log2 s' log' h).trans hc2
  · cases h
    exact hc2

theorem filterZeroThreats_spec (reg : RegMap) :
    ∀ (ts : List CylonThreatCard) (s : GameState) (log : List String)
      (s' : GameState) (kept : List CylonThreatCard) (log' : List String),
      filterZeroThreats reg s ts log = some (s', kept, log') →
      (countState s' + kept.length = countState s + ts.length ∧
       s'.cylonThreats = s.cylonThreats)
  | [], s, log, s', kept, log', h => by
    simp only [filterZeroThreats] at h
    cases h
    exact ⟨rfl, rfl⟩
  | t :: rest, s, log, s', kept, log', h => by
    simp only [filterZeroThreats] at h
    split_ifs at h with hp
    · rcases hg : getCardDef reg t.card.defId with _ | d
      · rw [hg] at h
        cases h
      · rw [hg] at h
        have e0 : countState s' + kept.length =
            countState (s.setP t.ownerIndex
              (discardPlus (s.getP t.ownerIndex) t.card)) +
              rest.length ∧
            s'.cylonThreats = s.cylonThreats :=
          filterZeroThreats_spec reg rest
            (s.setP t.ownerIndex
              (discardPlus (s.getP t.ownerIndex) t.card))
            (log ++ ["Cylon threat " ++ cardName d ++ " (power 0) removed."])
            s' kept log' h
        obtain ⟨ih1, ih2⟩ := e0
        have e3 : countState (s.setP t.ownerIndex
              (discardPlus (s.getP t.ownerIndex) t.card)) +
            countPlayer (s.getP t.ownerIndex) =
            countState s + countPlayer (discardPlus (s.getP t.ownerIndex) t.card) :=
          countState_setP_eq s t.ownerIndex _
        have e4 := countPlayer_discardPlus (s.getP t.ownerIndex) t.card
        refine ⟨?_, ih2⟩
        simp only [List.length_cons]
        omega
    · rcases hrec : filterZeroThreats reg s rest log with _ | ⟨s1, kept1, log1⟩
      · rw [hrec] at h
        cases h
      · rw [hrec] at h
        cases h
        obtain ⟨ih1, ih2⟩ := filterZeroThreats_spec reg rest _ _ _ _ _ hrec
        refine ⟨?_, ih2⟩
        simp only [List.length_cons]
        omega

theorem revealThreatFor_count (reg : RegMap) (shuf : Shuffler)
    (hlen : ∀ l, (shuf l).length = l.length) (ctr : Nat) (s : GameState)
    (i : Nat) (log : List String) (ctr' : Nat) (s' : GameState)
    (log' : List String)
    (h : revealThreatFor reg shuf ctr s i log = some (ctr', s', log')) :
    countState s' = countState s + 1 := by
  unfold revealThreatFor at h
  rcases hrv : revealMysticValue reg shuf ctr (s.getP i)
      ("Player " ++ toString (i + 1)) with _ | ⟨c1, v1, card1, p1, lg1⟩
  · rw [hrv] at h
    cases h
  · rw [hrv] at h
    simp only [] at h
    rcases hg : getCardDef reg card1.defId with _ | d
    · rw [hg] at h
      cases h
    · rw [hg] at h
      cases h
      have hcp := revealMysticValue_count reg shuf hlen ctr (s.getP i) _ _ _ _ _ _ hrv
      have hset := countState_setP_eq s i p1
      simp only [countState] at hset ⊢
      simp only [GameState.setP, Players.set] at hset ⊢
      by_cases hi : i = 0 <;> simp [hi] at hset ⊢ <;>
        simp [countState, GameState.getP, Players.get, hi] at hcp ⊢ <;> omega

theorem startCylonPhase_count (reg : RegMap) (shuf : Shuffler)
    (hlen : ∀ l, (shuf l).length = l.length) (ctr : Nat) (s : GameState)
    (log : List String) (s' : GameState) (log' : List String)
    (hthreats : s.cylonThreats = [])
    (h : startCylonPhase reg shuf ctr s log = some (s', log')) :
    countState s ≤ countState s' := by
  simp only [startCylonPhase] at h
  split at h
  · cases h
  · rename_i lvl hct
    split_ifs at h with hdef
    · have hend := endCylonPhase_count reg _ _ _ _ h
      simp only [countState] at hend ⊢
      omega
    · split at h
      · cases h
      · rename_i ctr1 s1 log1 hr0
        have hc0 := revealThreatFor_count reg shuf hlen ctr _ 0 _ _ _ _ hr0
        split at h
        · cases h
        · rename_i ctr2 s2 log2 hr1
          have hc1 := revealThreatFor_count reg shuf hlen ctr1 _ 1 _ _ _ _ hr1
          split at h
          · cases h
          · rename_i s3 kept log3 hfz
            obtain ⟨hf1, hf2⟩ := filterZeroThreats_spec reg _ _ _ _ _ _ hfz
            have hlen3 := congrArg List.length hf2
            have h0 : s.cylonThreats.length = 0 := by rw [hthreats]; rfl
            have hreset : ∀ q : PlayerState,
                countPlayer { q with consecutivePasses := 0 } = countPlayer q :=
              fun q => rfl
            split_ifs at h with hemp
            · have hend := endCylonPhase_count reg _ _ _ _ h
              simp only [countState, List.length_nil] at hend hc0 hc1 hf1 hlen3 ⊢
              omega
            · cases h
              simp only [countState, resetConsecutivePasses, List.length_nil,
                hreset] at hc0 hc1 hf1 hlen3 ⊢
              omega

theorem countState_discard_step (Y : GameState) (i : Nat) (p : PlayerState)
    (c : CardInstance) (n : Nat)
    (hp : countPlayer p = countPlayer (Y.getP i))
    (h : n ≤ countState Y) :
    n + 1 ≤ countState (Y.setP i (discardPlus p c)) := by
  have h1 := countState_setP_eq Y i (discardPlus p c)
  have h2 := countPlayer_discardPlus p c
  omega

theorem countState_erase_le (X : GameState) (i : Nat) (n : Nat)
    (h : n + 1 ≤ countState X) :
    n ≤ countState (eraseThreatAt X i) := by
  have hl := List.length_eraseIdx X.cylonThreats i
  have h1 : countState (eraseThreatAt X i) =
      countPlayer X.players.p0 + countPlayer X.players.p1 +
        (X.cylonThreats.eraseIdx i).length := rfl
  have h2 : countState X = countPlayer X.players.p0 + countPlayer X.players.p1 +
      X.cylonThreats.length := rfl
  split_ifs at hl <;> omega

/-- The common tail of cylon-challenge resolution preserves the total count. -/
theorem cylonChallengeTail_count (reg : RegMap) (s4 s' : GameState)
    (log4 log' : List String)
    (h : cylonChallengeTail reg s4 log4 = some (s', log')) :
    countState s' = countState s4 := by
  unfold cylonChallengeTail at h
  rcases hcv : checkVictory (resetConsecutivePasses { s4 with challenge := none })
      log4 with ⟨s6, log6⟩
  simp only [hcv] at h
  have hc := checkVictory_count (resetConsecutivePasses { s4 with challenge := none })
    log4
  rw [hcv] at hc
  have hc4 : countState s6 = countState s4 := hc.trans rfl
  split_ifs at h
  · exact (endCylonPhase_count reg _ _ _ _ h).trans hc4
  · cases h
    exact hc4
  · cases h
    exact hc4

/-- The common tail of non-cylon challenge resolution preserves the total count. -/
theorem challengeTail_count (s4 : GameState) (log4 : List String) :
    countState (challengeTail s4 log4).1 = countState s4 := by
  unfold challengeTail
  rcases hcv : checkVictory { s4 with challenge := none } log4 with ⟨s6, log6⟩
  simp only [hcv]
  have hc := checkVictory_count { s4 with challenge := none } log4
  rw [hcv] at hc
  have hc4 : countState s6 = countState s4 := hc.trans rfl
  split_ifs
  · exact hc4
  · exact hc4

theorem countPlayer_influencePlus (p : PlayerState) (n : Int) :
    countPlayer { p with influence := n } = countPlayer p := rfl

theorem resolveCylonChallenge_count (reg : RegMap) (shuf : Shuffler)
    (hlen : ∀ l, (shuf l).length = l.length) (ctr : Nat) (s : GameState)
    (log : List String) (s' : GameState) (log' : List String)
    (h : resolveCylonChallenge reg shuf ctr s log = some (s', log')) :
    countState s ≤ countState s' := by
  unfold resolveCylonChallenge at h
  rcases hch : s.challenge with _ | challenge
  · simp only [hch] at h
    cases h
  · simp only [hch] at h
    rcases hfind : findUnitInAnyZone (s.getP challenge.challengerPlayerIndex)
        challenge.challengerInstanceId with _ | ⟨ast, tg, ia⟩
    · simp only [hfind] at h
      cases h
      exact le_of_eq rfl
    · simp only [hfind] at h
      rcases hpow : getUnitPower reg ast with _ | basePower
      · simp only [hpow] at h
        cases h
      · simp only [hpow] at h
        rcases hrevA : revealMysticValue reg shuf ctr
            (s.getP challenge.challengerPlayerIndex)
            ("Player " ++ toString (challenge.challengerPlayerIndex + 1))
            with _ | ⟨ctr1, av, card1, ap', alog⟩
        · simp only [hrevA] at h
          cases h
        · simp only [hrevA] at h
          rcases hcyl : challenge.cylonPlayerIndex with _ | cylIdx
          · simp only [hcyl] at h
            cases h
          · simp only [hcyl] at h
            rcases hrevC : revealMysticValue reg shuf ctr1
                ((s.setP challenge.challengerPlayerIndex ap').getP cylIdx)
                ("Player " ++ toString (cylIdx + 1) ++ " (Cylon player)")
                with _ | ⟨ctr2, dv, card2, cp', dlog⟩
            · simp only [hrevC] at h
              cases h
            · simp only [hrevC] at h
              set S2 := (s.setP challenge.challengerPlayerIndex ap').setP cylIdx cp'
                with hS2
              have e1 : countState S2 = countState s := by
                rw [hS2]
                exact (countState_setP_preserve _ _ _
                    (revealMysticValue_count reg shuf hlen _ _ _ _ _ _ _ _ hrevC)).trans
                  (countState_setP_preserve _ _ _
                    (revealMysticValue_count reg shuf hlen _ _ _ _ _ _ _ _ hrevA))
              split at h
              · -- threat lookup failed: challenge simply clears
                cases h
                exact le_of_eq e1.symm
              · rename_i threat hthreat
                split_ifs at h with hcmp
                · -- challenger beats the threat
                  have ht := cylonChallengeTail_count reg _ _ _ _ h
                  rw [ht]
                  refine countState_erase_le _ _ _ ?_
                  refine countState_discard_step _ _ _ _ _ rfl ?_
                  refine le_of_eq (Eq.symm ?_)
                  exact (countState_setP_preserve _ _ _ (commitUnit_count _ _)).trans
                    ((countState_setP_preserve _ _ _
                      (countPlayer_influencePlus _ _)).trans e1)
                · -- the threat wins: the challenger unit is defeated
                  split at h
                  · cases h
                  · rename_i ap2 log5 hdefeat0
                    split at hdefeat0
                    · cases hdefeat0
                    · rename_i ap3 log6 hdef2
                      cases hdefeat0
                      have ht := cylonChallengeTail_count reg _ _ _ _ h
                      rw [ht]
                      refine le_of_eq (Eq.symm ?_)
                      exact (countState_setP_preserve _ _ _
                          (defeatUnit_count reg _ _ _ _ _ hdef2)).trans e1

/-- The count of card instances never drops across a full (non-cylon or
cylon) challenge resolution. -/
theorem resolveChallenge_count (reg : RegMap) (shuf : Shuffler)
    (hlen : ∀ l, (shuf l).length = l.length) (ctr : Nat) (s : GameState)
    (log : List String) (s' : GameState) (log' : List String)
    (h : resolveChallenge reg shuf ctr s log = some (s', log')) :
    countState s ≤ countState s' := by
  unfold resolveChallenge at h
  rcases hch : s.challenge with _ | challenge
  · simp only [hch] at h
    cases h
  · simp only [hch] at h
    split_ifs at h with hicy
    · exact resolveCylonChallenge_count reg shuf hlen ctr s log s' log' h
    · rcases hfind : findUnitInAnyZone (s.getP challenge.challengerPlayerIndex)
          challenge.challengerInstanceId with _ | ⟨ast, tg, ia⟩
      · simp only [hfind] at h
        cases h
        exact le_of_eq rfl
      · simp only [hfind] at h
        rcases hpow : getUnitPower reg ast with _ | basePower
        · simp only [hpow] at h
          cases h
        · simp only [hpow] at h
          rcases hdef : challenge.defenderInstanceId with _ | did
          · -- undefended challenge
            simp only [hdef] at h
            have hpair := Option.some.inj h
            have hfst := congrArg (fun r => countState r.1) hpair
            simp only [challengeTail_count] at hfst
            refine le_of_eq (Eq.trans (Eq.symm ?_) hfst)
            exact (countState_setP_preserve _ _ _ (commitUnit_count _ _)).trans
              (countState_setP_preserve _ _ _ (countPlayer_influencePlus _ _))
          · -- defended challenge
            simp only [hdef] at h
            rcases hrevA : revealMysticValue reg shuf ctr
                (s.getP challenge.challengerPlayerIndex)
                ("Player " ++ toString (challenge.challengerPlayerIndex + 1))
                with _ | ⟨ctr1, av, card1, ap', alog⟩
            · simp only [hrevA] at h
              cases h
            · simp only [hrevA] at h
              rcases hrevD : revealMysticValue reg shuf ctr1
                  ((s.setP challenge.challengerPlayerIndex ap').getP
                    challenge.defenderPlayerIndex)
                  ("Player " ++ toString (challenge.defenderPlayerIndex + 1))
                  with _ | ⟨ctr2, dv, card2, dp', dlog⟩
              · simp only [hrevD] at h
                cases h
              · simp only [hrevD] at h
                set S2 := (s.setP challenge.challengerPlayerIndex ap').setP
                    challenge.defenderPlayerIndex dp' with hS2
                have e1 : countState S2 = countState s := by
                  rw [hS2]
                  exact (countState_setP_preserve _ _ _
                      (revealMysticValue_count reg shuf hlen _ _ _ _ _ _ _ _ hrevD)).trans
                    (countState_setP_preserve _ _ _
                      (revealMysticValue_count reg shuf hlen _ _ _ _ _ _ _ _ hrevA))
                rcases hds : findUnitInAnyZone (S2.getP challenge.defenderPlayerIndex)
                    did with _ | ⟨dst, dtag, dix⟩
                · -- defender unit has left play: defPower is 0
                  simp only [hds, Option.isSome_none, Bool.false_eq_true,
                    if_false] at h
                  split_ifs at h with hcmp
                  · -- challenger wins, nothing to defeat
                    have hpair := Option.some.inj h
                    have hfst := congrArg (fun r => countState r.1) hpair
                    simp only [challengeTail_count] at hfst
                    refine le_of_eq (Eq.trans (Eq.symm ?_) hfst)
                    exact (countState_setP_preserve _ _ _
                      (commitUnit_count _ _)).trans e1
                  · -- defender wins: challenger unit is defeated
                    split at h
                    · cases h
                    · rename_i ap2 log6 hdft0
                      split at hdft0
                      · cases hdft0
                      · rename_i ap3 log7 hdft
                        cases hdft0
                        have hpair := Option.some.inj h
                        have hfst := congrArg (fun r => countState r.1) hpair
                        simp only [challengeTail_count] at hfst
                        refine le_of_eq (Eq.trans (Eq.symm ?_) hfst)
                        exact (countState_setP_preserve _ _ _
                          (defeatUnit_count reg _ _ _ _ _ hdft)).trans e1
                · -- defender unit present
                  simp only [hds, Option.isSome_some, if_true] at h
                  rcases hpowD : getUnitPower reg dst with _ | dp0
                  · simp only [hpowD] at h
                    cases h
                  · simp only [hpowD] at h
                    split_ifs at h with hcmp
                    · -- challenger wins: defender stack is defeated
                      split at h
                      · cases h
                      · rename_i dp2 log6 hdft0
                        split at hdft0
                        · cases hdft0
                        · rename_i dp3 log7 hdft
                          cases hdft0
                          have hpair := Option.some.inj h
                          have hfst := congrArg (fun r => countState r.1) hpair
                          simp only [challengeTail_count] at hfst
                          refine le_of_eq (Eq.trans (Eq.symm ?_) hfst)
                          exact (countState_setP_preserve _ _ _
                              (defeatUnit_count reg _ _ _ _ _ hdft)).trans
                            ((countState_setP_preserve _ _ _
                              (commitUnit_count _ _)).trans e1)
                    · -- defender wins: challenger stack is defeated
                      split at h
                      · cases h
                      · rename_i ap2 log6 hdft0
                        split at hdft0
                        · cases hdft0
                        · rename_i ap3 log7 hdft
                          cases hdft0
                          have hpair := Option.some.inj h
                          have hfst := congrArg (fun r => countState r.1) hpair
                          simp only [challengeTail_count] at hfst
                          refine le_of_eq (Eq.trans (Eq.symm ?_) hfst)
                          exact (countState_setP_preserve _ _ _
                              (defeatUnit_count reg _ _ _ _ _ hdft)).trans
                            ((countState_setP_preserve _ _ _
                              (commitUnit_count _ _)).trans e1)

theorem countPlayer_hasMulliganed (p : PlayerState) (b : Bool) :
    countPlayer { p with hasMulliganed := b } = countPlayer p := rfl

theorem countPlayer_hasPlayedResource (p : PlayerState) (b : Bool) :
    countPlayer { p with hasPlayedResource := b } = countPlayer p := rfl

theorem countPlayer_consecutivePasses (p : PlayerState) (n : Nat) :
    countPlayer { p with consecutivePasses := n } = countPlayer p := rfl

theorem countPlayer_influencePasses (p : PlayerState) (n : Int) (m : Nat) :
    countPlayer { p with influence := n, consecutivePasses := m } =
      countPlayer p := rfl

theorem countPlayer_discardAppend (p : PlayerState) (c : CardInstance) :
    countPlayer { p with discard := p.discard ++ [c] } = countPlayer p + 1 :=
  countPlayer_discardPlus p c

theorem listUpdate_sum_eq {α : Type} (f : α → Nat) (g : α → α)
    (hg : ∀ x, f (g x) = f x) :
    ∀ (l : List α) (i : Nat), ((listUpdate l i g).map f).sum = (l.map f).sum
  | [], _ => rfl
  | x :: rest, 0 => by simp [listUpdate, hg x]
  | x :: rest, Nat.succ n => by
    have ih := listUpdate_sum_eq f g hg rest n
    simp [listUpdate, ih]

/-- `keepHand` never loses a card instance. -/
theorem applyKeepHand_count (reg : RegMap) (s : GameState) (playerIndex : Nat)
    (pLabel : String) (s' : GameState) (log' : List String)
    (h : applyKeepHand reg s playerIndex pLabel = some (s', log')) :
    countState s ≤ countState s' := by
  unfold applyKeepHand at h
  have hc := checkSetupComplete_count reg _ _ _ _ h
  rw [hc]
  exact le_of_eq (Eq.symm (countState_setP_preserve _ _ _
    (countPlayer_hasMulliganed _ _)))

/-- `passResource` never loses a card instance. -/
theorem applyPassResource_count (s : GameState) (playerIndex : Nat)
    (pLabel : String) (s' : GameState) (log' : List String)
    (h : applyPassResource s playerIndex pLabel = some (s', log')) :
    countState s ≤ countState s' := by
  unfold applyPassResource at h
  have hfst := congrArg (fun r => countState r.1) (Option.some.inj h)
  simp only [advanceReadyStep4_count] at hfst
  refine le_of_eq (Eq.trans (Eq.symm ?_) hfst)
  exact countState_setP_preserve _ _ _ (countPlayer_hasPlayedResource _ _)

/-- `challenge` never loses a card instance. -/
theorem applyChallengeCase_count (reg : RegMap) (s : GameState)
    (playerIndex : Nat) (cid : String) (pLabel : String) (s' : GameState)
    (log' : List String)
    (h : applyChallengeCase reg s playerIndex cid pLabel = some (s', log')) :
    countState s ≤ countState s' := by
  unfold applyChallengeCase at h
  rcases hf : findCardDefByInstanceId reg s cid with _ | od
  · simp only [hf] at h
    cases h
  · simp only [hf] at h
    rcases od with _ | d
    · cases h
      exact le_of_eq rfl
    · cases h
      exact le_of_eq rfl

/-- `defend` never loses a card instance. -/
theorem applyDefendCase_count (reg : RegMap) (s : GameState)
    (playerIndex : Nat) (did : Option String) (pLabel : String)
    (s' : GameState) (log' : List String)
    (h : applyDefendCase reg s playerIndex did pLabel = some (s', log')) :
    countState s ≤ countState s' := by
  unfold applyDefendCase at h
  rcases hch : s.challenge with _ | c
  · simp only [hch] at h
    cases h
    exact le_of_eq rfl
  · simp only [hch] at h
    rcases did with _ | d
    · simp only [] at h
      cases h
      exact le_of_eq rfl
    · simp only [] at h
      rcases hf : findCardDefByInstanceId reg s d with _ | defDef
      · simp only [hf] at h
        cases h
      · simp only [hf] at h
        cases h
        exact le_of_eq rfl

/-- `challengeCylon` never loses a card instance. -/
theorem applyChallengeCylonCase_count (reg : RegMap) (s : GameState)
    (playerIndex : Nat) (cid : String) (ti : Nat) (pLabel : String)
    (s' : GameState) (log' : List String)
    (h : applyChallengeCylonCase reg s playerIndex cid ti pLabel =
      some (s', log')) :
    countState s ≤ countState s' := by
  unfold applyChallengeCylonCase at h
  rcases ht : s.cylonThreats.get? ti with _ | threat
  · simp only [ht] at h
    cases h
    exact le_of_eq rfl
  · simp only [ht] at h
    rcases hf : findCardDefByInstanceId reg s cid with _ | od
    · simp only [hf] at h
      cases h
    · simp only [hf] at h
      cases h
      exact le_of_eq rfl

/-- `challengePass` never loses a card instance. -/
theorem applyChallengePassCase_count (reg : RegMap) (shuf : Shuffler)
    (hlen : ∀ l, (shuf l).length = l.length) (ctr : Nat) (s : GameState)
    (playerIndex : Nat) (pLabel : String) (s' : GameState) (log' : List String)
    (h : applyChallengePassCase reg shuf ctr s playerIndex pLabel =
      some (s', log')) :
    countState s ≤ countState s' := by
  unfold applyChallengePassCase at h
  rcases hch : s.challenge with _ | c
  · simp only [hch] at h
    cases h
    exact le_of_eq rfl
  · simp only [hch] at h
    split_ifs at h with hcp
    · have hc := resolveChallenge_count reg shuf hlen ctr _ _ _ _ h
      exact hc
    · cases h
      exact le_of_eq rfl

/-- `passCylon` never loses a card instance. -/
theorem applyPassCylonCase_count (reg : RegMap) (s : GameState)
    (playerIndex : Nat) (pLabel : String) (s' : GameState) (log' : List String)
    (h : applyPassCylonCase reg s playerIndex pLabel = some (s', log')) :
    countState s ≤ countState s' := by
  unfold applyPassCylonCase at h
  simp only [] at h
  rcases hcv : checkVictory (s.setP playerIndex
      { baseDefId := (s.getP playerIndex).baseDefId,
        zones := (s.getP playerIndex).zones,
        hand := (s.getP playerIndex).hand,
        deck := (s.getP playerIndex).deck,
        discard := (s.getP playerIndex).discard,
        influence := (s.getP playerIndex).influence - 1,
        hasMulliganed := (s.getP playerIndex).hasMulliganed,
        hasPlayedResource := (s.getP playerIndex).hasPlayedResource,
        hasResolvedMission := (s.getP playerIndex).hasResolvedMission,
        consecutivePasses := (s.getP playerIndex).consecutivePasses + 1 })
      [pLabel ++ " passes in Cylon phase and loses 1 influence. (Now " ++
        toString ((s.getP playerIndex).influence - 1) ++ ")"] with ⟨s2, log2⟩
  simp only [hcv] at h
  have hk := congrArg (fun r => countState r.1) hcv
  simp only [checkVictory_count] at hk
  have hc2 : countState s2 = countState s := by
    rw [← hk]
    exact countState_setP_preserve _ _ _ (countPlayer_influencePasses _ _ _)
  split_ifs at h with hph hdone
  · exact le_of_eq (Eq.symm ((endCylonPhase_count reg _ _ _ _ h).trans hc2))
  · cases h
    exact le_of_eq hc2.symm
  · cases h
    exact le_of_eq hc2.symm

/-- `pass` never loses a card instance when no stale threats linger. -/
theorem applyPassCase_count (reg : RegMap) (shuf : Shuffler)
    (hlen : ∀ l, (shuf l).length = l.length) (ctr : Nat) (s : GameState)
    (playerIndex : Nat) (pLabel : String) (s' : GameState) (log' : List String)
    (hthreats : s.cylonThreats = [])
    (h : applyPassCase reg shuf ctr s playerIndex pLabel = some (s', log')) :
    countState s ≤ countState s' := by
  unfold applyPassCase at h
  simp only [] at h
  split_ifs at h with hboth
  · have hc := startCylonPhase_count reg shuf hlen ctr _ _ _ _
      (by exact hthreats) h
    refine le_trans (le_of_eq ?_) hc
    exact (countState_setP_preserve _ _ _
      (countPlayer_consecutivePasses _ _)).symm
  · cases h
    exact le_of_eq (countState_setP_preserve _ _ _
      (countPlayer_consecutivePasses _ _)).symm

/-- `doneReorder` never loses a card instance. -/
theorem applyDoneReorder_count (s : GameState) (s' : GameState)
    (log' : List String)
    (h : (some (advanceReadyStep5 s []) :
        Option (GameState × List String)) = some (s', log')) :
    countState s ≤ countState s' := by
  have hfst := congrArg (fun r => countState r.1) (Option.some.inj h)
  simp only [advanceReadyStep5_count] at hfst
  exact le_of_eq hfst


theorem applyRedraw_count (reg : RegMap) (bases : BasesMap) (shuf : Shuffler)
    (hlen : ∀ l, (shuf l).length = l.length) (s : GameState)
    (playerIndex : Nat) (pLabel : String) (s' : GameState) (log' : List String)
    (h : applyRedraw reg bases shuf s playerIndex pLabel = some (s', log')) :
    countState s ≤ countState s' := by
  unfold applyRedraw at h
  rcases hb : alookup bases (s.getP playerIndex).baseDefId with _ | baseDef
  · simp only [hb] at h
    cases h
  · simp only [hb] at h
    have hc := checkSetupComplete_count reg _ _ _ _ h
    rw [hc]
    refine le_of_eq (Eq.symm ?_)
    refine countState_setP_preserve _ _ _ ?_
    have hstep : countPlayer (drawCardsFn shuf baseDef.handSize
        { baseDefId := (s.getP playerIndex).baseDefId,
          zones := (s.getP playerIndex).zones,
          hand := [],
          deck := shuf ((s.getP playerIndex).deck ++ (s.getP playerIndex).hand),
          discard := (s.getP playerIndex).discard,
          influence := (s.getP playerIndex).influence,
          hasMulliganed := (s.getP playerIndex).hasMulliganed,
          hasPlayedResource := (s.getP playerIndex).hasPlayedResource,
          hasResolvedMission := (s.getP playerIndex).hasResolvedMission,
          consecutivePasses := (s.getP playerIndex).consecutivePasses }
        [] pLabel).1 = countPlayer (s.getP playerIndex) := by
      rw [(drawCardsFn_count shuf hlen baseDef.handSize _ [] pLabel).1]
      simp only [countPlayer, List.length_append, List.length_nil, hlen]
      omega
    exact hstep

/-- `drawCards` never loses a card instance. -/
theorem applyDrawCardsCase_count (shuf : Shuffler)
    (hlen : ∀ l, (shuf l).length = l.length) (s : GameState) (s' : GameState)
    (log' : List String)
    (h : applyDrawCardsCase shuf s = some (s', log')) :
    countState s ≤ countState s' := by
  unfold applyDrawCardsCase at h
  cases h
  refine le_of_eq ?_
  have hq0 : countPlayer (drawCardsFn shuf 2 s.players.p0 [] "Player 1").1 =
      countPlayer s.players.p0 :=
    (drawCardsFn_count shuf hlen 2 s.players.p0 [] "Player 1").1
  have hq1 : ∀ lg, countPlayer (drawCardsFn shuf 2 s.players.p1 lg "Player 2").1 =
      countPlayer s.players.p1 :=
    fun lg => (drawCardsFn_count shuf hlen 2 s.players.p1 lg "Player 2").1
  show countPlayer s.players.p0 + countPlayer s.players.p1 + s.cylonThreats.length =
    countPlayer (drawCardsFn shuf 2 s.players.p0 [] "Player 1").1 +
    countPlayer (drawCardsFn shuf 2 s.players.p1
      (drawCardsFn shuf 2 s.players.p0 [] "Player 1").2 "Player 2").1 +
    s.cylonThreats.length
  rw [hq0, hq1]


/-- `playToResource` never loses a card instance when the supply target is
in range. -/
theorem applyPlayToResource_count (reg : RegMap) (s : GameState)
    (playerIndex cardIndex : Nat) (asSupply : Bool)
    (targetStackIndex : Option Nat) (pLabel : String) (s' : GameState)
    (log' : List String)
    (hsup : asSupply = true → targetStackIndex.getD 0 <
      (s.getP playerIndex).zones.resourceStacks.length)
    (h : applyPlayToResource reg s playerIndex cardIndex asSupply
      targetStackIndex pLabel = some (s', log')) :
    countState s ≤ countState s' := by
  unfold applyPlayToResource at h
  rcases hget : (s.getP playerIndex).hand.get? cardIndex with _ | card
  · simp only [hget] at h
    cases h
    exact le_of_eq rfl
  · simp only [hget] at h
    rcases hd : getCardDef reg card.defId with _ | d
    · simp only [hd] at h
      cases h
    · simp only [hd] at h
      rcases asSupply with _ | _
      · simp only [Bool.false_eq_true, if_false] at h
        have hfst := congrArg (fun r => countState r.1) (Option.some.inj h)
        simp only [advanceReadyStep4_count] at hfst
        refine le_of_eq (Eq.trans (Eq.symm ?_) hfst)
        refine countState_setP_preserve _ _ _ ?_
        have he := length_eraseIdx_of_get (s.getP playerIndex).hand cardIndex
          card hget
        simp only [countPlayer, sum_map_append, List.map_cons, List.map_nil,
          List.sum_cons, List.sum_nil, List.length_nil]
        omega
      · simp only [if_true, if_pos (hsup rfl)] at h
        have hfst := congrArg (fun r => countState r.1) (Option.some.inj h)
        simp only [advanceReadyStep4_count] at hfst
        refine le_of_eq (Eq.trans (Eq.symm ?_) hfst)
        refine countState_setP_preserve _ _ _ ?_
        have he := length_eraseIdx_of_get (s.getP playerIndex).hand cardIndex
          card hget
        have hu := listUpdate_sum_add
          (fun st : ResourceStack => 1 + st.supplyCards.length)
          (fun st => { st with supplyCards :=
            st.supplyCards ++ [{ card with faceUp := false }] }) 1
          (fun st => by
            simp only [List.length_append, List.length_cons, List.length_nil]
            omega)
          (s.getP playerIndex).zones.resourceStacks (targetStackIndex.getD 0)
          (hsup rfl)
        simp only [countPlayer]
        rw [hu]
        omega


/-- `resolveMission` never loses a card instance. -/
theorem applyResolveMissionCase_count (reg : RegMap) (shuf : Shuffler)
    (hlen : ∀ l, (shuf l).length = l.length) (s : GameState)
    (playerIndex : Nat) (mid : String) (pLabel : String) (s' : GameState)
    (log' : List String)
    (h : applyResolveMissionCase reg shuf s playerIndex mid pLabel =
      some (s', log')) :
    countState s ≤ countState s' := by
  unfold applyResolveMissionCase at h
  rcases hfz : findUnitInZone (s.getP playerIndex).zones.alert mid
      with _ | ⟨st, idx⟩
  · simp only [hfz] at h
    cases h
    exact le_of_eq rfl
  · simp only [hfz] at h
    rcases hhd : st.cards.head? with _ | c
    · simp only [hhd] at h
      cases h
    · simp only [hhd] at h
      rcases hd : getCardDef reg c.defId with _ | d
      · simp only [hd] at h
        cases h
      · simp only [hd] at h
        have hfst := congrArg (fun r => countState r.1) (Option.some.inj h)
        simp only [finishExecAction_count] at hfst
        refine le_of_eq (Eq.trans (Eq.symm ?_) hfst)
        refine (countState_setP_preserve _ _ _ ?_).trans
          (resolveMissionEffect_count shuf hlen s playerIndex d _)
        have hzq : ((resolveMissionEffect shuf s playerIndex d
            [pLabel ++ " resolves mission " ++ cardName d ++ "."]).1.getP
              playerIndex).zones = (s.getP playerIndex).zones :=
          resolveMissionEffect_zones shuf hlen s playerIndex d _ playerIndex
        have hga : ((resolveMissionEffect shuf s playerIndex d
            [pLabel ++ " resolves mission " ++ cardName d ++ "."]).1.getP
              playerIndex).zones.alert.get? idx = some st := by
          rw [hzq]
          exact findUnitInZone_get _ _ _ _ hfz
        have he := sum_map_eraseIdx (fun u : UnitStack => u.cards.length)
          ((resolveMissionEffect shuf s playerIndex d
            [pLabel ++ " resolves mission " ++ cardName d ++ "."]).1.getP
              playerIndex).zones.alert idx st hga
        simp only [] at he
        simp only [countPlayer, List.length_append]
        omega


/-- The alert-stack ability loop never loses a card instance. -/
theorem applyAbilityAlertLoop_count (reg : RegMap) (s : GameState)
    (playerIndex : Nat) (src : String) (tgt : Option String) (pLabel : String)
    (s' : GameState) (log' : List String)
    (h : applyAbilityAlertLoop reg s playerIndex src tgt pLabel =
      some (s', log')) :
    countState s ≤ countState s' := by
  unfold applyAbilityAlertLoop at h
  rcases hfind : (s.getP playerIndex).zones.alert.find?
      (fun st => st.cards.head?.map (fun c => c.instanceId) = some src)
      with _ | st
  · simp only [hfind] at h
    cases h
    exact le_of_eq rfl
  · simp only [hfind] at h
    rcases hhd : st.cards.head? with _ | c
    · simp only [hhd] at h
      cases h
    · simp only [hhd] at h
      rcases hcd : getCardDef reg c.defId with _ | d
      · simp only [hcd] at h
        cases h
      · simp only [hcd] at h
        have hfst := congrArg (fun r => countState r.1) (Option.some.inj h)
        simp only [finishAbilityAction_count] at hfst
        refine le_of_eq (Eq.trans (Eq.symm ?_) hfst)
        split_ifs with hab
        · rcases tgt with _ | t
          · exact countState_setP_preserve _ _ _ (commitUnit_count _ _)
          · exact (applyPowerBuff_count _ _ _ _).trans
              (countState_setP_preserve _ _ _ (commitUnit_count _ _))
        · rfl

/-- `playAbility` never loses a card instance. -/
theorem applyPlayAbilityCase_count (reg : RegMap) (bases : BasesMap)
    (s : GameState) (playerIndex : Nat) (src : String) (tgt : Option String)
    (pLabel : String) (s' : GameState) (log' : List String)
    (h : applyPlayAbilityCase reg bases s playerIndex src tgt pLabel =
      some (s', log')) :
    countState s ≤ countState s' := by
  unfold applyPlayAbilityCase at h
  rcases hhead : (s.getP playerIndex).zones.resourceStacks.head?
      with _ | baseStack
  · simp only [hhead] at h
    exact applyAbilityAlertLoop_count reg s playerIndex src tgt pLabel
      s' log' h
  · simp only [hhead] at h
    split_ifs at h with hid
    · rcases hb : alookup bases (s.getP playerIndex).baseDefId with _ | baseDef
      · simp only [hb] at h
        cases h
      · simp only [hb] at h
        have hfst := congrArg (fun r => countState r.1) (Option.some.inj h)
        simp only [finishAbilityAction_count] at hfst
        refine le_of_eq (Eq.trans (Eq.symm ?_) hfst)
        refine (resolveBaseAbility_count _ _ _ _).trans ?_
        refine countState_setP_preserve _ _ _ ?_
        have hu := listUpdate_sum_eq
          (fun st : ResourceStack => 1 + st.supplyCards.length)
          (fun st => { st with exhausted := true }) (fun x => rfl)
          (s.getP playerIndex).zones.resourceStacks 0
        simp only [countPlayer]
        rw [hu]
    · exact applyAbilityAlertLoop_count reg s playerIndex src tgt pLabel
        s' log' h


theorem payResourceCost_hand (reg : RegMap) (bases : BasesMap)
    (p : PlayerState) (cost : Option (List (ResourceType × Nat))) :
    (payResourceCost reg bases p cost).hand = p.hand := by
  unfold payResourceCost
  rcases cost with _ | entries <;> rfl

/-- The in-challenge event body never loses a card instance. -/
theorem playEventWithCard_count (reg : RegMap) (bases : BasesMap)
    (s : GameState) (playerIndex cardIndex : Nat) (tgt : Option String)
    (card : CardInstance) (d : CardDef) (pLabel : String) (s' : GameState)
    (log' : List String)
    (hget : (s.getP playerIndex).hand.get? cardIndex = some card)
    (h : playEventWithCard reg bases s playerIndex cardIndex tgt card d
      pLabel = some (s', log')) :
    countState s ≤ countState s' := by
  unfold playEventWithCard at h
  simp only [] at h
  set P2 := payResourceCost reg bases (s.getP playerIndex) d.cost with hP2
  set Q2 : PlayerState := { P2 with hand := P2.hand.eraseIdx cardIndex }
    with hQ2
  set S2 := s.setP playerIndex Q2 with hS2
  set R := resolveEventEffect S2 playerIndex d
    [pLabel ++ " plays " ++ cardName d ++ " during challenge."] tgt with hR
  set Q3 : PlayerState := { R.1.getP playerIndex with
    discard := (R.1.getP playerIndex).discard ++ [card] } with hQ3
  set S3 := R.1.setP playerIndex Q3 with hS3
  have e1 : countState S2 + 1 = countState s := by
    have h1 := countState_setP_eq s playerIndex Q2
    rw [← hS2] at h1
    have hh : P2.hand = (s.getP playerIndex).hand := by
      rw [hP2]
      exact payResourceCost_hand reg bases _ _
    have hpc : countPlayer P2 = countPlayer (s.getP playerIndex) := by
      rw [hP2]
      exact payResourceCost_count reg bases _ _
    have he : (P2.hand.eraseIdx cardIndex).length + 1 = P2.hand.length := by
      apply length_eraseIdx_of_get _ _ card
      rw [hh]
      exact hget
    have h2 : countPlayer Q2 + 1 = countPlayer (s.getP playerIndex) := by
      rw [hQ2]
      simp only [countPlayer] at hpc ⊢
      omega
    omega
  have e2 : countState R.1 = countState S2 := by
    rw [hR]
    exact resolveEventEffect_count S2 playerIndex d _ tgt
  have e3 : countState S3 = countState R.1 + 1 := by
    rw [hS3]
    have h1 := countState_setP_eq R.1 playerIndex Q3
    have h2 : countPlayer Q3 = countPlayer (R.1.getP playerIndex) + 1 := by
      rw [hQ3]
      exact countPlayer_discardAppend _ _
    omega
  split at h
  · cases h
  · rename_i c hch
    cases h
    refine le_of_eq ?_
    show countState s = countState S3
    omega

/-- `playEventInChallenge` never loses a card instance. -/
theorem applyPlayEventCase_count (reg : RegMap) (bases : BasesMap)
    (s : GameState) (playerIndex cardIndex : Nat) (tgt : Option String)
    (pLabel : String) (s' : GameState) (log' : List String)
    (h : applyPlayEventCase reg bases s playerIndex cardIndex tgt pLabel =
      some (s', log')) :
    countState s ≤ countState s' := by
  unfold applyPlayEventCase at h
  rcases hch : s.challenge with _ | c
  · simp only [hch] at h
    cases h
    exact le_of_eq rfl
  · simp only [hch] at h
    rcases hget : (s.getP playerIndex).hand.get? cardIndex with _ | card
    · simp only [hget] at h
      cases h
      exact le_of_eq rfl
    · simp only [hget] at h
      rcases hd : getCardDef reg card.defId with _ | d
      · simp only [hd] at h
        cases h
      · simp only [hd] at h
        exact playEventWithCard_count reg bases s playerIndex cardIndex tgt
          card d pLabel s' log' hget h


/-- `playCardPlace` preserves the card count exactly, for a well-typed
registry. -/
theorem playCardPlace_count (reg : RegMap) (bases : BasesMap) (s : GameState)
    (playerIndex cardIndex : Nat) (card : CardInstance) (d : CardDef)
    (pLabel : String) (s' : GameState) (log' : List String)
    (hreg : ∀ e ∈ reg, e.2.type = "personnel" ∨ e.2.type = "ship" ∨
      e.2.type = "mission" ∨ e.2.type = "event")
    (hd : getCardDef reg card.defId = some d)
    (hget : (s.getP playerIndex).hand.get? cardIndex = some card)
    (h : playCardPlace reg bases s playerIndex cardIndex card d pLabel =
      some (s', log')) :
    countState s' = countState s := by
  unfold playCardPlace at h
  simp only [] at h
  set P2 := payResourceCost reg bases (s.getP playerIndex) d.cost with hP2
  set Q2 : PlayerState := { P2 with hand := P2.hand.eraseIdx cardIndex }
    with hQ2
  have hh : P2.hand = (s.getP playerIndex).hand := by
    rw [hP2]
    exact payResourceCost_hand reg bases _ _
  have hpc : countPlayer P2 = countPlayer (s.getP playerIndex) := by
    rw [hP2]
    exact payResourceCost_count reg bases _ _
  have he : (P2.hand.eraseIdx cardIndex).length + 1 = P2.hand.length := by
    apply length_eraseIdx_of_get _ _ card
    rw [hh]
    exact hget
  have hQcount : countPlayer Q2 + 1 = countPlayer (s.getP playerIndex) := by
    rw [hQ2]
    simp only [countPlayer] at hpc ⊢
    omega
  split_ifs at h with hum hsing hev
  · -- singular unit: overlay lookup
    rcases hov : findOverlayTarget reg Q2 d with _ | oo
    · simp only [hov] at h
      cases h
    · simp only [hov] at h
      rcases oo with _ | ⟨zone, idx⟩
      · -- no overlay target: new reserve stack
        cases h
        refine countState_setP_preserve _ _ _ ?_
        simp only [countPlayer, sum_map_append, List.map_cons, List.map_nil,
          List.sum_cons, List.sum_nil, List.length_cons, List.length_nil]
          at hQcount ⊢
        omega
      · -- overlay onto the found stack
        rcases zone with _ | _
        · simp only [] at h
          cases h
          refine countState_setP_preserve _ _ _ ?_
          have hb : idx < P2.zones.alert.length :=
            (findOverlayTarget_bound reg Q2 d ZoneTag.alert idx hov).1 rfl
          have hu := listUpdate_sum_add
            (fun st : UnitStack => st.cards.length)
            (fun st => { st with
              cards := card :: st.cards
              exhausted := false }) 1
            (fun x => by simp) P2.zones.alert idx hb
          simp only [countPlayer] at hQcount ⊢
          rw [hu]
          omega
        · simp only [] at h
          cases h
          refine countState_setP_preserve _ _ _ ?_
          have hb : idx < P2.zones.reserve.length :=
            (findOverlayTarget_bound reg Q2 d ZoneTag.reserve idx hov).2 rfl
          have hu := listUpdate_sum_add
            (fun st : UnitStack => st.cards.length)
            (fun st => { st with
              cards := card :: st.cards
              exhausted := false }) 1
            (fun x => by simp) P2.zones.reserve idx hb
          simp only [countPlayer] at hQcount ⊢
          rw [hu]
          omega
  · -- non-singular unit or mission: always a new reserve stack
    cases h
    refine countState_setP_preserve _ _ _ ?_
    simp only [countPlayer, sum_map_append, List.map_cons, List.map_nil,
      List.sum_cons, List.sum_nil, List.length_cons, List.length_nil]
      at hQcount ⊢
    omega
  · -- event: resolve and discard
    set R := resolveEventEffect (s.setP playerIndex Q2) playerIndex d
      [pLabel ++ " plays event " ++ cardName d ++ "."] none with hR
    set Q3 : PlayerState := { R.1.getP playerIndex with
      discard := (R.1.getP playerIndex).discard ++ [card] } with hQ3
    cases h
    have e1 : countState (s.setP playerIndex Q2) + 1 = countState s := by
      have h1 := countState_setP_eq s playerIndex Q2
      omega
    have e2 : countState R.1 = countState (s.setP playerIndex Q2) := by
      rw [hR]
      exact resolveEventEffect_count _ playerIndex d _ none
    have e3 : countState (R.1.setP playerIndex Q3) = countState R.1 + 1 := by
      have h1 := countState_setP_eq R.1 playerIndex Q3
      have h2 : countPlayer Q3 = countPlayer (R.1.getP playerIndex) + 1 := by
        rw [hQ3]
        exact countPlayer_discardAppend _ _
      omega
    show countState (R.1.setP playerIndex Q3) = countState s
    omega
  · -- impossible for a well-typed registry
    exfalso
    have hmem := alookup_mem reg card.defId d hd
    have hth := hreg _ hmem
    simp only [] at hth
    rcases hth with ht | ht | ht | ht
    · exact hum (by simp [isUnit, ht])
    · exact hum (by simp [isUnit, ht])
    · exact hum (by simp [isUnit, isMission, ht])
    · exact hev ht

/-- `playCard` never loses a card instance, for a well-typed registry. -/
theorem applyPlayCard_count (reg : RegMap) (bases : BasesMap) (s : GameState)
    (playerIndex cardIndex : Nat) (pLabel : String) (s' : GameState)
    (log' : List String)
    (hreg : ∀ e ∈ reg, e.2.type = "personnel" ∨ e.2.type = "ship" ∨
      e.2.type = "mission" ∨ e.2.type = "event")
    (h : applyPlayCard reg bases s playerIndex cardIndex pLabel =
      some (s', log')) :
    countState s ≤ countState s' := by
  unfold applyPlayCard at h
  rcases hget : (s.getP playerIndex).hand.get? cardIndex with _ | card
  · simp only [hget] at h
    cases h
    exact le_of_eq rfl
  · simp only [hget] at h
    rcases hd : getCardDef reg card.defId with _ | d
    · simp only [hd] at h
      cases h
    · simp only [hd] at h
      rcases hpl : playCardPlace reg bases s playerIndex cardIndex card d
          pLabel with _ | r
      · simp only [hpl] at h
        cases h
      · simp only [hpl] at h
        have hplace := playCardPlace_count reg bases s playerIndex cardIndex
          card d pLabel r.1 r.2 hreg hd hget hpl
        have hfst := congrArg (fun x => countState x.1) (Option.some.inj h)
        simp only [finishExecAction_count] at hfst
        exact le_of_eq (hplace.symm.trans hfst)


/-- C2: for every state, player index and action, the total number of card
instances (both players' hands, decks, discards, alert and reserve stacks,
resource-stack tops and supply cards, plus the cylon-threat list) never
decreases under `applyAction`, provided the registry is well-typed, a
supply-card play names an existing resource stack, and a `pass` that ends
the execution phase finds no stale cylon threats; without those conditions
the count can drop (see the counterexample). -/
theorem C2_theorem (reg : RegMap) (bases : BasesMap) (shuf : Shuffler)
    (hlen : ∀ l, (shuf l).length = l.length) (ctr : Nat) (s : GameState)
    (playerIndex : Nat) (action : GameAction)
    (hreg : ∀ e ∈ reg, e.2.type = "personnel" ∨ e.2.type = "ship" ∨
      e.2.type = "mission" ∨ e.2.type = "event")
    (hsup : ∀ ci ts, action = GameAction.playToResource ci true ts →
      ts.getD 0 < (s.getP playerIndex).zones.resourceStacks.length)
    (hpass : action = GameAction.pass → s.cylonThreats = []) :
    ∀ s' log', applyAction reg bases shuf ctr s playerIndex action =
      some (s', log') → countState s ≤ countState s' := by
  intro s' log' h
  unfold applyAction at h
  rcases hcore : applyActionCore reg bases shuf ctr s playerIndex action
      with _ | ⟨s1, lg⟩
  · rw [hcore] at h
    cases h
  · rw [hcore] at h
    cases h
    cases action
    case keepHand =>
      simp only [applyActionCore] at hcore
      have hle := applyKeepHand_count _ _ _ _ _ _ hcore
      exact hle
    case redraw =>
      simp only [applyActionCore] at hcore
      have hle := applyRedraw_count _ _ _ hlen _ _ _ _ _ hcore
      exact hle
    case drawCards =>
      simp only [applyActionCore] at hcore
      have hle := applyDrawCardsCase_count _ hlen _ _ _ hcore
      exact hle
    case playToResource ci asSupply tsi =>
      simp only [applyActionCore] at hcore
      have hsup2 : asSupply = true → tsi.getD 0 <
          (s.getP playerIndex).zones.resourceStacks.length :=
        fun hAS => hsup ci tsi (by rw [hAS])
      have hle := applyPlayToResource_count _ _ _ _ _ _ _ _ _ hsup2 hcore
      exact hle
    case passResource =>
      simp only [applyActionCore] at hcore
      have hle := applyPassResource_count _ _ _ _ _ hcore
      exact hle
    case doneReorder =>
      simp only [applyActionCore] at hcore
      have hle := applyDoneReorder_count _ _ _ hcore
      exact hle
    case playCard ci =>
      simp only [applyActionCore] at hcore
      have hle := applyPlayCard_count _ _ _ _ _ _ _ _ hreg hcore
      exact hle
    case playAbility src tgt =>
      simp only [applyActionCore] at hcore
      have hle := applyPlayAbilityCase_count _ _ _ _ _ _ _ _ _ hcore
      exact hle
    case resolveMission mid uids =>
      simp only [applyActionCore] at hcore
      have hle := applyResolveMissionCase_count _ _ hlen _ _ _ _ _ _ hcore
      exact hle
    case challenge cid oi =>
      simp only [applyActionCore] at hcore
      have hle := applyChallengeCase_count _ _ _ _ _ _ _ hcore
      exact hle
    case defend did =>
      simp only [applyActionCore] at hcore
      have hle := applyDefendCase_count _ _ _ _ _ _ _ hcore
      exact hle
    case challengePass =>
      simp only [applyActionCore] at hcore
      have hle := applyChallengePassCase_count _ _ hlen _ _ _ _ _ _ hcore
      exact hle
    case playEventInChallenge ci tgt =>
      simp only [applyActionCore] at hcore
      have hle := applyPlayEventCase_count _ _ _ _ _ _ _ _ _ hcore
      exact hle
    case pass =>
      simp only [applyActionCore] at hcore
      have hle := applyPassCase_count _ _ hlen _ _ _ _ _ _ (hpass rfl) hcore
      exact hle
    case challengeCylon cid ti =>
      simp only [applyActionCore] at hcore
      have hle := applyChallengeCylonCase_count _ _ _ _ _ _ _ _ hcore
      exact hle
    case passCylon =>
      simp only [applyActionCore] at hcore
      have hle := applyPassCylonCase_count _ _ _ _ _ _ hcore
      exact hle


def c2reg : RegMap :=
  [("c1", { id := "c1", title := some "C2T", type := "personnel" })]

def c2state : GameState :=
  mkState { blankPlayer "b" with hand := [inst "i1" "c1"] } (blankPlayer "b")
    GamePhase.ready

theorem C2_counterexample :
    countState c2state = 1 ∧
    (applyAction c2reg [] id 0 c2state 0
        (GameAction.playToResource 0 true (some 0))).map
      (fun r => countState r.1) = some 0 := by decide

def c2wpair : GameState × List String :=
  (applyAction c2reg [] id 0 c2state 0 GameAction.passResource).getD
    (c2state, [])

theorem C2_witness :
    applyAction c2reg [] id 0 c2state 0 GameAction.passResource =
      some (c2wpair.1, c2wpair.2) ∧
    countState c2state ≤ countState c2wpair.1 :=
  ⟨by decide,
   C2_theorem c2reg [] id (fun l => rfl) 0 c2state 0 GameAction.passResource
     (by decide) (fun ci ts hcontra => nomatch hcontra)
     (fun hcontra => nomatch hcontra) c2wpair.1 c2wpair.2 (by decide)⟩


-- ============================================================
-- C1 support: well-formedness under which no action throws
-- ============================================================

/-- A card instance whose definition resolves in the registry. -/
def cardOK (reg : RegMap) (c : CardInstance) : Bool :=
  (getCardDef reg c.defId).isSome

/-- A unit stack that is non-empty and all of whose cards resolve. -/
def stackOK (reg : RegMap) (st : UnitStack) : Bool :=
  !st.cards.isEmpty && st.cards.all (cardOK reg)

/-- All unit stacks of a zone pair are well-formed. -/
def zonesOK (reg : RegMap) (z : PlayerZones) : Bool :=
  z.alert.all (stackOK reg) && z.reserve.all (stackOK reg)

/-- A player whose base resolves and all of whose hand, deck, discard and
unit-stack cards resolve, with no empty unit stacks in play. -/
def playerOK (reg : RegMap) (bases : BasesMap) (p : PlayerState) : Bool :=
  (alookup bases p.baseDefId).isSome &&
  p.hand.all (cardOK reg) && p.deck.all (cardOK reg) &&
  p.discard.all (cardOK reg) && zonesOK reg p.zones

/-- An open cylon challenge always records the cylon player's index. -/
def challengeOK (s : GameState) : Bool :=
  match s.challenge with
  | none => true
  | some c => !c.isCylonChallenge || c.cylonPlayerIndex.isSome

/-- The state well-formedness under which no lookup inside `applyAction`
can throw. -/
def stateWF (reg : RegMap) (bases : BasesMap) (s : GameState) : Bool :=
  playerOK reg bases s.players.p0 && playerOK reg bases s.players.p1 &&
    challengeOK s

/-- The weaker zone condition threaded through the challenge/cylon tails:
every in-play card of both players resolves (emptiness not needed). -/
def zonesCardsOK (reg : RegMap) (z : PlayerZones) : Bool :=
  z.alert.all (fun st => st.cards.all (cardOK reg)) &&
  z.reserve.all (fun st => st.cards.all (cardOK reg))

def stateZonesOK (reg : RegMap) (s : GameState) : Bool :=
  zonesCardsOK reg s.players.p0.zones && zonesCardsOK reg s.players.p1.zones

theorem cardOK_some (reg : RegMap) (c : CardInstance)
    (h : cardOK reg c = true) : ∃ d, getCardDef reg c.defId = some d := by
  rw [cardOK, Option.isSome_iff_exists] at h
  exact h

theorem all_mem {α : Type} (p : α → Bool) (l : List α)
    (h : l.all p = true) (x : α) (hx : x ∈ l) : p x = true :=
  List.all_eq_true.mp h x hx

theorem all_eraseIdx {α : Type} (p : α → Bool) (l : List α) (i : Nat)
    (h : l.all p = true) : (l.eraseIdx i).all p = true := by
  rw [List.all_eq_true]
  intro x hx
  exact all_mem p l h x (List.eraseIdx_subset l i hx)

theorem all_of_get? {α : Type} (p : α → Bool) (l : List α) (i : Nat) (x : α)
    (h : l.all p = true) (hg : l.get? i = some x) : p x = true :=
  all_mem p l h x (List.get?_mem hg)

theorem stackOK_cards (reg : RegMap) (st : UnitStack)
    (h : stackOK reg st = true) : st.cards.all (cardOK reg) = true := by
  rw [stackOK, Bool.and_eq_true] at h
  exact h.2

theorem zonesOK_cards (reg : RegMap) (z : PlayerZones)
    (h : zonesOK reg z = true) : zonesCardsOK reg z = true := by
  rw [zonesOK, Bool.and_eq_true] at h
  rw [zonesCardsOK, Bool.and_eq_true]
  constructor
  · rw [List.all_eq_true]
    intro st hst
    exact stackOK_cards reg st (all_mem _ _ h.1 st hst)
  · rw [List.all_eq_true]
    intro st hst
    exact stackOK_cards reg st (all_mem _ _ h.2 st hst)

/-- Unpack `playerOK` into its five components. -/
theorem playerOK_parts (reg : RegMap) (bases : BasesMap) (p : PlayerState)
    (h : playerOK reg bases p = true) :
    (alookup bases p.baseDefId).isSome = true ∧
    p.hand.all (cardOK reg) = true ∧ p.deck.all (cardOK reg) = true ∧
    p.discard.all (cardOK reg) = true ∧ zonesOK reg p.zones = true := by
  rw [playerOK] at h
  simp only [Bool.and_eq_true] at h
  exact ⟨h.1.1.1.1, h.1.1.1.2, h.1.1.2, h.1.2, h.2⟩

/-- Rebuild `playerOK` from its five components. -/
theorem playerOK_intro (reg : RegMap) (bases : BasesMap) (p : PlayerState)
    (h1 : (alookup bases p.baseDefId).isSome = true)
    (h2 : p.hand.all (cardOK reg) = true) (h3 : p.deck.all (cardOK reg) = true)
    (h4 : p.discard.all (cardOK reg) = true) (h5 : zonesOK reg p.zones = true) :
    playerOK reg bases p = true := by
  rw [playerOK]
  simp only [Bool.and_eq_true]
  exact ⟨⟨⟨⟨h1, h2⟩, h3⟩, h4⟩, h5⟩

theorem stateWF_parts (reg : RegMap) (bases : BasesMap) (s : GameState)
    (h : stateWF reg bases s = true) :
    playerOK reg bases s.players.p0 = true ∧
    playerOK reg bases s.players.p1 = true ∧ challengeOK s = true := by
  rw [stateWF] at h
  simp only [Bool.and_eq_true] at h
  exact ⟨h.1.1, h.1.2, h.2⟩

/-- Any index selects a well-formed player. -/
theorem playerOK_getP (reg : RegMap) (bases : BasesMap) (s : GameState)
    (i : Nat) (h : stateWF reg bases s = true) :
    playerOK reg bases (s.getP i) = true := by
  have hp := stateWF_parts reg bases s h
  unfold GameState.getP Players.get
  by_cases hi : i = 0 <;> simp [hi, hp.1, hp.2.1]

theorem stateZonesOK_of_WF (reg : RegMap) (bases : BasesMap) (s : GameState)
    (h : stateWF reg bases s = true) : stateZonesOK reg s = true := by
  have hp := stateWF_parts reg bases s h
  rw [stateZonesOK, Bool.and_eq_true]
  exact ⟨zonesOK_cards reg _ (playerOK_parts reg bases _ hp.1).2.2.2.2,
         zonesOK_cards reg _ (playerOK_parts reg bases _ hp.2.1).2.2.2.2⟩

theorem stateZonesOK_getP (reg : RegMap) (s : GameState) (i : Nat)
    (h : stateZonesOK reg s = true) :
    zonesCardsOK reg (s.getP i).zones = true := by
  rw [stateZonesOK, Bool.and_eq_true] at h
  unfold GameState.getP Players.get
  by_cases hi : i = 0 <;> simp [hi, h.1, h.2]

/-- Updating one player with zone-resolving cards keeps the state zone
condition. -/
theorem setP_stateZonesOK (reg : RegMap) (s : GameState) (i : Nat)
    (q : PlayerState) (h : stateZonesOK reg s = true)
    (hq : zonesCardsOK reg q.zones = true) :
    stateZonesOK reg (s.setP i q) = true := by
  rw [stateZonesOK, Bool.and_eq_true] at h
  unfold GameState.setP Players.set
  by_cases hi : i = 0 <;>
    simp [hi, stateZonesOK, h.1, h.2, hq]

-- ============================================================
-- Mystic reveal: never throws on a well-formed player, preserves
-- well-formedness, and reveals a resolving card
-- ============================================================

/-- Reveal never throws when the deck and discard resolve and the shuffler
permutes. -/
theorem revealMysticValue_isSome (reg : RegMap) (shuf : Shuffler)
    (hperm : ∀ l, (shuf l).Perm l) (ctr : Nat) (p : PlayerState)
    (label : String)
    (hdeck : p.deck.all (cardOK reg) = true)
    (hdisc : p.discard.all (cardOK reg) = true) :
    (revealMysticValue reg shuf ctr p label).isSome = true := by
  unfold revealMysticValue
  rcases hdk : p.deck with _ | ⟨c, rest⟩
  · rcases hdc : p.discard with _ | ⟨d0, ds⟩
    · rfl
    · simp only []
      rcases hsh : shuf (d0 :: ds) with _ | ⟨e, es⟩
      · exfalso
        have hl := (hperm (d0 :: ds)).length_eq
        rw [hsh] at hl
        simp at hl
      · have hmem : e ∈ d0 :: ds := by
          have h1 : e ∈ shuf (d0 :: ds) := by
            rw [hsh]
            exact List.mem_cons_self _ _
          exact (hperm (d0 :: ds)).mem_iff.mp h1
        have he : cardOK reg e = true := by
          rw [hdc] at hdisc
          exact all_mem _ _ hdisc e hmem
        rcases cardOK_some reg e he with ⟨d, hg⟩
        simp [hg]
  · have hc : cardOK reg c = true := by
      rw [hdk] at hdeck
      exact all_mem _ _ hdeck c (List.mem_cons_self _ _)
    rcases cardOK_some reg c hc with ⟨d, hg⟩
    simp [hg]

/-- The revealed player keeps a resolving deck and discard; the hand, zones
and base are untouched. -/
theorem revealMysticValue_pres (reg : RegMap) (shuf : Shuffler)
    (hperm : ∀ l, (shuf l).Perm l) (ctr : Nat) (p : PlayerState)
    (label : String) (c' : Nat) (v : Int) (card : CardInstance)
    (p' : PlayerState) (lg : List String)
    (hdeck : p.deck.all (cardOK reg) = true)
    (hdisc : p.discard.all (cardOK reg) = true)
    (h : revealMysticValue reg shuf ctr p label = some (c', v, card, p', lg)) :
    p'.deck.all (cardOK reg) = true ∧ p'.discard.all (cardOK reg) = true ∧
      p'.hand = p.hand ∧ p'.zones = p.zones ∧ p'.baseDefId = p.baseDefId := by
  unfold revealMysticValue at h
  rcases hdk : p.deck with _ | ⟨c, rest⟩
  · simp only [hdk] at h
    rcases hdc : p.discard with _ | ⟨d0, ds⟩
    · simp only [hdc] at h
      cases h
      exact ⟨hdeck, hdisc, rfl, rfl, rfl⟩
    · simp only [hdc] at h
      rcases hsh : shuf (d0 :: ds) with _ | ⟨e, es⟩
      · simp only [hsh] at h
        cases h
      · simp only [hsh] at h
        have hall : (e :: es).all (cardOK reg) = true := by
          rw [← hsh, List.all_eq_true]
          intro x hx
          have hx2 := (hperm (d0 :: ds)).mem_iff.mp hx
          rw [hdc] at hdisc
          exact all_mem _ _ hdisc x hx2
        rw [List.all_cons, Bool.and_eq_true] at hall
        rcases hg : getCardDef reg e.defId with _ | d
        · simp only [hg] at h
          cases h
        · simp only [hg] at h
          cases h
          refine ⟨hall.2, ?_, rfl, rfl, rfl⟩
          simp only [List.nil_append, List.all_cons, List.all_nil,
            Bool.and_true]
          exact hall.1
  · simp only [hdk] at h
    rw [hdk, List.all_cons, Bool.and_eq_true] at hdeck
    rcases hg : getCardDef reg c.defId with _ | d
    · simp only [hg] at h
      cases h
    · simp only [hg] at h
      cases h
      refine ⟨hdeck.2, ?_, rfl, rfl, rfl⟩
      rw [List.all_eq_true]
      intro x hx
      simp only [List.mem_append, List.mem_singleton] at hx
      rcases hx with hx | hx
      · exact all_mem _ _ hdisc x hx
      · rw [hx]
        exact hdeck.1

/-- Reveal keeps the whole player well-formed. -/
theorem revealMysticValue_playerOK (reg : RegMap) (bases : BasesMap)
    (shuf : Shuffler) (hperm : ∀ l, (shuf l).Perm l) (ctr : Nat)
    (p : PlayerState) (label : String) (c' : Nat) (v : Int)
    (card : CardInstance) (p' : PlayerState) (lg : List String)
    (hp : playerOK reg bases p = true)
    (h : revealMysticValue reg shuf ctr p label = some (c', v, card, p', lg)) :
    playerOK reg bases p' = true := by
  have hparts := playerOK_parts reg bases p hp
  have hpres := revealMysticValue_pres reg shuf hperm ctr p label c' v card p' lg
    hparts.2.2.1 hparts.2.2.2.1 h
  refine playerOK_intro reg bases p' ?_ ?_ hpres.1 hpres.2.1 ?_
  · rw [hpres.2.2.2.2]
    exact hparts.1
  · rw [hpres.2.2.1]
    exact hparts.2.1
  · rw [hpres.2.2.2.1]
    exact hparts.2.2.2.2

/-- The revealed card resolves, provided the placeholder id
`condition-one` (used on an empty deck and discard) is registered. -/
theorem revealMysticValue_cardOK (reg : RegMap) (shuf : Shuffler)
    (ctr : Nat) (p : PlayerState)
    (label : String) (c' : Nat) (v : Int) (card : CardInstance)
    (p' : PlayerState) (lg : List String)
    (hco : (alookup reg "condition-one").isSome = true)
    (h : revealMysticValue reg shuf ctr p label = some (c', v, card, p', lg)) :
    cardOK reg card = true := by
  unfold revealMysticValue at h
  rcases hdk : p.deck with _ | ⟨c, rest⟩
  · simp only [hdk] at h
    rcases hdc : p.discard with _ | ⟨d0, ds⟩
    · simp only [hdc] at h
      cases h
      exact hco
    · simp only [hdc] at h
      rcases hsh : shuf (d0 :: ds) with _ | ⟨e, es⟩
      · simp only [hsh] at h
        cases h
      · simp only [hsh] at h
        rcases hg : getCardDef reg e.defId with _ | d
        · simp only [hg] at h
          cases h
        · simp only [hg] at h
          cases h
          rw [cardOK, hg]
          rfl
  · simp only [hdk] at h
    rcases hg : getCardDef reg c.defId with _ | d
    · simp only [hg] at h
      cases h
    · simp only [hg] at h
      cases h
      rw [cardOK, hg]
      rfl


-- ============================================================
-- Small lookup helpers never throw on well-formed inputs
-- ============================================================

theorem zonesCardsOK_parts (reg : RegMap) (z : PlayerZones)
    (h : zonesCardsOK reg z = true) :
    z.alert.all (fun st => st.cards.all (cardOK reg)) = true ∧
    z.reserve.all (fun st => st.cards.all (cardOK reg)) = true := by
  rw [zonesCardsOK, Bool.and_eq_true] at h
  exact h

theorem getUnitPower_isSome (reg : RegMap) (st : UnitStack)
    (h : st.cards.all (cardOK reg) = true) :
    (getUnitPower reg st).isSome = true := by
  unfold getUnitPower
  rcases hh : st.cards.head? with _ | c
  · rfl
  · have hc : cardOK reg c = true :=
      all_mem _ _ h c (List.mem_of_mem_head? hh)
    rcases cardOK_some reg c hc with ⟨d, hg⟩
    simp [hg]

theorem findOverlayInList_isSome (reg : RegMap) (t : String) :
    ∀ (l : List UnitStack) (i : Nat), l.all (stackOK reg) = true →
      (findOverlayInList reg l t i).isSome = true
  | [], i, _ => rfl
  | st :: rest, i, h => by
    rw [List.all_cons, Bool.and_eq_true] at h
    have hst := h.1
    rw [stackOK, Bool.and_eq_true] at hst
    unfold findOverlayInList
    rcases hh : st.cards.head? with _ | c
    · rw [List.head?_eq_none_iff] at hh
      rw [hh] at hst
      simp at hst
    · have hc : cardOK reg c = true :=
        all_mem _ _ hst.2 c (List.mem_of_mem_head? hh)
      rcases cardOK_some reg c hc with ⟨d, hg⟩
      simp only [hg]
      split
      · rfl
      · exact findOverlayInList_isSome reg t rest (i + 1) h.2

theorem findOverlayTarget_isSome (reg : RegMap) (p : PlayerState) (d : CardDef)
    (h : zonesOK reg p.zones = true) :
    (findOverlayTarget reg p d).isSome = true := by
  rw [zonesOK, Bool.and_eq_true] at h
  unfold findOverlayTarget
  rcases d.title with _ | t
  · rfl
  · have ha := findOverlayInList_isSome reg t p.zones.alert 0 h.1
    rcases hra : findOverlayInList reg p.zones.alert t 0 with _ | oi
    · rw [hra] at ha
      cases ha
    · simp only [hra]
      rcases oi with _ | i
      · have hr := findOverlayInList_isSome reg t p.zones.reserve 0 h.2
        rcases hrr : findOverlayInList reg p.zones.reserve t 0 with _ | oj
        · rw [hrr] at hr
          cases hr
        · simp only [hrr]
          rcases oj with _ | j <;> rfl
      · rfl

theorem findDefInCards_isSome (reg : RegMap) (iid : String) :
    ∀ (cs : List CardInstance), cs.all (cardOK reg) = true →
      (findDefInCards reg cs iid).isSome = true
  | [], _ => rfl
  | c :: rest, h => by
    rw [List.all_cons, Bool.and_eq_true] at h
    unfold findDefInCards
    split
    · rcases cardOK_some reg c h.1 with ⟨d, hg⟩
      simp [hg]
    · exact findDefInCards_isSome reg iid rest h.2

theorem findDefInStacks_isSome (reg : RegMap) (iid : String) :
    ∀ (l : List UnitStack),
      l.all (fun st => st.cards.all (cardOK reg)) = true →
      (findDefInStacks reg l iid).isSome = true
  | [], _ => rfl
  | st :: rest, h => by
    rw [List.all_cons, Bool.and_eq_true] at h
    unfold findDefInStacks
    have hc := findDefInCards_isSome reg iid st.cards h.1
    rcases hfc : findDefInCards reg st.cards iid with _ | od
    · rw [hfc] at hc
      cases hc
    · rcases od with _ | d
      · exact findDefInStacks_isSome reg iid rest h.2
      · rfl

theorem findDefInPlayer_isSome (reg : RegMap) (p : PlayerState) (iid : String)
    (h : zonesCardsOK reg p.zones = true) :
    (findDefInPlayer reg p iid).isSome = true := by
  have hp := zonesCardsOK_parts reg p.zones h
  unfold findDefInPlayer
  have ha := findDefInStacks_isSome reg iid p.zones.alert hp.1
  rcases hfa : findDefInStacks reg p.zones.alert iid with _ | od
  · rw [hfa] at ha
    cases ha
  · rcases od with _ | d
    · exact findDefInStacks_isSome reg iid p.zones.reserve hp.2
    · rfl

theorem findCardDefByInstanceId_isSome (reg : RegMap) (s : GameState)
    (iid : String) (h : stateZonesOK reg s = true) :
    (findCardDefByInstanceId reg s iid).isSome = true := by
  rw [stateZonesOK, Bool.and_eq_true] at h
  unfold findCardDefByInstanceId
  have h0 := findDefInPlayer_isSome reg s.players.p0 iid h.1
  rcases hf0 : findDefInPlayer reg s.players.p0 iid with _ | od
  · rw [hf0] at h0
    cases h0
  · rcases od with _ | d
    · exact findDefInPlayer_isSome reg s.players.p1 iid h.2
    · rfl

theorem threatLevelOfZone_isSome (reg : RegMap) :
    ∀ (l : List UnitStack),
      l.all (fun st => st.cards.all (cardOK reg)) = true →
      (threatLevelOfZone reg l).isSome = true
  | [], _ => rfl
  | st :: rest, h => by
    rw [List.all_cons, Bool.and_eq_true] at h
    have hr := threatLevelOfZone_isSome reg rest h.2
    unfold threatLevelOfZone
    rcases hh : st.cards.head? with _ | c
    · exact hr
    · have hc : cardOK reg c = true :=
        all_mem _ _ h.1 c (List.mem_of_mem_head? hh)
      rcases cardOK_some reg c hc with ⟨d, hg⟩
      simp only []
      by_cases hf : c.faceUp = true
      · rw [if_pos hf, hg]
        rcases hrr : threatLevelOfZone reg rest with _ | n
        · rw [hrr] at hr
          cases hr
        · rfl
      · rw [if_neg hf]
        exact hr

theorem threatLevelOfPlayer_isSome (reg : RegMap) (p : PlayerState)
    (h : zonesCardsOK reg p.zones = true) :
    (threatLevelOfPlayer reg p).isSome = true := by
  have hp := zonesCardsOK_parts reg p.zones h
  unfold threatLevelOfPlayer
  have ha := threatLevelOfZone_isSome reg p.zones.alert hp.1
  have hr := threatLevelOfZone_isSome reg p.zones.reserve hp.2
  rcases hfa : threatLevelOfZone reg p.zones.alert with _ | a
  · rw [hfa] at ha
    cases ha
  · rcases hfr : threatLevelOfZone reg p.zones.reserve with _ | b
    · rw [hfr] at hr
      cases hr
    · simp [bind, hfa, hfr]

theorem computeCylonThreatLevel_isSome (reg : RegMap) (s : GameState)
    (h : stateZonesOK reg s = true) :
    (computeCylonThreatLevel reg s).isSome = true := by
  rw [stateZonesOK, Bool.and_eq_true] at h
  unfold computeCylonThreatLevel
  have h0 := threatLevelOfPlayer_isSome reg s.players.p0 h.1
  have h1 := threatLevelOfPlayer_isSome reg s.players.p1 h.2
  rcases hf0 : threatLevelOfPlayer reg s.players.p0 with _ | a
  · rw [hf0] at h0
    cases h0
  · rcases hf1 : threatLevelOfPlayer reg s.players.p1 with _ | b
    · rw [hf1] at h1
      cases h1
    · simp [bind, hf0, hf1]

theorem readiedNames_isSome (reg : RegMap) :
    ∀ (l : List UnitStack),
      (∀ st ∈ l, st.cards.head?.map (fun c => c.faceUp) = some true) →
      (∀ st ∈ l, st.cards.all (cardOK reg) = true) →
      (readiedNames reg l).isSome = true
  | [], _, _ => rfl
  | st :: rest, hface, hcards => by
    unfold readiedNames
    rcases hh : st.cards.head? with _ | c
    · have := hface st (List.mem_cons_self _ _)
      rw [hh] at this
      cases this
    · have hc : cardOK reg c = true :=
        all_mem _ _ (hcards st (List.mem_cons_self _ _)) c
          (List.mem_of_mem_head? hh)
      rcases cardOK_some reg c hc with ⟨d, hg⟩
      simp only [hg]
      have hr := readiedNames_isSome reg rest
        (fun st2 h2 => hface st2 (List.mem_cons_of_mem _ h2))
        (fun st2 h2 => hcards st2 (List.mem_cons_of_mem _ h2))
      rcases hrr : readiedNames reg rest with _ | ns
      · rw [hrr] at hr
        cases hr
      · simp [hrr]

theorem readyPlayerStep_isSome (reg : RegMap) (p : PlayerState)
    (label : String) (log : List String)
    (h : p.zones.reserve.all (fun st => st.cards.all (cardOK reg)) = true) :
    (readyPlayerStep reg p label log).isSome = true := by
  unfold readyPlayerStep
  simp only [List.partition_eq_filter_filter]
  split
  · have hr := readiedNames_isSome reg
      (p.zones.reserve.filter
        (fun st => st.cards.head?.map (fun c => c.faceUp) = some true))
      (fun st hst => of_decide_eq_true ((List.mem_filter.mp hst).2))
      (fun st hst => all_mem _ _ h st (List.mem_filter.mp hst).1)
    rcases hrr : readiedNames reg
        (p.zones.reserve.filter
          (fun st => st.cards.head?.map (fun c => c.faceUp) = some true))
        with _ | ns
    · rw [hrr] at hr
      cases hr
    · simp [hrr]
  · rfl

theorem startReadyPhase_isSome (reg : RegMap) (s : GameState)
    (log : List String) (h : stateZonesOK reg s = true) :
    (startReadyPhase reg s log).isSome = true := by
  rw [stateZonesOK, Bool.and_eq_true] at h
  unfold startReadyPhase
  have h0 := readyPlayerStep_isSome reg s.players.p0 "Player 1"
    (log ++ ["--- Turn " ++ toString (s.turn + 1) ++ " ---"])
    (zonesCardsOK_parts reg _ h.1).2
  rcases hr0 : readyPlayerStep reg s.players.p0 "Player 1"
      (log ++ ["--- Turn " ++ toString (s.turn + 1) ++ " ---"]) with _ | pr0
  · rw [hr0] at h0
    cases h0
  · simp only [hr0]
    have h1 := readyPlayerStep_isSome reg s.players.p1 "Player 2" pr0.2
      (zonesCardsOK_parts reg _ h.2).2
    rcases hr1 : readyPlayerStep reg s.players.p1 "Player 2" pr0.2 with _ | pr1
    · rw [hr1] at h1
      cases h1
    · simp [hr1]

theorem checkSetupComplete_isSome (reg : RegMap) (s : GameState)
    (log : List String) (h : stateZonesOK reg s = true) :
    (checkSetupComplete reg s log).isSome = true := by
  unfold checkSetupComplete
  split
  · exact startReadyPhase_isSome reg s _ h
  · rfl

/-- The head-match recorded by a successful unit search. -/
theorem findUnitInZoneAux_head :
    ∀ (l : List UnitStack) (iid : String) (k : Nat) (st : UnitStack) (i : Nat),
      findUnitInZoneAux l iid k = some (st, i) →
      st.cards.head?.map (fun c => c.instanceId) = some iid
  | [], _, _, _, _, h => by simp [findUnitInZoneAux] at h
  | s0 :: rest, iid, k, st, i, h => by
    unfold findUnitInZoneAux at h
    split at h
    · rename_i hc
      cases h
      exact hc
    · exact findUnitInZoneAux_head rest iid (k + 1) st i h

theorem findUnitInAnyZone_head (p : PlayerState) (iid : String)
    (st : UnitStack) (tag : ZoneTag) (i : Nat)
    (h : findUnitInAnyZone p iid = some (st, tag, i)) :
    st.cards.head?.map (fun c => c.instanceId) = some iid := by
  unfold findUnitInAnyZone at h
  rcases ha : findUnitInZone p.zones.alert iid with _ | ⟨st', i'⟩
  · rw [ha] at h
    rcases hr : findUnitInZone p.zones.reserve iid with _ | ⟨st'', i''⟩
    · rw [hr] at h
      cases h
    · rw [hr] at h
      cases h
      exact findUnitInZoneAux_head _ _ _ _ _ hr
  · rw [ha] at h
    cases h
    exact findUnitInZoneAux_head _ _ _ _ _ ha

theorem findUnitInAnyZone_mem (p : PlayerState) (iid : String)
    (st : UnitStack) (tag : ZoneTag) (i : Nat)
    (h : findUnitInAnyZone p iid = some (st, tag, i)) :
    st ∈ p.zones.alert ∨ st ∈ p.zones.reserve := by
  rcases findUnitInAnyZone_spec p iid st tag i h with ⟨-, hg⟩ | ⟨-, hg⟩
  · exact Or.inl (List.get?_mem hg)
  · exact Or.inr (List.get?_mem hg)

/-- Defeat never throws when every in-play card of the player resolves. -/
theorem defeatUnit_isSome (reg : RegMap) (p : PlayerState) (iid : String)
    (log : List String) (h : zonesCardsOK reg p.zones = true) :
    (defeatUnit reg p iid log).isSome = true := by
  have hp := zonesCardsOK_parts reg p.zones h
  unfold defeatUnit
  rcases hf : findUnitInAnyZone p iid with _ | ⟨st, tag, i⟩
  · rfl
  · have hhead := findUnitInAnyZone_head p iid st tag i hf
    obtain ⟨c, hh⟩ : ∃ c, st.cards.head? = some c := by
      rcases hx : st.cards.head? with _ | c
      · rw [hx] at hhead
        cases hhead
      · exact ⟨c, rfl⟩
    have hcards : st.cards.all (cardOK reg) = true := by
      rcases findUnitInAnyZone_mem p iid st tag i hf with hm | hm
      · exact all_mem _ _ hp.1 st hm
      · exact all_mem _ _ hp.2 st hm
    have hc : cardOK reg c = true :=
      all_mem _ _ hcards c (List.mem_of_mem_head? hh)
    rcases cardOK_some reg c hc with ⟨d, hg⟩
    simp only []
    rw [hh]
    simp only []
    rw [hg]
    rcases tag <;> rfl


-- ============================================================
-- Zone preservation through the challenge / cylon tails
-- ============================================================

theorem commitUnit_zonesOK (reg : RegMap) (p : PlayerState) (iid : String)
    (h : zonesCardsOK reg p.zones = true) :
    zonesCardsOK reg (commitUnit p iid).zones = true := by
  have hp := zonesCardsOK_parts reg p.zones h
  unfold commitUnit
  rcases hf : findUnitInAnyZone p iid with _ | ⟨st, tag, i⟩
  · exact h
  · rcases tag
    · simp only []
      rw [zonesCardsOK, Bool.and_eq_true]
      refine ⟨all_eraseIdx _ _ _ hp.1, ?_⟩
      rw [List.all_eq_true]
      intro x hx2
      rcases List.mem_append.mp hx2 with hm2 | hm2
      · exact all_mem _ _ hp.2 x hm2
      · rw [List.mem_singleton] at hm2
        subst hm2
        rcases findUnitInAnyZone_mem p iid x ZoneTag.alert i hf with hm | hm
        · exact all_mem _ _ hp.1 x hm
        · exact all_mem _ _ hp.2 x hm
    · simp only []
      exact h

theorem defeatUnit_zonesOK (reg : RegMap) (p : PlayerState) (iid : String)
    (log : List String) (pr : PlayerState × List String)
    (h : defeatUnit reg p iid log = some pr)
    (hz : zonesCardsOK reg p.zones = true) :
    zonesCardsOK reg pr.1.zones = true := by
  have hp := zonesCardsOK_parts reg p.zones hz
  unfold defeatUnit at h
  rcases hf : findUnitInAnyZone p iid with _ | ⟨st, tag, i⟩
  · simp only [hf] at h
    cases h
    exact hz
  · simp only [hf] at h
    rcases hx : st.cards.head? with _ | c
    · simp only [hx] at h
      cases h
    · simp only [hx] at h
      rcases hg : getCardDef reg c.defId with _ | d
      · simp only [hg] at h
        cases h
      · simp only [hg] at h
        rcases tag
        · simp only [] at h
          cases h
          rw [zonesCardsOK, Bool.and_eq_true]
          exact ⟨all_eraseIdx _ _ _ hp.1, hp.2⟩
        · simp only [] at h
          cases h
          rw [zonesCardsOK, Bool.and_eq_true]
          exact ⟨hp.1, all_eraseIdx _ _ _ hp.2⟩

theorem pushThreatsToDiscard_stateZonesOK (reg : RegMap) :
    ∀ (ts : List CylonThreatCard) (s : GameState),
      stateZonesOK reg s = true →
      stateZonesOK reg (pushThreatsToDiscard s ts) = true
  | [], _, h => h
  | t :: rest, s, h =>
    pushThreatsToDiscard_stateZonesOK reg rest _ (by
      apply setP_stateZonesOK reg s t.ownerIndex _ h
      have hzz : (discardPlus (s.getP t.ownerIndex) t.card).zones =
          (s.getP t.ownerIndex).zones := rfl
      rw [hzz]
      exact stateZonesOK_getP reg s t.ownerIndex h)

/-- `stateZonesOK` only looks at the players. -/
theorem stateZonesOK_congr (reg : RegMap) {t s : GameState}
    (h : t.players = s.players) :
    stateZonesOK reg t = stateZonesOK reg s := by
  unfold stateZonesOK
  rw [h]

theorem endCylonPhase_isSome (reg : RegMap) (s : GameState) (log : List String)
    (h : stateZonesOK reg s = true) :
    (endCylonPhase reg s log).isSome = true := by
  unfold endCylonPhase
  simp only []
  have h1 : stateZonesOK reg (pushThreatsToDiscard s s.cylonThreats) = true :=
    pushThreatsToDiscard_stateZonesOK reg s.cylonThreats s h
  have h2 : stateZonesOK reg
      { pushThreatsToDiscard s s.cylonThreats with cylonThreats := [] } = true := by
    rw [stateZonesOK_congr reg rfl]
    exact h1
  rcases hcv : checkVictory
      { pushThreatsToDiscard s s.cylonThreats with cylonThreats := [] }
      (log ++ ["Cylon phase ends. Turn ends."]) with ⟨s3, l3⟩
  simp only []
  have hpl := checkVictory_players
    { pushThreatsToDiscard s s.cylonThreats with cylonThreats := [] }
    (log ++ ["Cylon phase ends. Turn ends."])
  rw [hcv] at hpl
  simp only [] at hpl
  split
  · apply startReadyPhase_isSome
    rw [stateZonesOK_congr reg hpl]
    exact h2
  · rfl

theorem cylonChallengeTail_isSome (reg : RegMap) (s : GameState)
    (log : List String) (h : stateZonesOK reg s = true) :
    (cylonChallengeTail reg s log).isSome = true := by
  unfold cylonChallengeTail
  simp only []
  have h1 : stateZonesOK reg
      (resetConsecutivePasses { s with challenge := none }) = true := by
    have he : stateZonesOK reg
        (resetConsecutivePasses { s with challenge := none }) =
        stateZonesOK reg s := rfl
    rw [he]
    exact h
  rcases hcv : checkVictory (resetConsecutivePasses { s with challenge := none })
      log with ⟨s3, l3⟩
  simp only []
  have hpl := checkVictory_players
    (resetConsecutivePasses { s with challenge := none }) log
  rw [hcv] at hpl
  simp only [] at hpl
  split
  · split
    · apply endCylonPhase_isSome
      rw [stateZonesOK_congr reg hpl]
      exact h1
    · rfl
  · rfl


-- ============================================================
-- Cylon phase start never throws on a well-formed state
-- ============================================================

theorem getP_congr {t s : GameState} (j : Nat) (h : t.players = s.players) :
    t.getP j = s.getP j := by
  unfold GameState.getP
  rw [h]

theorem revealThreatFor_isSome (reg : RegMap) (shuf : Shuffler)
    (hperm : ∀ l, (shuf l).Perm l) (ctr : Nat) (s : GameState) (i : Nat)
    (log : List String)
    (hdeck : (s.getP i).deck.all (cardOK reg) = true)
    (hdisc : (s.getP i).discard.all (cardOK reg) = true)
    (hco : (alookup reg "condition-one").isSome = true) :
    (revealThreatFor reg shuf ctr s i log).isSome = true := by
  unfold revealThreatFor
  have hrv := revealMysticValue_isSome reg shuf hperm ctr (s.getP i)
    ("Player " ++ toString (i + 1)) hdeck hdisc
  rcases hr : revealMysticValue reg shuf ctr (s.getP i)
      ("Player " ++ toString (i + 1)) with _ | ⟨ctrX, v, card, p', rlog⟩
  · rw [hr] at hrv
    cases hrv
  · simp only []
    have hcOK := revealMysticValue_cardOK reg shuf ctr (s.getP i)
      ("Player " ++ toString (i + 1)) ctrX v card p' rlog hco hr
    rcases cardOK_some reg card hcOK with ⟨d, hg⟩
    rw [hg]
    rfl

theorem revealThreatFor_elim (reg : RegMap) (shuf : Shuffler) (ctr : Nat)
    (s : GameState) (i : Nat) (log : List String)
    (pr : Nat × GameState × List String)
    (h : revealThreatFor reg shuf ctr s i log = some pr) :
    ∃ v card p' rlog tp,
      revealMysticValue reg shuf ctr (s.getP i)
          ("Player " ++ toString (i + 1)) = some (pr.1, v, card, p', rlog) ∧
      pr.2.1.players = (s.setP i p').players ∧
      pr.2.1.cylonThreats =
        s.cylonThreats ++ [{ card := card, power := tp, ownerIndex := i }] := by
  unfold revealThreatFor at h
  rcases hr : revealMysticValue reg shuf ctr (s.getP i)
      ("Player " ++ toString (i + 1)) with _ | ⟨ctrX, v, card, p', rlog⟩
  · simp only [hr] at h
    cases h
  · simp only [hr] at h
    rcases hg : getCardDef reg card.defId with _ | d
    · simp only [hg] at h
      cases h
    · simp only [hg] at h
      cases h
      exact ⟨v, card, p', rlog, d.cylonThreat.getD 0, rfl, rfl, rfl⟩

theorem filterZeroThreats_isSome (reg : RegMap) :
    ∀ (ts : List CylonThreatCard) (s : GameState) (log : List String),
      ts.all (fun t => cardOK reg t.card) = true →
      (filterZeroThreats reg s ts log).isSome = true
  | [], _, _, _ => rfl
  | t :: rest, s, log, h => by
    rw [List.all_cons, Bool.and_eq_true] at h
    unfold filterZeroThreats
    split
    · rcases cardOK_some reg t.card h.1 with ⟨d, hg⟩
      rw [hg]
      exact filterZeroThreats_isSome reg rest _ _ h.2
    · have hr := filterZeroThreats_isSome reg rest s log h.2
      rcases hfr : filterZeroThreats reg s rest log with _ | pr
      · rw [hfr] at hr
        cases hr
      · rfl

theorem filterZeroThreats_stateZonesOK (reg : RegMap) :
    ∀ (ts : List CylonThreatCard) (s : GameState) (log : List String)
      (pr : GameState × List CylonThreatCard × List String),
      filterZeroThreats reg s ts log = some pr →
      stateZonesOK reg s = true → stateZonesOK reg pr.1 = true
  | [], s, log, pr, h, hz => by
    unfold filterZeroThreats at h
    cases h
    exact hz
  | t :: rest, s, log, pr, h, hz => by
    unfold filterZeroThreats at h
    split at h
    · rcases hg : getCardDef reg t.card.defId with _ | d
      · rw [hg] at h
        cases h
      · rw [hg] at h
        refine filterZeroThreats_stateZonesOK reg rest _ _ pr h ?_
        apply setP_stateZonesOK reg s t.ownerIndex _ hz
        have hzz : (discardPlus (s.getP t.ownerIndex) t.card).zones =
            (s.getP t.ownerIndex).zones := rfl
        rw [hzz]
        exact stateZonesOK_getP reg s t.ownerIndex hz
    · rcases hfr : filterZeroThreats reg s rest log with _ | pr2
      · rw [hfr] at h
        cases h
      · rw [hfr] at h
        cases h
        exact filterZeroThreats_stateZonesOK reg rest s log pr2 hfr hz

theorem startCylonPhase_isSome (reg : RegMap) (shuf : Shuffler)
    (hperm : ∀ l, (shuf l).Perm l) (ctr : Nat) (s : GameState)
    (log : List String)
    (h0d : s.players.p0.deck.all (cardOK reg) = true)
    (h0c : s.players.p0.discard.all (cardOK reg) = true)
    (h1d : s.players.p1.deck.all (cardOK reg) = true)
    (h1c : s.players.p1.discard.all (cardOK reg) = true)
    (hz : stateZonesOK reg s = true)
    (hco : (alookup reg "condition-one").isSome = true) :
    (startCylonPhase reg shuf ctr s log).isSome = true := by
  unfold startCylonPhase
  simp only []
  have hz1 : stateZonesOK reg
      { s with phase := GamePhase.cylon,
               firstPlayerIndex := determineFirstPlayer s,
               activePlayerIndex := determineFirstPlayer s } = true := by
    rw [stateZonesOK_congr reg rfl]
    exact hz
  have htl := computeCylonThreatLevel_isSome reg
    { s with phase := GamePhase.cylon,
             firstPlayerIndex := determineFirstPlayer s,
             activePlayerIndex := determineFirstPlayer s } hz1
  rcases htlv : computeCylonThreatLevel reg
      { s with phase := GamePhase.cylon,
               firstPlayerIndex := determineFirstPlayer s,
               activePlayerIndex := determineFirstPlayer s } with _ | tl
  · rw [htlv] at htl
    cases htl
  · simp only []
    split
    · exact endCylonPhase_isSome reg _ _ hz1
    · have hrv0 := revealThreatFor_isSome reg shuf hperm ctr
        { s with phase := GamePhase.cylon,
                 firstPlayerIndex := determineFirstPlayer s,
                 activePlayerIndex := determineFirstPlayer s,
                 cylonThreats := [] } 0 (log ++
          ["Cylon phase: threat level is " ++ toString tl ++
            ", fleet defense is " ++ toString s.fleetDefenseLevel ++ "."] ++
          ["Cylon attack! Each player reveals a threat."]) h0d h0c hco
      rcases hr0 : revealThreatFor reg shuf ctr
          { s with phase := GamePhase.cylon,
                   firstPlayerIndex := determineFirstPlayer s,
                   activePlayerIndex := determineFirstPlayer s,
                   cylonThreats := [] } 0 (log ++
            ["Cylon phase: threat level is " ++ toString tl ++
              ", fleet defense is " ++ toString s.fleetDefenseLevel ++ "."] ++
            ["Cylon attack! Each player reveals a threat."]) with _ | prA
      · rw [hr0] at hrv0
        cases hrv0
      · simp only []
        obtain ⟨vA, cardA, pA, rlogA, tpA, hrevA, hplA, hthA⟩ :=
          revealThreatFor_elim reg shuf ctr _ 0 _ prA hr0
        obtain ⟨ctrA, sA, logA⟩ := prA
        simp only [] at hplA hthA ⊢
        have hA1 : sA.getP 1 =
            { s with phase := GamePhase.cylon,
                     firstPlayerIndex := determineFirstPlayer s,
                     activePlayerIndex := determineFirstPlayer s,
                     cylonThreats := [] }.getP 1 := by
          rw [getP_congr 1 hplA, getP_setP_zero_one]
        have hcardA : cardOK reg cardA = true :=
          revealMysticValue_cardOK reg shuf ctr _ _ ctrA vA cardA pA rlogA hco hrevA
        have hrv1 := revealThreatFor_isSome reg shuf hperm ctrA sA 1 logA
          (by rw [hA1]; exact h1d) (by rw [hA1]; exact h1c) hco
        rcases hr1 : revealThreatFor reg shuf ctrA sA 1 logA with _ | prB
        · rw [hr1] at hrv1
          cases hrv1
        · simp only []
          obtain ⟨vB, cardB, pB, rlogB, tpB, hrevB, hplB, hthB⟩ :=
            revealThreatFor_elim reg shuf ctrA sA 1 logA prB hr1
          obtain ⟨ctrB, sB, logB⟩ := prB
          simp only [] at hplB hthB ⊢
          have hcardB : cardOK reg cardB = true :=
            revealMysticValue_cardOK reg shuf ctrA _ _ ctrB vB cardB pB rlogB hco hrevB
          have hthreats : sB.cylonThreats.all (fun t => cardOK reg t.card) = true := by
            rw [hthB, hthA]
            simp only [List.nil_append, List.all_append, List.all_cons,
              List.all_nil, Bool.and_true]
            rw [Bool.and_eq_true]
            exact ⟨hcardA, hcardB⟩
          have hzA : stateZonesOK reg sA = true := by
            rw [stateZonesOK_congr reg hplA]
            apply setP_stateZonesOK reg _ 0 pA ?_ ?_
            · rw [stateZonesOK_congr reg rfl]
              exact hz
            · have hpresA := revealMysticValue_pres reg shuf hperm ctr _ _
                ctrA vA cardA pA rlogA h0d h0c hrevA
              rw [hpresA.2.2.2.1]
              apply stateZonesOK_getP reg _ 0
              rw [stateZonesOK_congr reg rfl]
              exact hz
          have hzB : stateZonesOK reg sB = true := by
            rw [stateZonesOK_congr reg hplB]
            apply setP_stateZonesOK reg sA 1 pB hzA ?_
            have hpresB := revealMysticValue_pres reg shuf hperm ctrA _ _
              ctrB vB cardB pB rlogB (by rw [hA1]; exact h1d)
              (by rw [hA1]; exact h1c) hrevB
            rw [hpresB.2.2.2.1, hA1]
            apply stateZonesOK_getP reg _ 1
            rw [stateZonesOK_congr reg rfl]
            exact hz
          have hfz := filterZeroThreats_isSome reg sB.cylonThreats sB logB hthreats
          rcases hfzr : filterZeroThreats reg sB sB.cylonThreats logB with _ | prC
          · rw [hfzr] at hfz
            cases hfz
          · simp only []
            obtain ⟨sC, kept, logC⟩ := prC
            simp only []
            split
            · apply endCylonPhase_isSome
              rw [stateZonesOK_congr reg rfl]
              exact filterZeroThreats_stateZonesOK reg sB.cylonThreats sB logB
                (sC, kept, logC) hfzr hzB
            · rfl


-- ============================================================
-- Challenge resolution never throws on a well-formed state
-- ============================================================

theorem getP_setP_cases (s : GameState) (i : Nat) (q : PlayerState) (j : Nat) :
    (s.setP i q).getP j = q ∨ (s.setP i q).getP j = s.getP j := by
  unfold GameState.getP GameState.setP Players.get Players.set
  by_cases hi : i = 0 <;> by_cases hj : j = 0 <;> simp [hi, hj]

theorem setP_deck_all (reg : RegMap) (s : GameState) (i : Nat) (q : PlayerState)
    (hq : q.deck.all (cardOK reg) = true)
    (h : ∀ j, (s.getP j).deck.all (cardOK reg) = true) :
    ∀ j, ((s.setP i q).getP j).deck.all (cardOK reg) = true := by
  intro j
  rcases getP_setP_cases s i q j with hc | hc <;> rw [hc]
  · exact hq
  · exact h j

theorem setP_discard_all (reg : RegMap) (s : GameState) (i : Nat)
    (q : PlayerState) (hq : q.discard.all (cardOK reg) = true)
    (h : ∀ j, (s.getP j).discard.all (cardOK reg) = true) :
    ∀ j, ((s.setP i q).getP j).discard.all (cardOK reg) = true := by
  intro j
  rcases getP_setP_cases s i q j with hc | hc <;> rw [hc]
  · exact hq
  · exact h j

theorem stateZonesOK_eraseThreatAt (reg : RegMap) (s : GameState) (i : Nat) :
    stateZonesOK reg (eraseThreatAt s i) = stateZonesOK reg s := rfl

theorem resolveCylonChallenge_isSome (reg : RegMap) (shuf : Shuffler)
    (hperm : ∀ l, (shuf l).Perm l) (ctr : Nat) (s : GameState)
    (log : List String) (c : ChallengeState)
    (hch : s.challenge = some c)
    (hcy : c.cylonPlayerIndex.isSome = true)
    (hz : stateZonesOK reg s = true)
    (hdk : ∀ i, (s.getP i).deck.all (cardOK reg) = true)
    (hdc : ∀ i, (s.getP i).discard.all (cardOK reg) = true) :
    (resolveCylonChallenge reg shuf ctr s log).isSome = true := by
  unfold resolveCylonChallenge
  rw [hch]
  simp only []
  rcases hf : findUnitInAnyZone (s.getP c.challengerPlayerIndex)
      c.challengerInstanceId with _ | ⟨ast, tag, ai⟩
  · rfl
  · simp only []
    have hcast : ast.cards.all (cardOK reg) = true := by
      have hzc := zonesCardsOK_parts reg (s.getP c.challengerPlayerIndex).zones
        (stateZonesOK_getP reg s _ hz)
      rcases findUnitInAnyZone_mem _ _ _ _ _ hf with hm | hm
      · exact all_mem _ _ hzc.1 ast hm
      · exact all_mem _ _ hzc.2 ast hm
    have hup := getUnitPower_isSome reg ast hcast
    rcases hgp : getUnitPower reg ast with _ | bp
    · rw [hgp] at hup
      cases hup
    · simp only []
      have hrevAS := revealMysticValue_isSome reg shuf hperm ctr
        (s.getP c.challengerPlayerIndex)
        ("Player " ++ toString (c.challengerPlayerIndex + 1)) (hdk _) (hdc _)
      rcases hrevA : revealMysticValue reg shuf ctr
          (s.getP c.challengerPlayerIndex)
          ("Player " ++ toString (c.challengerPlayerIndex + 1))
          with _ | ⟨ctr1, av, cA, ap', alog⟩
      · rw [hrevA] at hrevAS
        cases hrevAS
      · simp only []
        rcases hcyi : c.cylonPlayerIndex with _ | cylIdx
        · rw [hcyi] at hcy
          cases hcy
        · simp only []
          have hpresA := revealMysticValue_pres reg shuf hperm ctr _ _
            ctr1 av cA ap' alog (hdk _) (hdc _) hrevA
          have hdk1 := setP_deck_all reg s c.challengerPlayerIndex ap'
            hpresA.1 hdk
          have hdc1 := setP_discard_all reg s c.challengerPlayerIndex ap'
            hpresA.2.1 hdc
          have hz1 : stateZonesOK reg
              (s.setP c.challengerPlayerIndex ap') = true := by
            apply setP_stateZonesOK reg s _ ap' hz
            rw [hpresA.2.2.2.1]
            exact stateZonesOK_getP reg s _ hz
          have hrevBS := revealMysticValue_isSome reg shuf hperm ctr1
            ((s.setP c.challengerPlayerIndex ap').getP cylIdx)
            ("Player " ++ toString (cylIdx + 1) ++ " (Cylon player)")
            (hdk1 _) (hdc1 _)
          rcases hrevB : revealMysticValue reg shuf ctr1
              ((s.setP c.challengerPlayerIndex ap').getP cylIdx)
              ("Player " ++ toString (cylIdx + 1) ++ " (Cylon player)")
              with _ | ⟨ctr2, dv, cB, cp', dlog⟩
          · rw [hrevB] at hrevBS
            cases hrevBS
          · simp only []
            have hpresB := revealMysticValue_pres reg shuf hperm ctr1 _ _
              ctr2 dv cB cp' dlog (hdk1 _) (hdc1 _) hrevB
            have hz2 : stateZonesOK reg
                ((s.setP c.challengerPlayerIndex ap').setP cylIdx cp') = true := by
              apply setP_stateZonesOK reg _ cylIdx cp' hz1
              rw [hpresB.2.2.2.1]
              exact stateZonesOK_getP reg _ cylIdx hz1
            rcases hth : c.cylonThreatIndex.bind
                (((s.setP c.challengerPlayerIndex ap').setP cylIdx
                  cp').cylonThreats.get? ·) with _ | threat
            · rfl
            · split
              · rfl
              · rename_i thr heqX
                injection heqX with heqX2
                subst heqX2
                by_cases hcmp : threat.power + dv ≤
                  bp + c.challengerPowerBuff.getD 0 + av
                · rw [if_pos hcmp]
                  simp only []
                  apply cylonChallengeTail_isSome
                  rw [stateZonesOK_eraseThreatAt]
                  apply setP_stateZonesOK reg _ threat.ownerIndex _ ?hs3 ?hq3
                  case hq3 =>
                    have hzz : ∀ (p : PlayerState) (card : CardInstance),
                        (discardPlus p card).zones = p.zones := fun _ _ => rfl
                    rw [hzz]
                    apply stateZonesOK_getP
                    apply setP_stateZonesOK reg _ c.challengerPlayerIndex _ ?hs2a ?hq2a
                    case hq2a =>
                      apply commitUnit_zonesOK
                      apply stateZonesOK_getP
                      apply setP_stateZonesOK reg _ c.challengerPlayerIndex _ hz2 ?hq2b
                      case hq2b =>
                        exact stateZonesOK_getP reg _ _ hz2
                    case hs2a =>
                      apply setP_stateZonesOK reg _ c.challengerPlayerIndex _ hz2 ?hq2c
                      case hq2c =>
                        exact stateZonesOK_getP reg _ _ hz2
                  case hs3 =>
                    apply setP_stateZonesOK reg _ c.challengerPlayerIndex _ ?hs2d ?hq2d
                    case hq2d =>
                      apply commitUnit_zonesOK
                      apply stateZonesOK_getP
                      apply setP_stateZonesOK reg _ c.challengerPlayerIndex _ hz2 ?hq2e
                      case hq2e =>
                        exact stateZonesOK_getP reg _ _ hz2
                    case hs2d =>
                      apply setP_stateZonesOK reg _ c.challengerPlayerIndex _ hz2 ?hq2f
                      case hq2f =>
                        exact stateZonesOK_getP reg _ _ hz2
                · rw [if_neg hcmp]
                  set L := log ++ alog ++ dlog ++
                    ["Challenger total: " ++
                       toString (bp + c.challengerPowerBuff.getD 0 + av) ++ " (" ++
                       toString (bp + c.challengerPowerBuff.getD 0) ++ " + " ++
                       toString av ++ ")",
                     "Cylon threat total: " ++ toString (threat.power + dv) ++
                       " (" ++ toString threat.power ++ " + " ++ toString dv ++ ")"] ++
                    ["Cylon threat wins!"] with hL
                  have hdef := defeatUnit_isSome reg
                    (((s.setP c.challengerPlayerIndex ap').setP cylIdx
                      cp').getP c.challengerPlayerIndex) c.challengerInstanceId
                    L (stateZonesOK_getP reg _ _ hz2)
                  rcases hdu : defeatUnit reg
                      (((s.setP c.challengerPlayerIndex ap').setP cylIdx
                        cp').getP c.challengerPlayerIndex)
                      c.challengerInstanceId L with _ | ⟨ap2, log2⟩
                  · rw [hdu] at hdef
                    cases hdef
                  · simp only []
                    apply cylonChallengeTail_isSome
                    apply setP_stateZonesOK reg _ c.challengerPlayerIndex _ hz2
                    exact defeatUnit_zonesOK reg _ _ L (ap2, log2) hdu
                      (stateZonesOK_getP reg _ _ hz2)


theorem resolveChallenge_isSome (reg : RegMap) (shuf : Shuffler)
    (hperm : ∀ l, (shuf l).Perm l) (ctr : Nat) (s : GameState)
    (log : List String) (c : ChallengeState)
    (hch : s.challenge = some c)
    (hcy : c.isCylonChallenge = true → c.cylonPlayerIndex.isSome = true)
    (hz : stateZonesOK reg s = true)
    (hdk : ∀ i, (s.getP i).deck.all (cardOK reg) = true)
    (hdc : ∀ i, (s.getP i).discard.all (cardOK reg) = true) :
    (resolveChallenge reg shuf ctr s log).isSome = true := by
  unfold resolveChallenge
  rw [hch]
  simp only []
  by_cases hic : c.isCylonChallenge = true
  · rw [if_pos hic]
    exact resolveCylonChallenge_isSome reg shuf hperm ctr s log c hch (hcy hic)
      hz hdk hdc
  · rw [if_neg hic]
    rcases hf : findUnitInAnyZone (s.getP c.challengerPlayerIndex)
        c.challengerInstanceId with _ | ⟨ast, tag, ai⟩
    · rfl
    · simp only []
      have hcast : ast.cards.all (cardOK reg) = true := by
        have hzc := zonesCardsOK_parts reg (s.getP c.challengerPlayerIndex).zones
          (stateZonesOK_getP reg s _ hz)
        rcases findUnitInAnyZone_mem _ _ _ _ _ hf with hm | hm
        · exact all_mem _ _ hzc.1 ast hm
        · exact all_mem _ _ hzc.2 ast hm
      have hup := getUnitPower_isSome reg ast hcast
      rcases hgp : getUnitPower reg ast with _ | bp
      · rw [hgp] at hup
        cases hup
      · simp only []
        rcases hdid : c.defenderInstanceId with _ | did
        · rfl
        · simp only []
          have hrevAS := revealMysticValue_isSome reg shuf hperm ctr
            (s.getP c.challengerPlayerIndex)
            ("Player " ++ toString (c.challengerPlayerIndex + 1)) (hdk _) (hdc _)
          rcases hrevA : revealMysticValue reg shuf ctr
              (s.getP c.challengerPlayerIndex)
              ("Player " ++ toString (c.challengerPlayerIndex + 1))
              with _ | ⟨ctr1, av, cA, ap', alog⟩
          · rw [hrevA] at hrevAS
            cases hrevAS
          · simp only []
            have hpresA := revealMysticValue_pres reg shuf hperm ctr _ _
              ctr1 av cA ap' alog (hdk _) (hdc _) hrevA
            have hdk1 := setP_deck_all reg s c.challengerPlayerIndex ap'
              hpresA.1 hdk
            have hdc1 := setP_discard_all reg s c.challengerPlayerIndex ap'
              hpresA.2.1 hdc
            have hz1 : stateZonesOK reg
                (s.setP c.challengerPlayerIndex ap') = true := by
              apply setP_stateZonesOK reg s _ ap' hz
              rw [hpresA.2.2.2.1]
              exact stateZonesOK_getP reg s _ hz
            have hrevBS := revealMysticValue_isSome reg shuf hperm ctr1
              ((s.setP c.challengerPlayerIndex ap').getP c.defenderPlayerIndex)
              ("Player " ++ toString (c.defenderPlayerIndex + 1))
              (hdk1 _) (hdc1 _)
            rcases hrevB : revealMysticValue reg shuf ctr1
                ((s.setP c.challengerPlayerIndex ap').getP c.defenderPlayerIndex)
                ("Player " ++ toString (c.defenderPlayerIndex + 1))
                with _ | ⟨ctr2, dv, dp', dpl', dlog⟩
            · rw [hrevB] at hrevBS
              cases hrevBS
            · simp only []
              have hpresB := revealMysticValue_pres reg shuf hperm ctr1 _ _
                ctr2 dv dp' dpl' dlog (hdk1 _) (hdc1 _) hrevB
              have hz2 : stateZonesOK reg
                  ((s.setP c.challengerPlayerIndex ap').setP
                    c.defenderPlayerIndex dpl') = true := by
                apply setP_stateZonesOK reg _ c.defenderPlayerIndex dpl' hz1
                rw [hpresB.2.2.2.1]
                exact stateZonesOK_getP reg _ c.defenderPlayerIndex hz1
              rcases hfd : findUnitInAnyZone
                  (((s.setP c.challengerPlayerIndex ap').setP
                    c.defenderPlayerIndex dpl').getP c.defenderPlayerIndex) did
                  with _ | ⟨dst, dtag, di⟩
              · simp only []
                have hnfalse :
                    ¬ ((none : Option (UnitStack × ZoneTag × Nat)).isSome = true) := by
                  simp
                by_cases hcmp : (0 : Int) + dv ≤
                  bp + c.challengerPowerBuff.getD 0 + av
                · rw [if_pos hcmp, if_neg hnfalse]
                  rfl
                · rw [if_neg hcmp, if_neg hnfalse]
                  split
                  · rename_i heqM
                    split at heqM
                    · rename_i heqD
                      have hcontra := congrArg Option.isSome heqD
                      rw [defeatUnit_isSome reg _ _ _
                        (stateZonesOK_getP reg _ _ hz2)] at hcontra
                      cases hcontra
                    · rename_i a b heqD
                      cases heqM
                  · rfl
              · simp only []
                have hdstc : dst.cards.all (cardOK reg) = true := by
                  have hzc := zonesCardsOK_parts reg
                    ((((s.setP c.challengerPlayerIndex ap').setP
                      c.defenderPlayerIndex dpl').getP
                      c.defenderPlayerIndex)).zones
                    (stateZonesOK_getP reg _ _ hz2)
                  rcases findUnitInAnyZone_mem _ _ _ _ _ hfd with hm | hm
                  · exact all_mem _ _ hzc.1 dst hm
                  · exact all_mem _ _ hzc.2 dst hm
                have hup2 := getUnitPower_isSome reg dst hdstc
                rcases hgp2 : getUnitPower reg dst with _ | dp0
                · rw [hgp2] at hup2
                  cases hup2
                · simp only []
                  have htrue : ((some (dst, dtag, di) :
                      Option (UnitStack × ZoneTag × Nat)).isSome = true) := rfl
                  by_cases hcmp : dp0 + c.defenderPowerBuff.getD 0 + dv ≤
                    bp + c.challengerPowerBuff.getD 0 + av
                  · rw [if_pos hcmp, if_pos htrue]
                    have hz2c : stateZonesOK reg
                        (((s.setP c.challengerPlayerIndex ap').setP
                          c.defenderPlayerIndex dpl').setP c.challengerPlayerIndex
                          (commitUnit (((s.setP c.challengerPlayerIndex ap').setP
                            c.defenderPlayerIndex dpl').getP
                            c.challengerPlayerIndex) c.challengerInstanceId)) = true := by
                      apply setP_stateZonesOK reg _ _ _ hz2
                      apply commitUnit_zonesOK
                      exact stateZonesOK_getP reg _ _ hz2
                    split
                    · rename_i heqM
                      split at heqM
                      · rename_i heqD
                        have hcontra := congrArg Option.isSome heqD
                        rw [defeatUnit_isSome reg _ _ _
                          (stateZonesOK_getP reg _ _ hz2c)] at hcontra
                        cases hcontra
                      · rename_i a b heqD
                        cases heqM
                    · rfl
                  · rw [if_neg hcmp, if_pos htrue]
                    have hz3 : stateZonesOK reg
                        (((s.setP c.challengerPlayerIndex ap').setP
                          c.defenderPlayerIndex dpl').setP c.defenderPlayerIndex
                          (commitUnit (((s.setP c.challengerPlayerIndex ap').setP
                            c.defenderPlayerIndex dpl').getP
                            c.defenderPlayerIndex) did)) = true := by
                      apply setP_stateZonesOK reg _ _ _ hz2
                      apply commitUnit_zonesOK
                      exact stateZonesOK_getP reg _ _ hz2
                    split
                    · rename_i heqM
                      split at heqM
                      · rename_i heqD
                        have hcontra := congrArg Option.isSome heqD
                        rw [defeatUnit_isSome reg _ _ _
                          (stateZonesOK_getP reg _ _ hz3)] at hcontra
                        cases hcontra
                      · rename_i a b heqD
                        cases heqM
                    · rfl


-- ============================================================
-- Per-action no-throw lemmas
-- ============================================================

theorem drawCardsFn_zones (shuf : Shuffler) :
    ∀ (n : Nat) (p : PlayerState) (log : List String) (label : String),
      (drawCardsFn shuf n p log label).1.zones = p.zones
  | 0, _, _, _ => rfl
  | Nat.succ n, p, log, label => by
    unfold drawCardsFn
    rcases hdk : p.deck with _ | ⟨c, rest⟩
    · rcases hdc : p.discard with _ | ⟨d0, ds⟩
      · rfl
      · simp only []
        rcases hsh : shuf (d0 :: ds) with _ | ⟨e, es⟩
        · rfl
        · exact drawCardsFn_zones shuf n _ _ label
    · exact drawCardsFn_zones shuf n _ _ label

theorem drawCardsFn_baseDefId (shuf : Shuffler) :
    ∀ (n : Nat) (p : PlayerState) (log : List String) (label : String),
      (drawCardsFn shuf n p log label).1.baseDefId = p.baseDefId
  | 0, _, _, _ => rfl
  | Nat.succ n, p, log, label => by
    unfold drawCardsFn
    rcases hdk : p.deck with _ | ⟨c, rest⟩
    · rcases hdc : p.discard with _ | ⟨d0, ds⟩
      · rfl
      · simp only []
        rcases hsh : shuf (d0 :: ds) with _ | ⟨e, es⟩
        · rfl
        · exact drawCardsFn_baseDefId shuf n _ _ label
    · exact drawCardsFn_baseDefId shuf n _ _ label

theorem zonesOK_intro (reg : RegMap) (z : PlayerZones)
    (h1 : z.alert.all (stackOK reg) = true)
    (h2 : z.reserve.all (stackOK reg) = true) : zonesOK reg z = true := by
  rw [zonesOK, Bool.and_eq_true]
  exact ⟨h1, h2⟩

theorem zonesOK_parts (reg : RegMap) (z : PlayerZones)
    (h : zonesOK reg z = true) :
    z.alert.all (stackOK reg) = true ∧ z.reserve.all (stackOK reg) = true := by
  rw [zonesOK, Bool.and_eq_true] at h
  exact h

theorem stateWF_deck_all (reg : RegMap) (bases : BasesMap) (s : GameState)
    (h : stateWF reg bases s = true) :
    ∀ i, (s.getP i).deck.all (cardOK reg) = true :=
  fun i => (playerOK_parts reg bases _ (playerOK_getP reg bases s i h)).2.2.1

theorem stateWF_discard_all (reg : RegMap) (bases : BasesMap) (s : GameState)
    (h : stateWF reg bases s = true) :
    ∀ i, (s.getP i).discard.all (cardOK reg) = true :=
  fun i => (playerOK_parts reg bases _ (playerOK_getP reg bases s i h)).2.2.2.1

theorem stateWF_hand_all (reg : RegMap) (bases : BasesMap) (s : GameState)
    (h : stateWF reg bases s = true) :
    ∀ i, (s.getP i).hand.all (cardOK reg) = true :=
  fun i => (playerOK_parts reg bases _ (playerOK_getP reg bases s i h)).2.1

theorem stateWF_base (reg : RegMap) (bases : BasesMap) (s : GameState)
    (h : stateWF reg bases s = true) :
    ∀ i, (alookup bases (s.getP i).baseDefId).isSome = true :=
  fun i => (playerOK_parts reg bases _ (playerOK_getP reg bases s i h)).1

theorem stateWF_zonesOK (reg : RegMap) (bases : BasesMap) (s : GameState)
    (h : stateWF reg bases s = true) :
    ∀ i, zonesOK reg (s.getP i).zones = true :=
  fun i => (playerOK_parts reg bases _ (playerOK_getP reg bases s i h)).2.2.2.2

theorem applyKeepHand_isSome (reg : RegMap) (s : GameState) (pi : Nat)
    (lbl : String) (hz : stateZonesOK reg s = true) :
    (applyKeepHand reg s pi lbl).isSome = true := by
  unfold applyKeepHand
  apply checkSetupComplete_isSome
  apply setP_stateZonesOK reg s pi _ hz
  exact stateZonesOK_getP reg s pi hz

theorem applyRedraw_isSome (reg : RegMap) (bases : BasesMap) (shuf : Shuffler)
    (s : GameState) (pi : Nat) (lbl : String)
    (hb : (alookup bases (s.getP pi).baseDefId).isSome = true)
    (hz : stateZonesOK reg s = true) :
    (applyRedraw reg bases shuf s pi lbl).isSome = true := by
  unfold applyRedraw
  simp only []
  rcases hbd : alookup bases (s.getP pi).baseDefId with _ | baseDef
  · rw [hbd] at hb
    cases hb
  · simp only []
    apply checkSetupComplete_isSome
    apply setP_stateZonesOK reg s pi _ hz
    have hzz := drawCardsFn_zones shuf baseDef.handSize
      { s.getP pi with
        deck := shuf ((s.getP pi).deck ++ (s.getP pi).hand), hand := [] }
      [] lbl
    rw [hzz]
    exact stateZonesOK_getP reg s pi hz

theorem applyPlayToResource_isSome (reg : RegMap) (s : GameState) (pi ci : Nat)
    (asSupply : Bool) (tgt : Option Nat) (lbl : String)
    (hhand : (s.getP pi).hand.all (cardOK reg) = true) :
    (applyPlayToResource reg s pi ci asSupply tgt lbl).isSome = true := by
  unfold applyPlayToResource
  simp only []
  rcases hg : (s.getP pi).hand.get? ci with _ | card
  · rfl
  · simp only []
    have hc : cardOK reg card = true := all_of_get? _ _ ci card hhand hg
    rcases cardOK_some reg card hc with ⟨d, hgd⟩
    rw [hgd]
    rfl

theorem playCardPlace_isSome (reg : RegMap) (bases : BasesMap) (s : GameState)
    (pi ci : Nat) (card : CardInstance) (d : CardDef) (lbl : String)
    (hzok : zonesOK reg (s.getP pi).zones = true) :
    (playCardPlace reg bases s pi ci card d lbl).isSome = true := by
  unfold playCardPlace
  simp only []
  split
  · have hzp : zonesOK reg
        { payResourceCost reg bases (s.getP pi) d.cost with
          hand := (payResourceCost reg bases (s.getP pi) d.cost).hand.eraseIdx
            ci }.zones = true := by
      have hp := zonesOK_parts reg (s.getP pi).zones hzok
      apply zonesOK_intro
      · have ha := (payResourceCost_zones reg bases (s.getP pi) d.cost).1
        have hza :
            ({ payResourceCost reg bases (s.getP pi) d.cost with
               hand := (payResourceCost reg bases (s.getP pi)
                 d.cost).hand.eraseIdx ci }).zones.alert =
            (payResourceCost reg bases (s.getP pi) d.cost).zones.alert := rfl
        rw [hza, ha]
        exact hp.1
      · have hr := (payResourceCost_zones reg bases (s.getP pi) d.cost).2.1
        have hzr :
            ({ payResourceCost reg bases (s.getP pi) d.cost with
               hand := (payResourceCost reg bases (s.getP pi)
                 d.cost).hand.eraseIdx ci }).zones.reserve =
            (payResourceCost reg bases (s.getP pi) d.cost).zones.reserve := rfl
        rw [hzr, hr]
        exact hp.2
    by_cases hsing : (isUnit d && isSingular d) = true
    · rw [if_pos hsing]
      have hov := findOverlayTarget_isSome reg
        { payResourceCost reg bases (s.getP pi) d.cost with
          hand := (payResourceCost reg bases (s.getP pi) d.cost).hand.eraseIdx ci }
        d hzp
      rcases hvo : findOverlayTarget reg
          { payResourceCost reg bases (s.getP pi) d.cost with
            hand := (payResourceCost reg bases (s.getP pi)
              d.cost).hand.eraseIdx ci } d with _ | oi
      · rw [hvo] at hov
        cases hov
      · rcases oi with _ | ⟨zone, idx⟩
        · rfl
        · rcases zone <;> rfl
    · rw [if_neg hsing]
      rfl
  · split <;> rfl

theorem applyPlayCard_isSome (reg : RegMap) (bases : BasesMap) (s : GameState)
    (pi ci : Nat) (lbl : String)
    (hhand : (s.getP pi).hand.all (cardOK reg) = true)
    (hzok : zonesOK reg (s.getP pi).zones = true) :
    (applyPlayCard reg bases s pi ci lbl).isSome = true := by
  unfold applyPlayCard
  rcases hg : (s.getP pi).hand.get? ci with _ | card
  · rfl
  · simp only []
    have hc : cardOK reg card = true := all_of_get? _ _ ci card hhand hg
    rcases cardOK_some reg card hc with ⟨d, hgd⟩
    rw [hgd]
    simp only []
    have hpl := playCardPlace_isSome reg bases s pi ci card d lbl hzok
    rcases hpp : playCardPlace reg bases s pi ci card d lbl with _ | r
    · rw [hpp] at hpl
      cases hpl
    · rfl


theorem applyAbilityAlertLoop_isSome (reg : RegMap) (s : GameState) (pi : Nat)
    (src : String) (tgt : Option String) (lbl : String)
    (hzok : zonesOK reg (s.getP pi).zones = true) :
    (applyAbilityAlertLoop reg s pi src tgt lbl).isSome = true := by
  unfold applyAbilityAlertLoop
  simp only []
  split
  · rfl
  · rename_i st heqF
    split
    · rename_i heqH
      exfalso
      have hpred := List.find?_some heqF
      have hp2 := of_decide_eq_true hpred
      rw [heqH] at hp2
      cases hp2
    · rename_i c0 heqH
      split
      · rename_i heqG
        have hmem := List.mem_of_find?_eq_some heqF
        have hcards : st.cards.all (cardOK reg) = true :=
          all_mem _ _ (zonesCardsOK_parts reg _ (zonesOK_cards reg _ hzok)).1
            st hmem
        have hc : cardOK reg c0 = true :=
          all_mem _ _ hcards c0 (List.mem_of_mem_head? heqH)
        rcases cardOK_some reg c0 hc with ⟨d, hgd⟩
        rw [heqG] at hgd
        cases hgd
      · rfl

theorem applyPlayAbilityCase_isSome (reg : RegMap) (bases : BasesMap)
    (s : GameState) (pi : Nat) (src : String) (tgt : Option String)
    (lbl : String)
    (hb : (alookup bases (s.getP pi).baseDefId).isSome = true)
    (hzok : zonesOK reg (s.getP pi).zones = true) :
    (applyPlayAbilityCase reg bases s pi src tgt lbl).isSome = true := by
  unfold applyPlayAbilityCase
  simp only []
  rcases hhead : (s.getP pi).zones.resourceStacks.head? with _ | baseStack
  · exact applyAbilityAlertLoop_isSome reg s pi src tgt lbl hzok
  · simp only []
    split
    · rcases hbd : alookup bases (s.getP pi).baseDefId with _ | baseDef
      · rw [hbd] at hb
        cases hb
      · simp only []
        rfl
    · exact applyAbilityAlertLoop_isSome reg s pi src tgt lbl hzok

theorem applyResolveMissionCase_isSome (reg : RegMap) (shuf : Shuffler)
    (s : GameState) (pi : Nat) (mid : String) (lbl : String)
    (hzok : zonesOK reg (s.getP pi).zones = true) :
    (applyResolveMissionCase reg shuf s pi mid lbl).isSome = true := by
  unfold applyResolveMissionCase
  simp only []
  rcases hfz : findUnitInZone (s.getP pi).zones.alert mid with _ | ⟨st, idx⟩
  · rfl
  · simp only []
    have hfz2 : findUnitInZoneAux (s.getP pi).zones.alert mid 0 =
        some (st, idx) := hfz
    have hhead := findUnitInZoneAux_head _ _ _ _ _ hfz2
    obtain ⟨c0, hh⟩ : ∃ c0, st.cards.head? = some c0 := by
      rcases hx : st.cards.head? with _ | c0
      · rw [hx] at hhead
        cases hhead
      · exact ⟨c0, rfl⟩
    rw [hh]
    simp only []
    have hmem : st ∈ (s.getP pi).zones.alert :=
      List.get?_mem (findUnitInZone_get _ _ _ _ hfz)
    have hcards : st.cards.all (cardOK reg) = true :=
      all_mem _ _ (zonesCardsOK_parts reg _ (zonesOK_cards reg _ hzok)).1 st hmem
    have hc : cardOK reg c0 = true :=
      all_mem _ _ hcards c0 (List.mem_of_mem_head? hh)
    rcases cardOK_some reg c0 hc with ⟨d, hgd⟩
    rw [hgd]
    simp only []
    rcases hrm : resolveMissionEffect shuf s pi d
        [lbl ++ " resolves mission " ++ cardName d ++ "."] with ⟨s2, log2⟩
    rfl

theorem applyChallengeCase_isSome (reg : RegMap) (s : GameState) (pi : Nat)
    (cid : String) (lbl : String) (hz : stateZonesOK reg s = true) :
    (applyChallengeCase reg s pi cid lbl).isSome = true := by
  unfold applyChallengeCase
  have hfc := findCardDefByInstanceId_isSome reg s cid hz
  rcases hf : findCardDefByInstanceId reg s cid with _ | od
  · rw [hf] at hfc
    cases hfc
  · rcases od with _ | d
    · rfl
    · rfl

theorem applyDefendCase_isSome (reg : RegMap) (s : GameState) (pi : Nat)
    (did : Option String) (lbl : String) (hz : stateZonesOK reg s = true) :
    (applyDefendCase reg s pi did lbl).isSome = true := by
  unfold applyDefendCase
  rcases hch : s.challenge with _ | c
  · rfl
  · simp only []
    rcases did with _ | d
    · rfl
    · simp only []
      have hfc := findCardDefByInstanceId_isSome reg s d hz
      rcases hf : findCardDefByInstanceId reg s d with _ | od
      · rw [hf] at hfc
        cases hfc
      · rfl

theorem applyChallengePassCase_isSome (reg : RegMap) (shuf : Shuffler)
    (hperm : ∀ l, (shuf l).Perm l) (ctr : Nat) (s : GameState) (pi : Nat)
    (lbl : String) (hz : stateZonesOK reg s = true)
    (hdk : ∀ i, (s.getP i).deck.all (cardOK reg) = true)
    (hdc : ∀ i, (s.getP i).discard.all (cardOK reg) = true)
    (hchOK : challengeOK s = true) :
    (applyChallengePassCase reg shuf ctr s pi lbl).isSome = true := by
  unfold applyChallengePassCase
  rcases hch : s.challenge with _ | c
  · rfl
  · simp only []
    split
    · apply resolveChallenge_isSome reg shuf hperm ctr _ _
        { c with consecutivePasses := c.consecutivePasses + 1 } rfl ?hcy ?hz2
        ?hdk2 ?hdc2
      case hcy =>
        intro hic
        rw [challengeOK, hch] at hchOK
        simp only [Bool.or_eq_true] at hchOK
        rcases hchOK with hx | hx
        · have hic2 : c.isCylonChallenge = true := hic
          rw [hic2] at hx
          cases hx
        · exact hx
      case hz2 =>
        rw [stateZonesOK_congr reg rfl]
        exact hz
      case hdk2 =>
        intro i
        rw [getP_congr i rfl]
        exact hdk i
      case hdc2 =>
        intro i
        rw [getP_congr i rfl]
        exact hdc i
    · rfl

theorem playEventWithCard_isSome (reg : RegMap) (bases : BasesMap)
    (s : GameState) (pi ci : Nat) (tgt : Option String) (card : CardInstance)
    (d : CardDef) (lbl : String) (hch : s.challenge.isSome = true) :
    (playEventWithCard reg bases s pi ci tgt card d lbl).isSome = true := by
  unfold playEventWithCard
  simp only []
  split
  · rename_i heq
    exfalso
    have hiso := congrArg Option.isSome heq
    simp only [GameState.setP] at hiso
    rw [(resolveEventEffect_fields _ _ _ _ _).2.2] at hiso
    have hiso2 : s.challenge.isSome = false := hiso
    rw [hch] at hiso2
    cases hiso2
  · rfl

theorem applyPlayEventCase_isSome (reg : RegMap) (bases : BasesMap)
    (s : GameState) (pi ci : Nat) (tgt : Option String) (lbl : String)
    (hhand : (s.getP pi).hand.all (cardOK reg) = true) :
    (applyPlayEventCase reg bases s pi ci tgt lbl).isSome = true := by
  unfold applyPlayEventCase
  rcases hch : s.challenge with _ | c
  · rfl
  · simp only []
    rcases hg : (s.getP pi).hand.get? ci with _ | card
    · rfl
    · simp only []
      have hc : cardOK reg card = true := all_of_get? _ _ ci card hhand hg
      rcases cardOK_some reg card hc with ⟨d, hgd⟩
      rw [hgd]
      simp only []
      apply playEventWithCard_isSome
      rw [hch]
      rfl

theorem applyPassCase_isSome (reg : RegMap) (shuf : Shuffler)
    (hperm : ∀ l, (shuf l).Perm l) (ctr : Nat) (s : GameState) (pi : Nat)
    (lbl : String)
    (hdk : ∀ i, (s.getP i).deck.all (cardOK reg) = true)
    (hdc : ∀ i, (s.getP i).discard.all (cardOK reg) = true)
    (hz : stateZonesOK reg s = true)
    (hco : (alookup reg "condition-one").isSome = true) :
    (applyPassCase reg shuf ctr s pi lbl).isSome = true := by
  unfold applyPassCase
  simp only []
  split
  · apply startCylonPhase_isSome reg shuf hperm ctr _ _ ?h0d ?h0c ?h1d ?h1c
      ?hzz hco
    case h0d =>
      exact setP_deck_all reg s pi
        { s.getP pi with
          consecutivePasses := (s.getP pi).consecutivePasses + 1 }
        (hdk pi) hdk 0
    case h0c =>
      exact setP_discard_all reg s pi
        { s.getP pi with
          consecutivePasses := (s.getP pi).consecutivePasses + 1 }
        (hdc pi) hdc 0
    case h1d =>
      exact setP_deck_all reg s pi
        { s.getP pi with
          consecutivePasses := (s.getP pi).consecutivePasses + 1 }
        (hdk pi) hdk 1
    case h1c =>
      exact setP_discard_all reg s pi
        { s.getP pi with
          consecutivePasses := (s.getP pi).consecutivePasses + 1 }
        (hdc pi) hdc 1
    case hzz =>
      apply setP_stateZonesOK reg s pi _ hz
      exact stateZonesOK_getP reg s pi hz
  · rfl

theorem applyChallengeCylonCase_isSome (reg : RegMap) (s : GameState)
    (pi : Nat) (cid : String) (ti : Nat) (lbl : String)
    (hz : stateZonesOK reg s = true) :
    (applyChallengeCylonCase reg s pi cid ti lbl).isSome = true := by
  unfold applyChallengeCylonCase
  rcases ht : s.cylonThreats.get? ti with _ | threat
  · rfl
  · simp only []
    have hfc := findCardDefByInstanceId_isSome reg s cid hz
    rcases hf : findCardDefByInstanceId reg s cid with _ | od
    · rw [hf] at hfc
      cases hfc
    · rfl

theorem applyPassCylonCase_isSome (reg : RegMap) (s : GameState) (pi : Nat)
    (lbl : String) (hz : stateZonesOK reg s = true) :
    (applyPassCylonCase reg s pi lbl).isSome = true := by
  unfold applyPassCylonCase
  simp only []
  rcases hcv : checkVictory (s.setP pi
      { baseDefId := (s.getP pi).baseDefId,
        zones := (s.getP pi).zones,
        hand := (s.getP pi).hand,
        deck := (s.getP pi).deck,
        discard := (s.getP pi).discard,
        influence := (s.getP pi).influence - 1,
        hasMulliganed := (s.getP pi).hasMulliganed,
        hasPlayedResource := (s.getP pi).hasPlayedResource,
        hasResolvedMission := (s.getP pi).hasResolvedMission,
        consecutivePasses := (s.getP pi).consecutivePasses + 1 })
      [lbl ++ " passes in Cylon phase and loses 1 influence. (Now " ++
        toString ((s.getP pi).influence - 1) ++ ")"] with ⟨s2, log2⟩
  simp only []
  have hpl := checkVictory_players (s.setP pi
      { baseDefId := (s.getP pi).baseDefId,
        zones := (s.getP pi).zones,
        hand := (s.getP pi).hand,
        deck := (s.getP pi).deck,
        discard := (s.getP pi).discard,
        influence := (s.getP pi).influence - 1,
        hasMulliganed := (s.getP pi).hasMulliganed,
        hasPlayedResource := (s.getP pi).hasPlayedResource,
        hasResolvedMission := (s.getP pi).hasResolvedMission,
        consecutivePasses := (s.getP pi).consecutivePasses + 1 })
      [lbl ++ " passes in Cylon phase and loses 1 influence. (Now " ++
        toString ((s.getP pi).influence - 1) ++ ")"]
  rw [hcv] at hpl
  simp only [] at hpl
  have hz2 : stateZonesOK reg s2 = true := by
    rw [stateZonesOK_congr reg hpl]
    apply setP_stateZonesOK reg s pi _ hz
    exact stateZonesOK_getP reg s pi hz
  split
  · split
    · exact endCylonPhase_isSome reg s2 log2 hz2
    · rfl
  · rfl

theorem applyDrawCardsCase_isSome (shuf : Shuffler) (s : GameState) :
    (applyDrawCardsCase shuf s).isSome = true := by
  unfold applyDrawCardsCase
  rcases h0 : drawCardsFn shuf 2 s.players.p0 [] "Player 1" with ⟨q0, log0⟩
  simp only []
  rcases h1 : drawCardsFn shuf 2 s.players.p1 log0 "Player 2" with ⟨q1, log1⟩
  rfl


/-- No branch of the action switch can throw on a well-formed state. -/
theorem applyActionCore_isSome (reg : RegMap) (bases : BasesMap)
    (shuf : Shuffler) (hperm : ∀ l, (shuf l).Perm l) (ctr : Nat)
    (s : GameState) (pi : Nat) (a : GameAction)
    (hwf : stateWF reg bases s = true)
    (hco : (alookup reg "condition-one").isSome = true) :
    (applyActionCore reg bases shuf ctr s pi a).isSome = true := by
  have hz := stateZonesOK_of_WF reg bases s hwf
  have hdk := stateWF_deck_all reg bases s hwf
  have hdc := stateWF_discard_all reg bases s hwf
  have hchOK : challengeOK s = true := (stateWF_parts reg bases s hwf).2.2
  cases a with
  | keepHand =>
    simp only [applyActionCore]
    exact applyKeepHand_isSome reg s pi _ hz
  | redraw =>
    simp only [applyActionCore]
    exact applyRedraw_isSome reg bases shuf s pi _
      (stateWF_base reg bases s hwf pi) hz
  | drawCards =>
    simp only [applyActionCore]
    exact applyDrawCardsCase_isSome shuf s
  | playToResource ci asSupply tgt =>
    simp only [applyActionCore]
    exact applyPlayToResource_isSome reg s pi ci asSupply tgt _
      (stateWF_hand_all reg bases s hwf pi)
  | passResource =>
    simp only [applyActionCore]
    rfl
  | doneReorder =>
    simp only [applyActionCore]
    rfl
  | playCard ci =>
    simp only [applyActionCore]
    exact applyPlayCard_isSome reg bases s pi ci _
      (stateWF_hand_all reg bases s hwf pi) (stateWF_zonesOK reg bases s hwf pi)
  | playAbility src tgt =>
    simp only [applyActionCore]
    exact applyPlayAbilityCase_isSome reg bases s pi src tgt _
      (stateWF_base reg bases s hwf pi) (stateWF_zonesOK reg bases s hwf pi)
  | resolveMission mid uids =>
    simp only [applyActionCore]
    exact applyResolveMissionCase_isSome reg shuf s pi mid _
      (stateWF_zonesOK reg bases s hwf pi)
  | challenge cid oi =>
    simp only [applyActionCore]
    exact applyChallengeCase_isSome reg s pi cid _ hz
  | defend did =>
    simp only [applyActionCore]
    exact applyDefendCase_isSome reg s pi did _ hz
  | challengePass =>
    simp only [applyActionCore]
    exact applyChallengePassCase_isSome reg shuf hperm ctr s pi _ hz hdk hdc hchOK
  | playEventInChallenge ci tgt =>
    simp only [applyActionCore]
    exact applyPlayEventCase_isSome reg bases s pi ci tgt _
      (stateWF_hand_all reg bases s hwf pi)
  | pass =>
    simp only [applyActionCore]
    exact applyPassCase_isSome reg shuf hperm ctr s pi _ hdk hdc hz hco
  | challengeCylon cid ti =>
    simp only [applyActionCore]
    exact applyChallengeCylonCase_isSome reg s pi cid ti _ hz
  | passCylon =>
    simp only [applyActionCore]
    exact applyPassCylonCase_isSome reg s pi _ hz

/-- A setup-phase state whose player's base id is not registered: the
valid-action generator still offers `redraw`. -/
def c1state : GameState :=
  mkState { blankPlayer "b0" with hand := [inst "i1" "c"] }
    (blankPlayer "b1") GamePhase.setup

/-- Counterexample to C1 as stated: `getValidActions` offers `redraw`
during setup without checking that the player's base resolves, but the
`redraw` branch of `applyAction` throws on the missing base entry. -/
theorem C1_counterexample :
    (getValidActions [] [] c1state 0).map
        (fun l => l.map (fun va => va.type)) = some ["keepHand", "redraw"] ∧
    applyAction [] [] id 0 c1state 0 GameAction.redraw = none := by
  constructor
  · decide
  · decide

/-- C1 (amended): under well-formedness — every card instance in both
players' hands, decks, discards and unit stacks resolves in the registry,
no in-play unit stack is empty, both base ids resolve, an open cylon
challenge records its cylon player index, the shuffler permutes, and the
placeholder id `condition-one` is registered — `applyAction` returns
normally for **every** action and player index, legal or not (legality is
enforced only by `getValidActions` and never re-checked); in particular
for every action constructible from a `getValidActions` entry. -/
theorem C1_theorem (reg : RegMap) (bases : BasesMap) (shuf : Shuffler)
    (ctr : Nat) (s : GameState) (pi : Nat) (a : GameAction)
    (hwf : stateWF reg bases s = true)
    (hperm : ∀ l, (shuf l).Perm l)
    (hco : (alookup reg "condition-one").isSome = true) :
    (applyAction reg bases shuf ctr s pi a).isSome = true := by
  unfold applyAction
  have hcore := applyActionCore_isSome reg bases shuf hperm ctr s pi a hwf hco
  rcases hc : applyActionCore reg bases shuf ctr s pi a with _ | pr
  · rw [hc] at hcore
    cases hcore
  · rfl

def c1wreg : RegMap := [("condition-one", { id := "condition-one", type := "event" })]

def c1wbases : BasesMap :=
  [("b0", { id := "b0", title := "B", power := 1, startingInfluence := 10,
            handSize := 5, resource := "persuasion" })]

def c1wstate : GameState :=
  mkState (blankPlayer "b0") (blankPlayer "b0") GamePhase.execution

/-- Witness for C1 at a concrete well-formed input: `pass` applies. -/
theorem C1_witness :
    (applyAction c1wreg c1wbases id 0 c1wstate 0 GameAction.pass).isSome = true :=
  C1_theorem c1wreg c1wbases id 0 c1wstate 0 GameAction.pass (by decide)
    (fun l => List.Perm.refl l) (by decide)

end BSG
